import Mathlib

/-!
WX chat server: wire codec, offline store and delivery tracking.

A shallow embedding of the session/delivery core of the WX chat server
(`src/common/Protocol.cpp`, `src/chat/ChatServer.cpp`,
`src/network/tcp_socket.cpp`) together with theorems about it.

Conventions of the embedding:

* a `std::string` is a `List Char`; one list element stands for one `char`;
* a function with a `bool` result and an output parameter returns an `Option`;
* every reading of the wall clock, every outcome of a socket operation and the
  acknowledgment frames handled by other connection threads while a sender
  waits are explicit arguments;
* a `ClientSession*` is an index into the vector `m_activeClients`
  (`none` is `nullptr`); dereferencing an absent session makes the operation
  return `none`.
-/

namespace WX

/-- A `std::string`. -/
abbrev Str := List Char

/-! ## Protocol.hpp / Protocol.cpp -/

/-- The enumeration `Type` of Protocol.hpp; `Invalid` is `static_cast<Type>(-1)`. -/
inductive PType where
  | Login | Logout | Message | Response | Heartbeat | Ack | Invalid
deriving DecidableEq, Repr

/-- The record `MessageData` of Protocol.hpp. -/
structure MessageData where
  messageId : Str
  senderId : Str
  receiverId : Str
  content : Str
  timestamp : Str
deriving DecidableEq, Repr

/-- The record `AckData` of Protocol.hpp. -/
structure AckData where
  messageId : Str
  receiverId : Str
  timestamp : Str
deriving DecidableEq, Repr

/-- Characters of `s` up to the first `delim`, and the text after that
delimiter (`none` when the end of the text is reached first). -/
def readUntil (delim : Char) : Str → Str × Option Str
  | [] => ([], none)
  | c :: cs =>
    if c = delim then ([], some cs)
    else ((c :: (readUntil delim cs).1), (readUntil delim cs).2)

/-- The call `std::getline(iss, str, delim)` on an input string stream. The stream is
`some rest` while it is `good()` and `none` once `eofbit` or `failbit` is set.
The first component is the extracted text, `none` when the call fails
(the stream was not good, or no character at all was extracted). -/
def getline (delim : Char) : Option Str → Option Str × Option Str
  | none => (none, none)
  | some rest =>
    match readUntil delim rest with
    | (a, some r) => (some a, some r)
    | (a, none) => (if a = [] then none else some a, none)

/-- The function `ProtocolProcessor::validateMessageFields`. -/
def validateMessageFields (msg : MessageData) : Bool :=
  !msg.senderId.isEmpty && !msg.receiverId.isEmpty && !msg.content.isEmpty &&
    decide (msg.content.length ≤ 1000)

/-- The function `ProtocolProcessor::serializeMessage`; `now` is the value
`getCurrentTimestamp()` would return. -/
def serializeMessage (now : Str) (msg : MessageData) : Str :=
  if !validateMessageFields msg then []
  else
    "MESSAGE|".toList ++ msg.messageId ++ "|".toList ++ msg.senderId ++ "|".toList ++
      msg.receiverId ++ "|".toList ++ msg.content ++ "|".toList ++
      (if msg.timestamp.isEmpty then now else msg.timestamp)

/-- The function `ProtocolProcessor::deserializeMessage`; `none` is the result
`false` (the output record is then not assigned). `now` is the value
`getCurrentTimestamp()` would return. -/
def deserializeMessage (now : Str) (rawData : Str) : Option MessageData :=
  match getline '|' (some rawData) with
  | (none, _) => none
  | (some protocolType, iss1) =>
    if protocolType ≠ "MESSAGE".toList then none
    else
      match getline '|' iss1 with
      | (none, _) => none
      | (some messageId, iss2) =>
        match getline '|' iss2 with
        | (none, _) => none
        | (some sender, iss3) =>
          match getline '|' iss3 with
          | (none, _) => none
          | (some receiver, iss4) =>
            match getline '|' iss4 with
            | (none, _) => none
            | (some content, iss5) =>
              let timestamp := ((getline '\n' iss5).1).getD []
              let tempMsg : MessageData :=
                { messageId := messageId, senderId := sender, receiverId := receiver,
                  content := content,
                  timestamp := if !timestamp.isEmpty then timestamp else now }
              if !validateMessageFields tempMsg then none else some tempMsg

/-- The call `data.find(c)`: position of the first `c`, `none` for `npos`. -/
def find (c : Char) : Str → Option Nat
  | [] => none
  | d :: ds => if d = c then some 0 else (find c ds).map (· + 1)

/-- The function `ProtocolProcessor::parseProtocolType`. -/
def parseProtocolType (data : Str) : PType :=
  let typeStr : Str :=
    match find '|' data with
    | some pos => data.take pos
    | none => data
  if typeStr = "MESSAGE".toList then PType.Message
  else if typeStr = "LOGIN".toList then PType.Login
  else if typeStr = "LOGOUT".toList then PType.Logout
  else if typeStr = "RESPONSE".toList then PType.Response
  else if typeStr = "HEARTBEAT".toList then PType.Heartbeat
  else if typeStr = "ACK".toList then PType.Ack
  else PType.Invalid

/-- The function `ProtocolProcessor::deserializeAck`; `none` is the result `false`. -/
def deserializeAck (rawData : Str) : Option AckData :=
  match getline '|' (some rawData) with
  | (none, _) => none
  | (some protocolType, iss1) =>
    if protocolType ≠ "ACK".toList then none
    else
      match getline '|' iss1 with
      | (none, _) => none
      | (some messageId, iss2) =>
        match getline '|' iss2 with
        | (none, _) => none
        | (some receiverId, iss3) =>
          match getline '|' iss3 with
          | (none, _) => none
          | (some timestamp, _) =>
            if messageId.isEmpty || receiverId.isEmpty then none
            else some { messageId := messageId, receiverId := receiverId, timestamp := timestamp }

/-- Width of `size_t`, the type of the counter in `generateMessageId`. -/
def SIZE_MAX_PLUS_ONE : Nat := 2 ^ 64

/-- The function `ProtocolProcessor::generateMessageId`: `epochMs` is the
millisecond count of the system clock, `counter` the value of the static
atomic counter before the call; the result is the id and the new counter. -/
def generateMessageId (epochMs : Int) (counter : Nat) : Str × Nat :=
  let c := (counter + 1) % SIZE_MAX_PLUS_ONE
  ((Int.repr epochMs).toList ++ "_".toList ++ (Nat.repr c).toList, c)

/-! ## tcp_socket.cpp -/

/-- The constant `MAX_PIPE_MESSAGE_SIZE`. -/
def MAX_PIPE_MESSAGE_SIZE : Nat := 64 * 1024

/-- The function `TcpSocket::sendPipeMessage`; `wire` is whether the socket is valid
and both `sendAll` calls succeed. -/
def sendPipeMessage (wire : Bool) (message : Str) : Bool :=
  if message.length > MAX_PIPE_MESSAGE_SIZE then false else wire

/-! ## ChatServer.hpp / ChatServer.cpp -/

/-- The record `ChatServer::ClientSession`. `connected` is what
`socket.isConnected()` reports. -/
structure ClientSession where
  ip : Str
  port : Nat
  userId : Str
  isLoggedIn : Bool
  connected : Bool
deriving DecidableEq, Repr

/-- The record `ChatServer::MessageTransmission`. `targetClient` is the index
of the target session, `nextRetryTime` a reading of the steady clock (in
nanoseconds). -/
structure MessageTransmission where
  messageId : Str
  content : Str
  targetClient : Nat
  retryCount : Int
  nextRetryTime : Int
  acknowledged : Bool
deriving DecidableEq, Repr

/-- A `std::unordered_map<std::string, V>` as an association list. -/
abbrev StrMap (V : Type) := List (Str × V)

/-- The call `m.find(k)`: `none` for `m.end()`. -/
def mfind {V : Type} (k : Str) : StrMap V → Option V
  | [] => none
  | (k', v) :: r => if k' = k then some v else mfind k r

/-- The call `m.erase(k)`. -/
def merase {V : Type} (k : Str) : StrMap V → StrMap V
  | [] => []
  | (k', v) :: r => if k' = k then merase k r else (k', v) :: merase k r

/-- The assignment `m[k] = v`. -/
def massign {V : Type} (k : Str) (v : V) : StrMap V → StrMap V
  | [] => [(k, v)]
  | (k', v') :: r => if k' = k then (k, v) :: r else (k', v') :: massign k v r

/-- The mutable members of `ChatServer`, and the static counter of
`generateMessageId`. -/
structure ServerState where
  m_activeClients : List ClientSession
  m_offlineMessages : StrMap (List Str)
  m_pendingTransmissions : StrMap MessageTransmission
  counter : Nat
deriving DecidableEq, Repr

/-- The constant `MAX_OFFLINE_PER_USER` of `storeOfflineMessage`. -/
def MAX_OFFLINE_PER_USER : Nat := 100

/-- The constant `MAX_OFFLINE_MESSAGES` of `createBundledLoginResponse`. -/
def MAX_OFFLINE_MESSAGES : Nat := 50

/-- The queue of a user in the offline store, empty when the user has no entry. -/
def queueOf (userId : Str) (offline : StrMap (List Str)) : List Str :=
  (mfind userId offline).getD []

/-- The function `ChatServer::findUserById`: index of the first session with
this user id that is logged in. -/
def findUserById (userId : Str) : List ClientSession → Option Nat
  | [] => none
  | client :: rest =>
    if client.userId = userId && client.isLoggedIn then some 0
    else (findUserById userId rest).map (· + 1)

/-- The function `ChatServer::isUserOnline`. -/
def isUserOnline (userId : Str) (clients : List ClientSession) : Bool :=
  (findUserById userId clients).isSome

/-- The function `ChatServer::storeOfflineMessage`. -/
def storeOfflineMessage (recipientId message : Str) (s : ServerState) : ServerState :=
  if message.take 7 ≠ "MESSAGE".toList then s
  else
    let userMessages := queueOf recipientId s.m_offlineMessages
    let userMessages :=
      if userMessages.length ≥ MAX_OFFLINE_PER_USER then userMessages.tail else userMessages
    { s with m_offlineMessages :=
        massign recipientId (userMessages ++ [message]) s.m_offlineMessages }

/-- The bundling loop of `createBundledLoginResponse`: walks the queue, appending
each message (preceded by `|` after the first) until `actualCount` are taken. -/
def bundleLoop (actualCount : Nat) : List Str → Nat → Str → Str
  | [], _, bundledResponse => bundledResponse
  | offlineMsg :: rest, messageIndex, bundledResponse =>
    if messageIndex ≥ actualCount then bundledResponse
    else
      bundleLoop actualCount rest (messageIndex + 1)
        ((if messageIndex > 0 then bundledResponse ++ "|".toList else bundledResponse)
          ++ offlineMsg)

/-- The removal loop of `createBundledLoginResponse`: `pop_front` on a non-empty
queue, `actualCount` times. -/
def popLoop : Nat → List Str → List Str
  | 0, messageQueue => messageQueue
  | n + 1, messageQueue =>
    popLoop n (if !messageQueue.isEmpty then messageQueue.tail else messageQueue)

/-- The function `ChatServer::createBundledLoginResponse`. -/
def createBundledLoginResponse (userId : Str) (s : ServerState) : Str × ServerState :=
  match mfind userId s.m_offlineMessages with
  | none => ("RESPONSE|SUCCESS|LOGIN_OK|登录成功".toList, s)
  | some queue =>
    if queue.isEmpty then ("RESPONSE|SUCCESS|LOGIN_OK|登录成功".toList, s)
    else
      let actualCount := min queue.length MAX_OFFLINE_MESSAGES
      let bundledResponse :=
        "RESPONSE|SUCCESS|LOGIN_OK|登录成功|OFFLINE_COUNT:".toList ++
          (Nat.repr actualCount).toList ++ "|".toList
      let bundledResponse := bundleLoop actualCount queue 0 bundledResponse
      if actualCount ≥ queue.length then
        (bundledResponse, { s with m_offlineMessages := merase userId s.m_offlineMessages })
      else
        (bundledResponse,
          { s with m_offlineMessages :=
              massign userId (popLoop actualCount queue) s.m_offlineMessages })

/-- The function `ChatServer::handleAck`. The result is `none` when the frame decodes
and `senderClient` is not a registered session (the code then reads through
an absent session). -/
def handleAck (ackMessage : Str) (senderClient : Option Nat) (s : ServerState) :
    Option ServerState :=
  match deserializeAck ackMessage with
  | none => some s
  | some ackData =>
    match senderClient.bind (fun i => s.m_activeClients[i]?) with
    | none => none
    | some sender =>
      if ackData.receiverId ≠ sender.userId then some s
      else
        match mfind ackData.messageId s.m_pendingTransmissions with
        | some t =>
          some { s with m_pendingTransmissions :=
                  (massign ackData.messageId { t with acknowledged := true }
                    s.m_pendingTransmissions) }
        | none => some s

/-- What a call of `sendMessageWithAck` reads from outside the server state. -/
structure SendEnv where
  /-- The value of `getCurrentTimestamp()` inside `deserializeMessage`. -/
  nowDecode : Str
  /-- The value of `getCurrentTimestamp()` inside `serializeMessage`. -/
  nowEncode : Str
  /-- The system clock, in milliseconds, read by `generateMessageId`. -/
  epochMs : Int
  /-- The steady clock read when the `MessageTransmission` is built. -/
  steadyNow : Int
  /-- Whether the socket writes of `sendPipeMessage` succeed. -/
  wire : Bool
  /-- The frames passed to `handleAck` by other connection threads, with the
  session each is handled for, between the registration of the pending
  delivery and the end of the 3 second wait. -/
  acks : List (Str × Option Nat)

/-- The concurrent `handleAck` calls that run while a sender waits. -/
def handleAcks : List (Str × Option Nat) → ServerState → Option ServerState
  | [], s => some s
  | (ackMessage, senderClient) :: rest, s =>
    match handleAck ackMessage senderClient s with
    | none => none
    | some s1 => handleAcks rest s1

/-- The function `ChatServer::sendMessageWithAck`. The wait on the condition variable is
the run of the concurrent `handleAck` calls `env.acks`; its result is the
`acknowledged` flag of the pending delivery afterwards. The result is `none`
when an absent session is read. -/
def sendMessageWithAck (env : SendEnv) (targetClient : Option Nat) (message : Str)
    (s : ServerState) : Option (Bool × ServerState) :=
  match targetClient with
  | none => some (false, s)
  | some target =>
    match s.m_activeClients[target]? with
    | none => none
    | some targetSession =>
      if !targetSession.connected then some (false, s)
      else
        let msgType := parseProtocolType message
        if msgType = PType.Message then
          match deserializeMessage env.nowDecode message with
          | none => some (false, s)
          | some decoded =>
            let gen := generateMessageId env.epochMs s.counter
            let msgData : MessageData :=
              if decoded.messageId.isEmpty then { decoded with messageId := gen.1 } else decoded
            let messageToSend :=
              if decoded.messageId.isEmpty then serializeMessage env.nowEncode msgData
              else message
            let s0 : ServerState :=
              if decoded.messageId.isEmpty then { s with counter := gen.2 } else s
            let messageId := msgData.messageId
            if !sendPipeMessage env.wire messageToSend then some (false, s0)
            else
              let transmission : MessageTransmission :=
                { messageId := messageId, content := messageToSend, targetClient := target,
                  retryCount := 0, nextRetryTime := env.steadyNow, acknowledged := false }
              let s1 : ServerState :=
                { s0 with m_pendingTransmissions :=
                    massign messageId transmission s0.m_pendingTransmissions }
              match handleAcks env.acks s1 with
              | none => none
              | some s2 =>
                let ackReceived :=
                  match mfind messageId s2.m_pendingTransmissions with
                  | some tr => tr.acknowledged
                  | none => false
                some (ackReceived,
                  { s2 with m_pendingTransmissions := merase messageId s2.m_pendingTransmissions })
        else if msgType = PType.Response then
          if !sendPipeMessage env.wire message then some (false, s) else some (true, s)
        else some (sendPipeMessage env.wire message, s)

/-- What a call of the router reads from outside the server state. -/
structure RouterEnv where
  /-- The value of `getCurrentTimestamp()` inside the router's `deserializeMessage`. -/
  nowDecode : Str
  /-- The value of `getCurrentTimestamp()` inside the router's `serializeMessage`. -/
  nowEncode : Str
  /-- The environment of the `sendMessageWithAck` call, when there is one. -/
  send : SendEnv

/-- The function `ChatServer::processMessage(rawMessage, currentClient, activeClients)`: the
reply and the new state; `none` when an absent session is read. -/
def processMessage (env : RouterEnv) (rawMessage : Str) (currentClient : Option Nat)
    (s : ServerState) : Option (Str × ServerState) :=
  if rawMessage.take 3 = "ACK".toList then
    (handleAck rawMessage currentClient s).map (fun s1 => ([], s1))
  else
    match currentClient with
    | none => some ("RESPONSE|ERROR|LOGIN_FAILED|登录失败：服务器内部错误，请稍后重试".toList, s)
    | some cur =>
      if rawMessage.take 5 = "LOGIN".toList then
        let userId : Str :=
          match find '|' rawMessage with
          | some pos => rawMessage.drop (pos + 1)
          | none => []
        if !userId.isEmpty then
          match s.m_activeClients[cur]? with
          | none => none
          | some client =>
            some (createBundledLoginResponse userId
              { s with m_activeClients :=
                  s.m_activeClients.set cur { client with isLoggedIn := true, userId := userId } })
        else some ("RESPONSE|ERROR|LOGIN_FAILED|登录失败：无效的用户ID".toList, s)
      else if rawMessage.take 7 = "MESSAGE".toList then
        match deserializeMessage env.nowDecode rawMessage with
        | none => some ("RESPONSE|ERROR|PROTOCOL_ERROR|消息格式错误，请检查协议版本".toList, s)
        | some msgData =>
          let senderId := msgData.senderId
          let recipientId := msgData.receiverId
          if !senderId.isEmpty && !recipientId.isEmpty then
            if isUserOnline recipientId s.m_activeClients then
              let recipientSession := findUserById recipientId s.m_activeClients
              if (recipientSession.bind (fun i => s.m_activeClients[i]?)).any (·.connected) then
                let forwardMessage := serializeMessage env.nowEncode msgData
                match sendMessageWithAck env.send recipientSession forwardMessage s with
                | none => none
                | some (true, s1) =>
                  some ("RESPONSE|SUCCESS|MESSAGE_SENT|消息已发送并确认".toList, s1)
                | some (false, s1) =>
                  some ("RESPONSE|ERROR|SEND_FAILED|转发失败，已保存为离线消息".toList,
                    storeOfflineMessage recipientId forwardMessage s1)
              else
                some ("RESPONSE|SUCCESS|MESSAGE_CACHED|接收者连接异常，已保存为离线消息".toList,
                  storeOfflineMessage recipientId (serializeMessage env.nowEncode msgData) s)
            else
              some ("RESPONSE|SUCCESS|MESSAGE_CACHED|消息已缓存".toList,
                storeOfflineMessage recipientId (serializeMessage env.nowEncode msgData) s)
          else some ("RESPONSE|ERROR|INVALID_FORMAT|消息格式无效".toList, s)
      else if rawMessage.take 6 = "LOGOUT".toList then
        match s.m_activeClients[cur]? with
        | none => none
        | some client =>
          some ("RESPONSE|SUCCESS|LOGOUT_OK|登出成功".toList,
            { s with m_activeClients :=
                s.m_activeClients.set cur { client with isLoggedIn := false } })
      else some ("RESPONSE|ERROR|UNKNOWN_COMMAND|未知命令".toList, s)

/-- What a call of `deliverOfflineMessages` reads from outside the server state. -/
structure DeliverEnv where
  /-- Whether the socket writes of the notification frame succeed. -/
  notifyWire : Bool
  /-- The environment of the `n`-th `sendMessageWithAck` call of the loop. -/
  attempts : Nat → SendEnv

/-- The delivery loop of `deliverOfflineMessages`: `attempt` counts the
`sendMessageWithAck` calls made so far, `failed` the consecutive failures.
The loop takes at most `3 * size + 3` rounds; `fuel` bounds them. -/
def deliverLoop (env : DeliverEnv) (client : Nat) (userId : Str) :
    Nat → Nat → Nat → ServerState → Option ServerState
  | 0, _, _, s => some s
  | fuel + 1, attempt, failed, s =>
    let queue := queueOf userId s.m_offlineMessages
    if queue.isEmpty || failed ≥ 3 then some s
    else
      match sendMessageWithAck (env.attempts attempt) (some client) (queue.headD []) s with
      | none => none
      | some (true, s1) =>
        deliverLoop env client userId fuel (attempt + 1) 0
          { s1 with m_offlineMessages :=
              massign userId (queueOf userId s1.m_offlineMessages).tail s1.m_offlineMessages }
      | some (false, s1) =>
        if failed + 1 ≥ 3 then some s1
        else deliverLoop env client userId fuel (attempt + 1) (failed + 1) s1

/-- The function `ChatServer::deliverOfflineMessages`. -/
def deliverOfflineMessages (env : DeliverEnv) (userId : Str) (s : ServerState) :
    Option ServerState :=
  match mfind userId s.m_offlineMessages with
  | none => some s
  | some queue =>
    if queue.isEmpty then some s
    else
      match findUserById userId s.m_activeClients with
      | none => some s
      | some client =>
        if (s.m_activeClients[client]?).any (·.connected) then
          let offlineNotify :=
            "RESPONSE|OFFLINE_MESSAGES|COUNT|".toList ++ (Nat.repr queue.length).toList ++
              "|离线消息准备投递".toList
          if !sendPipeMessage env.notifyWire offlineNotify then some s
          else
            match deliverLoop env client userId (3 * queue.length + 3) 0 0 s with
            | none => none
            | some s1 =>
              if (queueOf userId s1.m_offlineMessages).isEmpty then
                some { s1 with m_offlineMessages := merase userId s1.m_offlineMessages }
              else some s1
        else some s

/-- One call of an operation on the offline store. -/
inductive OfflineOp where
  | store (recipientId message : Str)
  | bundle (userId : Str)
  | deliver (env : DeliverEnv) (userId : Str)

/-- The state after one operation on the offline store. -/
def applyOp : OfflineOp → ServerState → Option ServerState
  | OfflineOp.store recipientId message, s => some (storeOfflineMessage recipientId message s)
  | OfflineOp.bundle userId, s => some (createBundledLoginResponse userId s).2
  | OfflineOp.deliver env userId, s => deliverOfflineMessages env userId s

/-- The states reached from a state with an empty offline store by calls of
`storeOfflineMessage`, `createBundledLoginResponse` and `deliverOfflineMessages`. -/
inductive StoreReachable : ServerState → Prop where
  | init (s : ServerState) (h : s.m_offlineMessages = []) : StoreReachable s
  | step (s s1 : ServerState) (op : OfflineOp) (hs : StoreReachable s)
      (h : applyOp op s = some s1) : StoreReachable s1

/-- The id under which `sendMessageWithAck` tracks a decoded message: its own id,
or a generated one when it has none. -/
def trackedId (env : SendEnv) (s : ServerState) (decoded : MessageData) : Str :=
  if decoded.messageId.isEmpty then (generateMessageId env.epochMs s.counter).1
  else decoded.messageId

/-- The text `sendMessageWithAck` hands to the socket for a decoded message: the message
itself, or its re-encoding with the generated id. -/
def outgoingText (env : SendEnv) (s : ServerState) (message : Str) (decoded : MessageData) :
    Str :=
  if decoded.messageId.isEmpty then
    serializeMessage env.nowEncode
      { decoded with messageId := (generateMessageId env.epochMs s.counter).1 }
  else message

/-- The state after `sendMessageWithAck` has settled the id of a decoded message. -/
def afterIdAssignment (env : SendEnv) (s : ServerState) (decoded : MessageData) : ServerState :=
  if decoded.messageId.isEmpty then
    { s with counter := (generateMessageId env.epochMs s.counter).2 }
  else s

/-- The state after `sendMessageWithAck` has registered the pending delivery. -/
def registerPending (env : SendEnv) (target : Nat) (message : Str) (decoded : MessageData)
    (s : ServerState) : ServerState :=
  { afterIdAssignment env s decoded with
    m_pendingTransmissions :=
      (massign (trackedId env s decoded)
        { messageId := trackedId env s decoded, content := outgoingText env s message decoded,
          targetClient := target, retryCount := 0, nextRetryTime := env.steadyNow,
          acknowledged := false }
        (afterIdAssignment env s decoded).m_pendingTransmissions) }

/-- The text `sendMessageWithAck` hands to the socket for `message`. -/
def transmittedText (env : SendEnv) (s : ServerState) (message : Str) : Str :=
  match deserializeMessage env.nowDecode message with
  | some decoded => outgoingText env s message decoded
  | none => message

/-- The frame `e`, handled for the session it comes with, is applied by `handleAck`
to the pending delivery `messageId`: it decodes to that message id and its
receiver id is the user id bound to that session. -/
def AckApplies (clients : List ClientSession) (messageId : Str) (e : Str × Option Nat) :
    Prop :=
  ∃ ack i sender, deserializeAck e.1 = some ack ∧ e.2 = some i ∧ clients[i]? = some sender ∧
    ack.receiverId = sender.userId ∧ ack.messageId = messageId

/-- Every frame of the list is handled for a registered session. -/
def AcksRegistered (clients : List ClientSession) (acks : List (Str × Option Nat)) : Prop :=
  ∀ e ∈ acks, ∃ i, e.2 = some i ∧ i < clients.length

/-- Every queue held in the store has at most 100 entries. -/
def QueuesBounded (offline : StrMap (List Str)) : Prop :=
  ∀ e ∈ offline, e.2.length ≤ 100

/-! ## Router entry point by client address -/

/-- The C function `isspace` in the default locale. -/
def isspace (c : Char) : Bool :=
  c = ' ' || c = '\t' || c = '\n' || c = Char.ofNat 11 || c = Char.ofNat 12 || c = '\r'

/-- The call `std::stoi(str)`: leading white space, an optional sign, then decimal
digits; `none` when it throws (`std::invalid_argument` without a digit,
`std::out_of_range` outside `int`). -/
def stoi (str : Str) : Option Int :=
  let s1 := str.dropWhile isspace
  let negative := s1.head? = some '-'
  let s2 : Str :=
    match s1 with
    | '-' :: r => r
    | '+' :: r => r
    | _ => s1
  let digits := s2.takeWhile Char.isDigit
  if digits.isEmpty then none
  else
    let magnitude : Int := digits.foldl (fun a c => 10 * a + ((c.toNat : Int) - 48)) 0
    let value : Int := if negative then -magnitude else magnitude
    if value < -2147483648 ∨ 2147483647 < value then none else some value

/-- The conversion `(uint16_t)` of an `int`. -/
def toUInt16 (v : Int) : Nat := (v % 65536).toNat

/-- The search loop of `findClientByAddr`: index of the first session with this
address. -/
def findByIpPort (ip : Str) (port : Nat) : List ClientSession → Option Nat
  | [] => none
  | client :: rest =>
    if client.ip = ip && client.port = port then some 0
    else (findByIpPort ip port rest).map (· + 1)

/-- The function `ChatServer::findClientByAddr`. -/
def findClientByAddr (addr : Str) (clients : List ClientSession) : Option Nat :=
  match find ':' addr with
  | none => none
  | some colon =>
    let ip := addr.take colon
    let portStr := addr.drop (colon + 1)
    match stoi portStr with
    | none => none
    | some v => findByIpPort ip (toUInt16 v) clients

/-- The function `ChatServer::processMessage(rawMessage, clientId)`: the reply and the new
state; `none` when `std::stoi` throws out of the function or an absent
session is read. -/
def processMessageByClientId (env : RouterEnv) (rawMessage clientId : Str) (s : ServerState) :
    Option (Str × ServerState) :=
  let currentClient := findClientByAddr clientId s.m_activeClients
  if rawMessage.take 5 = "LOGIN".toList then
    let created : Option (Option Nat × ServerState) :=
      match currentClient with
      | some c => some (some c, s)
      | none =>
        match find ':' clientId with
        | none => some (none, s)
        | some colon =>
          match stoi (clientId.drop (colon + 1)) with
          | none => none
          | some v =>
            some (some s.m_activeClients.length,
              { s with m_activeClients :=
                  (s.m_activeClients ++
                    [{ ip := clientId.take colon, port := toUInt16 v, userId := [],
                       isLoggedIn := false, connected := false }]) })
    match created with
    | none => none
    | some (none, s1) => processMessage env rawMessage none s1
    | some (some c, s1) =>
      match find '|' rawMessage with
      | none => processMessage env rawMessage (some c) s1
      | some pos =>
        match s1.m_activeClients[c]? with
        | none => none
        | some client =>
          processMessage env rawMessage (some c)
            { s1 with m_activeClients :=
                (s1.m_activeClients.set c
                  { client with userId := rawMessage.drop (pos + 1), isLoggedIn := true }) }
  else processMessage env rawMessage currentClient s

/-! ## Statement vocabulary for the codec -/

/-- The fields of a text: the pieces between its `delim` characters. -/
def splitFields (delim : Char) : Str → List Str
  | [] => [[]]
  | c :: cs =>
    if c = delim then [] :: splitFields delim cs
    else
      match splitFields delim cs with
      | [] => [[c]]
      | f :: fs => (c :: f) :: fs

/-- The signature `bool deserializeMessage(rawData, msg)`: the result and the output
record after the call. -/
def deserializeMessageInto (now rawData : Str) (msg : MessageData) : Bool × MessageData :=
  match deserializeMessage now rawData with
  | some decoded => (true, decoded)
  | none => (false, msg)

/-- The type named by a leading tag, as the protocol table lists them. -/
def classifyTag (tag : Str) : PType :=
  if tag = "LOGIN".toList then PType.Login
  else if tag = "LOGOUT".toList then PType.Logout
  else if tag = "MESSAGE".toList then PType.Message
  else if tag = "RESPONSE".toList then PType.Response
  else if tag = "HEARTBEAT".toList then PType.Heartbeat
  else if tag = "ACK".toList then PType.Ack
  else PType.Invalid

/-! ## Retry sweep -/

/-- The constant `MAX_RETRIES`. -/
def MAX_RETRIES : Int := 3

/-- The constant `RETRY_INTERVAL_MS`. -/
def RETRY_INTERVAL_MS : Int := 1000

/-- The duration `std::chrono::milliseconds(n)` in ticks of the steady clock
(nanoseconds). -/
def milliseconds (n : Int) : Int := n * 1000000

/-- What a call of `processRetryTransmissions` reads from outside the server state. -/
structure RetryEnv where
  /-- The steady clock read at the start of the sweep. -/
  now : Int
  /-- The value of `getCurrentTimestamp()` while the delivery with this key is
  decoded. -/
  nowDecode : Str → Str
  /-- Whether the socket writes succeed when the delivery with this key is
  resent. -/
  wire : Str → Bool

/-- One call of `sendPipeMessage` made by the sweep. -/
structure Resend where
  key : Str
  targetClient : Nat
  payload : Str
  delivered : Bool
deriving DecidableEq, Repr

/-- What the loop body of `processRetryTransmissions` does with one delivery. -/
structure EntryOutcome where
  /-- The delivery after the body. -/
  transmission : MessageTransmission
  /-- Whether its key is pushed on `completedTransmissions`. -/
  completed : Bool
  /-- The resend made, if any. -/
  resend : Option Resend
deriving DecidableEq, Repr

/-- The exhaustion path of the sweep: decode the payload and store it offline for
its receiver. -/
def storeExhausted (env : RetryEnv) (key : Str) (tr : MessageTransmission) (s : ServerState) :
    ServerState :=
  match deserializeMessage (env.nowDecode key) tr.content with
  | some msgData => storeOfflineMessage msgData.receiverId tr.content s
  | none => s

/-- The loop body of `processRetryTransmissions` for the pair `(key, tr)`; `none` when
the target session is absent. -/
def retryEntry (env : RetryEnv) (key : Str) (tr : MessageTransmission) (s : ServerState) :
    Option (EntryOutcome × ServerState) :=
  if tr.acknowledged then
    some ({ transmission := tr, completed := true, resend := none }, s)
  else if env.now ≥ tr.nextRetryTime then
    if tr.retryCount ≥ MAX_RETRIES then
      some ({ transmission := tr, completed := true, resend := none },
        storeExhausted env key tr s)
    else
      match s.m_activeClients[tr.targetClient]? with
      | none => none
      | some target =>
        if target.connected then
          some ({ transmission :=
                    { tr with
                      retryCount := tr.retryCount + 1,
                      nextRetryTime :=
                        env.now + milliseconds (RETRY_INTERVAL_MS * (tr.retryCount + 1)) },
                  completed := false,
                  resend := some { key := key, targetClient := tr.targetClient,
                                   payload := tr.content,
                                   delivered := sendPipeMessage (env.wire key) tr.content } },
            s)
        else
          some ({ transmission := tr, completed := true, resend := none },
            storeExhausted env key tr s)
  else some ({ transmission := tr, completed := false, resend := none }, s)

/-- The first loop of `processRetryTransmissions` over the pending deliveries: the
deliveries after the loop, the completed keys, the resends made and the
state. -/
def retryLoop (env : RetryEnv) :
    List (Str × MessageTransmission) → ServerState →
      Option (List (Str × MessageTransmission) × List Str × List Resend × ServerState)
  | [], s => some ([], [], [], s)
  | (key, tr) :: rest, s =>
    match retryEntry env key tr s with
    | none => none
    | some (outcome, s1) =>
      match retryLoop env rest s1 with
      | none => none
      | some (entries, completedTransmissions, resends, s2) =>
        some ((key, outcome.transmission) :: entries,
          (if outcome.completed then key :: completedTransmissions else completedTransmissions),
          outcome.resend.toList ++ resends,
          s2)

/-- The second loop of `processRetryTransmissions`: erase the completed keys. -/
def eraseCompleted : List Str → StrMap MessageTransmission → StrMap MessageTransmission
  | [], pending => pending
  | msgId :: rest, pending => eraseCompleted rest (merase msgId pending)

/-- The function `ChatServer::processRetryTransmissions`: the new state and the resends made;
`none` when an absent session is read. -/
def processRetryTransmissions (env : RetryEnv) (s : ServerState) :
    Option (ServerState × List Resend) :=
  if s.m_pendingTransmissions.isEmpty then some (s, [])
  else
    match retryLoop env s.m_pendingTransmissions s with
    | none => none
    | some (entries, completedTransmissions, resends, s1) =>
      some ({ s1 with m_pendingTransmissions := eraseCompleted completedTransmissions entries },
        resends)

/-- The keys of a map are pairwise distinct, as in every `std::unordered_map`. -/
def UniqueKeys {V : Type} (m : StrMap V) : Prop := (m.map Prod.fst).Nodup

/-- A delivery after one resend made at the sweep time `now`. -/
def resentOnce (now : Int) (tr : MessageTransmission) : MessageTransmission :=
  { tr with
    retryCount := tr.retryCount + 1,
    nextRetryTime := now + milliseconds (RETRY_INTERVAL_MS * (tr.retryCount + 1)) }

/-- The record of the resend of a delivery by a sweep. -/
def resendOf (env : RetryEnv) (key : Str) (tr : MessageTransmission) : Resend :=
  { key := key, targetClient := tr.targetClient, payload := tr.content,
    delivered := sendPipeMessage (env.wire key) tr.content }

/-- The offline queue after `payload` is enqueued: the oldest entry of a full
queue is evicted first. -/
def enqueued (queue : List Str) (payload : Str) : List Str :=
  (if 100 ≤ queue.length then queue.tail else queue) ++ [payload]

/-! ## Successive sweeps and reachable pending maps -/

/-- The resends made for the delivery `key`, among the resends of a sweep. -/
def resendsOf (key : Str) (resends : List Resend) : List Resend :=
  resends.filter (fun r => decide (r.key = key))

/-- Sweeps made one after the other: the state after the last one and the
resends of all of them, in order. -/
def successiveSweeps : List RetryEnv → ServerState → Option (ServerState × List Resend)
  | [], s => some (s, [])
  | env :: rest, s =>
    match processRetryTransmissions env s with
    | none => none
    | some (s1, resends) =>
      match successiveSweeps rest s1 with
      | none => none
      | some (s2, later) => some (s2, resends ++ later)

/-- One operation on the pending deliveries: the registration and the erasure
made by `sendMessageWithAck`, a call of `handleAck`, a sweep. -/
inductive PendingOp where
  | register (env : SendEnv) (target : Nat) (message : Str) (decoded : MessageData)
  | ack (ackMessage : Str) (senderClient : Option Nat)
  | erase (messageId : Str)
  | sweep (env : RetryEnv)

/-- The state after one operation on the pending deliveries. -/
def applyPendingOp : PendingOp → ServerState → Option ServerState
  | PendingOp.register env target message decoded, s =>
    some (registerPending env target message decoded s)
  | PendingOp.ack ackMessage senderClient, s => handleAck ackMessage senderClient s
  | PendingOp.erase messageId, s =>
    some { s with m_pendingTransmissions := merase messageId s.m_pendingTransmissions }
  | PendingOp.sweep env, s => (processRetryTransmissions env s).map Prod.fst

/-- The states reached from a state without pending deliveries by the operations
on the pending deliveries. -/
inductive PendingReachable : ServerState → Prop where
  | init (s : ServerState) (h : s.m_pendingTransmissions = []) : PendingReachable s
  | step (s s1 : ServerState) (op : PendingOp) (hs : PendingReachable s)
      (h : applyPendingOp op s = some s1) : PendingReachable s1

/-! ## Stale-delivery cleanup -/

/-- The duration `std::chrono::minutes(n)`, in nanoseconds. -/
def minutes (n : Int) : Int := n * 60000000000

/-- The first loop of `cleanupTimeoutTransmissions`: the keys pushed on
`timeoutTransmissions`. -/
def timeoutLoop (now : Int) : List (Str × MessageTransmission) → List Str
  | [] => []
  | (key, transmission) :: rest =>
    if now - transmission.nextRetryTime > minutes 5 then key :: timeoutLoop now rest
    else timeoutLoop now rest

/-- The function `ChatServer::cleanupTimeoutTransmissions`; `now` is the steady clock read
at its start. Its second loop erases the collected keys one by one, as the
second loop of `processRetryTransmissions` does. -/
def cleanupTimeoutTransmissions (now : Int) (s : ServerState) : ServerState :=
  if s.m_pendingTransmissions.isEmpty then s
  else
    { s with m_pendingTransmissions :=
        eraseCompleted (timeoutLoop now s.m_pendingTransmissions) s.m_pendingTransmissions }

/-! ## Session registration -/

/-- The function `ChatServer::createSession`: the new session is pushed at the back of
`m_activeClients`; `connected` is the state of the socket moved into it. The
result is the new session and the new state. -/
def createSession (ip : Str) (port : Nat) (connected : Bool) (s : ServerState) :
    Nat × ServerState :=
  (s.m_activeClients.length,
    { s with m_activeClients :=
        (s.m_activeClients ++
          [{ ip := ip, port := port, userId := [], isLoggedIn := false,
             connected := connected }]) })

/-! ## Output record of the acknowledgment decoder -/

/-- The signature `bool deserializeAck(rawData, ack)`: the result and the output record
after the call. -/
def deserializeAckInto (rawData : Str) (ack : AckData) : Bool × AckData :=
  match deserializeAck rawData with
  | some decoded => (true, decoded)
  | none => (false, ack)

/-! ## ClientHandler.hpp -/

/-- Whether `processMessage(rawMessage, clientId)` throws: the `std::stoi` call of its
session-creating path is the one call outside a `try` block. -/
def processMessageThrows (rawMessage clientId : Str) (s : ServerState) : Bool :=
  rawMessage.take 5 = "LOGIN".toList &&
    (findClientByAddr clientId s.m_activeClients).isNone &&
    (match find ':' clientId with
     | none => false
     | some colon => (stoi (clientId.drop (colon + 1))).isNone)

/-- The delivery loop of `deliverOfflineMessages` with the result of each
`sendMessageWithAck` call recorded, in order. -/
def deliverTrace (env : DeliverEnv) (client : Nat) (userId : Str) :
    Nat → Nat → Nat → ServerState → Option (List Bool × ServerState)
  | 0, _, _, s => some ([], s)
  | fuel + 1, attempt, failed, s =>
    let queue := queueOf userId s.m_offlineMessages
    if queue.isEmpty || failed ≥ 3 then some ([], s)
    else
      match sendMessageWithAck (env.attempts attempt) (some client) (queue.headD []) s with
      | none => none
      | some (true, s1) =>
        (deliverTrace env client userId fuel (attempt + 1) 0
          { s1 with m_offlineMessages :=
              (massign userId (queueOf userId s1.m_offlineMessages).tail
                s1.m_offlineMessages) }).map
          (fun p => (true :: p.1, p.2))
      | some (false, s1) =>
        if failed + 1 ≥ 3 then some ([false], s1)
        else
          (deliverTrace env client userId fuel (attempt + 1) (failed + 1) s1).map
            (fun p => (false :: p.1, p.2))

/-- The counter `failed` of the delivery loop after the given results, starting
from `failed`: a success resets it, a failure increments it. -/
def failedAfter (failed : Nat) (outcomes : List Bool) : Nat :=
  outcomes.foldl (fun f delivered => if delivered then 0 else f + 1) failed

/-! ## Clock texts -/

/-- A text `getCurrentTimestamp` can return: the format `%Y-%m-%d %H:%M:%S` yields a
non-empty text made of digits, `-`, blanks and `:`. -/
def IsTimestampText (now : Str) : Prop :=
  now ≠ [] ∧ ∀ ch ∈ now, ch.isDigit = true ∨ ch = '-' ∨ ch = ' ' ∨ ch = ':'

/-! ## Reachable states of the server -/

/-- The call `s.find(pat)` for a text `pat`: the position of its first occurrence in
`s`, `none` for `npos`. -/
def findSub (pat : Str) : Str → Option Nat
  | [] => if pat.isEmpty then some 0 else none
  | c :: cs => if pat.isPrefixOf (c :: cs) then some 0 else (findSub pat cs).map (· + 1)

/-- The tokenizing loop of `extractOfflineMessageDetails`: it splits `part` at its `|`
characters, without a last token when the text ends there. `rest` is
`part.substr(p)`, the call `part.find('|', p)` is `find` on it. Every round consumes
a character; the result is `none` when the fuel runs out first. -/
def tokenLoop : Nat → Str → Option (List Str)
  | 0, _ => none
  | fuel + 1, rest =>
    if rest.isEmpty then some []
    else
      match find '|' rest with
      | none => some [rest]
      | some q => (tokenLoop fuel (rest.drop (q + 1))).map (fun tokens => rest.take q :: tokens)

/-- What `extractOfflineMessageDetails` pushes on `messages` for one segment `part` with
its `tokens`; `now` is the value of `getCurrentTimestamp()` in the fallback call
of `deserializeMessage`. -/
def extractPart (now part : Str) (tokens : List Str) : List MessageData :=
  if tokens.length ≥ 6 ∧ tokens[0]? = some "MESSAGE".toList then
    [{ messageId := (tokens[1]?).getD [], senderId := (tokens[2]?).getD [],
       receiverId := (tokens[3]?).getD [], content := (tokens[4]?).getD [],
       timestamp := List.intercalate "|".toList (tokens.drop 5) }]
  else
    match deserializeMessage now part with
    | some md => [md]
    | none => []

/-- The segment loop of `extractOfflineMessageDetails`. `tail` is
`bundledResponse.substr(cur)`, so that `bundledResponse.find("MESSAGE|", cur + 1)` is `findSub`
on `tail.drop 1`; `clock part` is the clock read while `part` is decoded. Every
round consumes a character; the result is `none` when the fuel runs out
first. -/
def extractLoop (clock : Str → Str) : Nat → Str → Option (List MessageData)
  | 0, _ => none
  | fuel + 1, tail =>
    let next := findSub "MESSAGE|".toList (tail.drop 1)
    let part : Str :=
      match next with
      | none => tail
      | some off => tail.take (off + 1)
    match tokenLoop (part.length + 1) part with
    | none => none
    | some tokens =>
      match next with
      | none => some (extractPart (clock part) part tokens)
      | some off =>
        (extractLoop clock fuel (tail.drop (off + 1))).map
          (fun later => extractPart (clock part) part tokens ++ later)

/-- The function `ChatClientApp::extractOfflineMessageDetails`. -/
def extractOfflineMessageDetails (clock : Str → Str) (bundledResponse : Str) :
    Option (List MessageData) :=
  match findSub "OFFLINE_COUNT:".toList bundledResponse with
  | none => some []
  | some countPos =>
    match findSub "MESSAGE|".toList (bundledResponse.drop countPos) with
    | none => some []
    | some off =>
      extractLoop clock (bundledResponse.length + 1) (bundledResponse.drop (countPos + off))

/-- The text does not hold the word `MESSAGE`. -/
def NoTag (field : Str) : Prop := ¬ "MESSAGE".toList <:+: field

instance instDecidableNoTag (field : Str) : Decidable (NoTag field) :=
  inferInstanceAs (Decidable (¬ "MESSAGE".toList <:+: field))

/-- The record with the fields `serializeMessage` writes for `msg`: an empty timestamp is
written as the clock reading `now`. -/
def writtenRecord (now : Str) (msg : MessageData) : MessageData :=
  { msg with timestamp := if msg.timestamp.isEmpty then now else msg.timestamp }

/-! ## Concrete records and states used in the examples -/

/-- A clock text as `getCurrentTimestamp` formats it. -/
def clockText : Str := "2025-01-01 00:00:00".toList

/-- A well-formed message. -/
def plainMessage : MessageData :=
  { messageId := "1".toList, senderId := "A".toList, receiverId := "B".toList,
    content := "hi".toList, timestamp := "2025-01-01 08:30:00".toList }

/-- A message whose sender id holds the delimiter. -/
def pipeMessage : MessageData :=
  { messageId := "1".toList, senderId := "a|b".toList, receiverId := "c".toList,
    content := "hi".toList, timestamp := "t".toList }

/-- A message without a timestamp. -/
def untimedMessage : MessageData :=
  { messageId := "1".toList, senderId := "A".toList, receiverId := "B".toList,
    content := "hi".toList, timestamp := [] }

/-- A message whose timestamp holds a line break. -/
def twoLineMessage : MessageData :=
  { messageId := "1".toList, senderId := "A".toList, receiverId := "B".toList,
    content := "hi".toList, timestamp := "t\nu".toList }

/-- Three connected sessions, logged in as `A`, `B` and `C`. -/
def threeClients : List ClientSession :=
  [ { ip := "10.0.0.1".toList, port := 5001, userId := "A".toList, isLoggedIn := true,
      connected := true },
    { ip := "10.0.0.2".toList, port := 5002, userId := "B".toList, isLoggedIn := true,
      connected := true },
    { ip := "10.0.0.3".toList, port := 5003, userId := "C".toList, isLoggedIn := true,
      connected := true } ]

/-- A server with three sessions and nothing stored or pending. -/
def idleServer : ServerState :=
  { m_activeClients := threeClients, m_offlineMessages := [], m_pendingTransmissions := [],
    counter := 0 }

/-- A server where message `X`, sent to the session of `B`, awaits its acknowledgment. -/
def waitingServer : ServerState :=
  { idleServer with
    m_pendingTransmissions :=
      [("X".toList,
        { messageId := "X".toList, content := "MESSAGE|X|A|B|hi|t".toList, targetClient := 1,
          retryCount := 0, nextRetryTime := 0, acknowledged := false })] }

/-- A server where the offline queue of `B` holds 100 messages. -/
def fullServer : ServerState :=
  { idleServer with
    m_offlineMessages :=
      [("B".toList, (List.range 100).map
          (fun n => "MESSAGE|".toList ++ (Nat.repr n).toList ++ "|A|B|old|t".toList))] }

/-- A router environment in which every socket write succeeds and no
acknowledgment arrives. -/
def quietEnv : RouterEnv :=
  { nowDecode := clockText, nowEncode := clockText,
    send := { nowDecode := clockText, nowEncode := clockText, epochMs := 1735689600000,
              steadyNow := 0, wire := true, acks := [] } }

/-- A server with two connected sessions: the first logged in as `A`, the
second not logged in yet. -/
def lobbyServer : ServerState :=
  { m_activeClients :=
      [ { ip := "10.0.0.1".toList, port := 5001, userId := "A".toList, isLoggedIn := true,
          connected := true },
        { ip := "10.0.0.2".toList, port := 5002, userId := [], isLoggedIn := false,
          connected := true } ],
    m_offlineMessages := [], m_pendingTransmissions := [], counter := 0 }

/-- A router environment in which the socket write to the receiver fails. -/
def brokenWireEnv : RouterEnv :=
  { quietEnv with send := { quietEnv.send with wire := false } }

/-- A router environment in which, during the wait, the session of `B`
acknowledges message `2` and then message `1`. -/
def ackingEnv : RouterEnv :=
  { quietEnv with
    send := { quietEnv.send with
              acks := [("ACK|2|B|t".toList, some 1), ("ACK|1|B|t".toList, some 1)] } }

/-- A router environment in which, during the wait, the session of `B` only
acknowledges message `2`. -/
def strayAckEnv : RouterEnv :=
  { quietEnv with
    send := { quietEnv.send with acks := [("ACK|2|B|t".toList, some 1)] } }

/-- A sweep made five seconds after the steady clock started, with a working
socket. -/
def sweepEnv : RetryEnv :=
  { now := 5000000000, nowDecode := fun _ => clockText, wire := fun _ => true }

/-- A server where message `X` for the session of `B` has been resent three
times. -/
def exhaustedServer : ServerState :=
  { idleServer with
    m_pendingTransmissions :=
      [("X".toList,
        { messageId := "X".toList, content := "MESSAGE|X|A|B|hi|t".toList, targetClient := 1,
          retryCount := 3, nextRetryTime := 0, acknowledged := false })] }

/-- A server where message `X` awaits its acknowledgment and the session of `B`
has lost its connection. -/
def droppedServer : ServerState :=
  { m_activeClients :=
      [ { ip := "10.0.0.1".toList, port := 5001, userId := "A".toList, isLoggedIn := true,
          connected := true },
        { ip := "10.0.0.2".toList, port := 5002, userId := "B".toList, isLoggedIn := true,
          connected := false } ],
    m_offlineMessages := [],
    m_pendingTransmissions :=
      [("X".toList,
        { messageId := "X".toList, content := "MESSAGE|X|A|B|hi|t".toList, targetClient := 1,
          retryCount := 1, nextRetryTime := 0, acknowledged := false })],
    counter := 0 }

/-- A sweep made when the steady clock reads `now`, with a working socket. -/
def sweepAt (now : Int) : RetryEnv :=
  { now := now, nowDecode := fun _ => clockText, wire := fun _ => true }

/-- A server where the offline queue of `B`, who is logged in and connected, holds two
messages. -/
def backlogServer : ServerState :=
  { idleServer with
    m_offlineMessages :=
      [("B".toList, ["MESSAGE|1|A|B|hi|t".toList, "MESSAGE|2|C|B|yo|t".toList])] }

/-- A delivery environment in which every socket write succeeds and the session of
`B` acknowledges message `1` during the first attempt only. -/
def firstAckEnv : DeliverEnv :=
  { notifyWire := true,
    attempts := fun n =>
      { quietEnv.send with
        acks := (if n = 0 then [("ACK|1|B|t".toList, some 1)] else []) } }

/-- A router environment in which, during the wait, the session of `C` sends
`ACK|1|C|t` and the session of `B` sends nothing. -/
def foreignAckEnv : RouterEnv :=
  { quietEnv with send := { quietEnv.send with acks := [("ACK|1|C|t".toList, some 2)] } }

theorem readUntil_append (delim : Char) (a rest : Str) (h : delim ∉ a) :
    readUntil delim (a ++ delim :: rest) = (a, some rest) := by
  induction a with
  | nil => simp [readUntil]
  | cons c cs ih =>
    have hc : c ≠ delim := fun e => h (by simp [e])
    have hcs : delim ∉ cs := fun e => h (by simp [e])
    simp [readUntil, hc, ih hcs]

theorem readUntil_of_not_mem (delim : Char) (a : Str) (h : delim ∉ a) :
    readUntil delim a = (a, none) := by
  induction a with
  | nil => simp [readUntil]
  | cons c cs ih =>
    have hc : c ≠ delim := fun e => h (by simp [e])
    have hcs : delim ∉ cs := fun e => h (by simp [e])
    simp [readUntil, hc, ih hcs]

theorem getline_field (delim : Char) (a rest : Str) (h : delim ∉ a) :
    getline delim (some (a ++ delim :: rest)) = (some a, some rest) := by
  simp [getline, readUntil_append delim a rest h]

theorem getline_last (delim : Char) (a : Str) (h : delim ∉ a) :
    getline delim (some a) = (if a = [] then none else some a, none) := by
  simp [getline, readUntil_of_not_mem delim a h]

theorem serializeMessage_of_valid (now : Str) (m : MessageData)
    (hv : validateMessageFields m = true) :
    serializeMessage now m =
      "MESSAGE".toList ++ '|' :: (m.messageId ++ '|' :: (m.senderId ++ '|' ::
        (m.receiverId ++ '|' :: (m.content ++ '|' ::
          (if m.timestamp.isEmpty then now else m.timestamp))))) := by
  simp [serializeMessage, hv]

theorem validateMessageFields_iff (m : MessageData) :
    validateMessageFields m = true ↔
      m.senderId ≠ [] ∧ m.receiverId ≠ [] ∧ m.content ≠ [] ∧ m.content.length ≤ 1000 := by
  simp [validateMessageFields, List.isEmpty_iff, and_assoc]

/-- Decoding the canonical text of a record whose first four fields hold no
`|`: the first four fields come back unchanged, the timestamp is whatever
`getline` reads from the trailing part. -/
theorem deserializeMessage_canonical (now : Str) (mid snd rcv cnt tail : Str)
    (hid : '|' ∉ mid) (hs : '|' ∉ snd) (hr : '|' ∉ rcv) (hc : '|' ∉ cnt)
    (hv : snd ≠ [] ∧ rcv ≠ [] ∧ cnt ≠ [] ∧ cnt.length ≤ 1000) :
    deserializeMessage now
      ("MESSAGE".toList ++ '|' :: (mid ++ '|' :: (snd ++ '|' :: (rcv ++ '|' :: (cnt ++ '|' :: tail)))))
      = some { messageId := mid, senderId := snd, receiverId := rcv, content := cnt,
               timestamp := if !(((getline '\n' (some tail)).1).getD []).isEmpty
                            then ((getline '\n' (some tail)).1).getD [] else now } := by
  have h0 : '|' ∉ "MESSAGE".toList := by decide
  unfold deserializeMessage
  rw [getline_field '|' _ _ h0]
  simp only [ne_eq, not_true_eq_false, if_false]
  rw [getline_field '|' _ _ hid]
  simp only
  rw [getline_field '|' _ _ hs]
  simp only
  rw [getline_field '|' _ _ hr]
  simp only
  rw [getline_field '|' _ _ hc]
  simp only
  have hval : validateMessageFields
      { messageId := mid, senderId := snd, receiverId := rcv, content := cnt,
        timestamp := if !(((getline '\n' (some tail)).1).getD []).isEmpty
                     then ((getline '\n' (some tail)).1).getD [] else now } = true :=
    (validateMessageFields_iff _).2 hv
  simp only [hval, Bool.not_true, Bool.false_eq_true, if_false]

/-- C1 (amended): for every message whose sender, receiver and content are
non-empty, whose content has at most 1000 characters, whose message id,
sender, receiver and content hold no `|`, and whose timestamp is non-empty and
holds no line break, `deserializeMessage (serializeMessage m)` succeeds and
gives back `m` in all five fields, whatever the clock reads. -/
theorem deserialize_serialize_roundtrip (now1 now2 : Str) (m : MessageData)
    (hs : m.senderId ≠ []) (hr : m.receiverId ≠ []) (hc : m.content ≠ [])
    (hlen : m.content.length ≤ 1000)
    (pid : '|' ∉ m.messageId) (ps : '|' ∉ m.senderId) (pr : '|' ∉ m.receiverId)
    (pc : '|' ∉ m.content) (hts : m.timestamp ≠ []) (hnl : '\n' ∉ m.timestamp) :
    deserializeMessage now2 (serializeMessage now1 m) = some m := by
  have hv : validateMessageFields m = true := (validateMessageFields_iff m).2 ⟨hs, hr, hc, hlen⟩
  rw [serializeMessage_of_valid now1 m hv]
  have he : m.timestamp.isEmpty = false := by
    cases h : m.timestamp with
    | nil => exact absurd h hts
    | cons a l => rfl
  simp only [he, Bool.false_eq_true, if_false]
  rw [deserializeMessage_canonical now2 _ _ _ _ _ pid ps pr pc ⟨hs, hr, hc, hlen⟩]
  rw [getline_last _ _ hnl]
  simp [hts, he]

/-- C1, witness: the round trip of `plainMessage`. -/
theorem deserialize_serialize_roundtrip_witness :
    deserializeMessage clockText (serializeMessage clockText plainMessage) = some plainMessage :=
  deserialize_serialize_roundtrip clockText clockText plainMessage
    (by decide) (by decide) (by decide) (by decide) (by decide) (by decide) (by decide)
    (by decide) (by decide) (by decide)

/-- C1, counterexample: three messages with non-empty sender, receiver and
content of at most 1000 characters that do not survive the round trip: one
with a `|` in the sender id (decoded with shifted fields), one with an empty
timestamp (decoded with the clock text) and one with a line break in the
timestamp (decoded with the first line only). -/
theorem roundtrip_fails_without_field_discipline :
    (pipeMessage.senderId ≠ [] ∧ pipeMessage.receiverId ≠ [] ∧ pipeMessage.content ≠ [] ∧
      pipeMessage.content.length ≤ 1000 ∧
      deserializeMessage clockText (serializeMessage clockText pipeMessage) =
        some { messageId := "1".toList, senderId := "a".toList, receiverId := "b".toList,
               content := "c".toList, timestamp := "hi|t".toList } ∧
      deserializeMessage clockText (serializeMessage clockText pipeMessage) ≠ some pipeMessage) ∧
    (untimedMessage.senderId ≠ [] ∧ untimedMessage.receiverId ≠ [] ∧
      untimedMessage.content ≠ [] ∧ untimedMessage.content.length ≤ 1000 ∧
      deserializeMessage clockText (serializeMessage clockText untimedMessage) =
        some { untimedMessage with timestamp := clockText } ∧
      deserializeMessage clockText (serializeMessage clockText untimedMessage) ≠
        some untimedMessage) ∧
    (twoLineMessage.senderId ≠ [] ∧ twoLineMessage.receiverId ≠ [] ∧
      twoLineMessage.content ≠ [] ∧ twoLineMessage.content.length ≤ 1000 ∧
      deserializeMessage clockText (serializeMessage clockText twoLineMessage) =
        some { twoLineMessage with timestamp := "t".toList } ∧
      deserializeMessage clockText (serializeMessage clockText twoLineMessage) ≠
        some twoLineMessage) := by
  decide

/-- C2: the session of `C` acknowledges message `X`, which is pending for the
session of `B`, with the frame `ACK|X|C|t`; `handleAck` marks the delivery
acknowledged. -/
theorem handleAck_accepts_foreign_session :
    (waitingServer.m_activeClients[1]?).map (·.userId) = some "B".toList ∧
    (waitingServer.m_activeClients[2]?).map (·.userId) = some "C".toList ∧
    (mfind "X".toList waitingServer.m_pendingTransmissions).map
      (fun t => (t.targetClient, t.acknowledged)) = some (1, false) ∧
    ((handleAck "ACK|X|C|t".toList (some 2) waitingServer).bind
      (fun s => (mfind "X".toList s.m_pendingTransmissions).map
        (fun t => (t.targetClient, t.acknowledged)))) = some (1, true) := by
  decide

/-! ### Facts about the maps -/

theorem mfind_massign_self {V : Type} (k : Str) (v : V) (m : StrMap V) :
    mfind k (massign k v m) = some v := by
  induction m with
  | nil => simp [massign, mfind]
  | cons e r ih =>
    obtain ⟨k1, v1⟩ := e
    by_cases h : k1 = k
    · simp [massign, mfind, h]
    · simp [massign, mfind, h, ih]

theorem mfind_massign_of_ne {V : Type} (k k2 : Str) (v : V) (m : StrMap V) (h2 : k2 ≠ k) :
    mfind k2 (massign k v m) = mfind k2 m := by
  induction m with
  | nil =>
    have : ¬ k = k2 := fun e => h2 e.symm
    simp [massign, mfind, this]
  | cons e r ih =>
    obtain ⟨k1, v1⟩ := e
    by_cases h : k1 = k
    · subst h
      have : ¬ k1 = k2 := fun e => h2 e.symm
      simp [massign, mfind, this]
    · by_cases h3 : k1 = k2
      · subst h3
        simp [massign, mfind, h]
      · simp [massign, mfind, h, h3, ih]

theorem mfind_merase_self {V : Type} (k : Str) (m : StrMap V) :
    mfind k (merase k m) = none := by
  induction m with
  | nil => simp [merase, mfind]
  | cons e r ih =>
    obtain ⟨k1, v1⟩ := e
    by_cases h : k1 = k
    · simp [merase, h, ih]
    · simp [merase, mfind, h, ih]

theorem mfind_merase_of_ne {V : Type} (k k2 : Str) (m : StrMap V) (h2 : k2 ≠ k) :
    mfind k2 (merase k m) = mfind k2 m := by
  induction m with
  | nil => simp [merase, mfind]
  | cons e r ih =>
    obtain ⟨k1, v1⟩ := e
    by_cases h : k1 = k
    · subst h
      have : ¬ k1 = k2 := fun e => h2 e.symm
      simp [merase, mfind, this, ih]
    · by_cases h3 : k1 = k2
      · subst h3
        simp [merase, mfind, h]
      · simp [merase, mfind, h, h3, ih]

theorem mem_of_mfind {V : Type} (k : Str) (v : V) (m : StrMap V) (h : mfind k m = some v) :
    (k, v) ∈ m := by
  induction m with
  | nil => simp [mfind] at h
  | cons e r ih =>
    obtain ⟨k1, v1⟩ := e
    by_cases h1 : k1 = k
    · simp [mfind, h1] at h
      simp [h1, h]
    · simp [mfind, h1] at h
      exact List.mem_cons_of_mem _ (ih h)

theorem mem_massign {V : Type} (k : Str) (v : V) (m : StrMap V) (e : Str × V)
    (h : e ∈ massign k v m) : e = (k, v) ∨ e ∈ m := by
  induction m with
  | nil => simpa [massign] using h
  | cons e1 r ih =>
    obtain ⟨k1, v1⟩ := e1
    by_cases h1 : k1 = k
    · simp [massign, h1] at h
      rcases h with h | h
      · exact Or.inl h
      · exact Or.inr (List.mem_cons_of_mem _ h)
    · simp [massign, h1] at h
      rcases h with h | h
      · exact Or.inr (by simp [h])
      · rcases ih h with h | h
        · exact Or.inl h
        · exact Or.inr (List.mem_cons_of_mem _ h)

theorem mem_merase {V : Type} (k : Str) (m : StrMap V) (e : Str × V)
    (h : e ∈ merase k m) : e ∈ m := by
  induction m with
  | nil => simp [merase] at h
  | cons e1 r ih =>
    obtain ⟨k1, v1⟩ := e1
    by_cases h1 : k1 = k
    · simp [merase, h1] at h
      exact List.mem_cons_of_mem _ (ih h)
    · simp [merase, h1] at h
      rcases h with h | h
      · simp [h]
      · exact List.mem_cons_of_mem _ (ih h)

theorem queueOf_massign_self (k : Str) (q : List Str) (m : StrMap (List Str)) :
    queueOf k (massign k q m) = q := by
  simp [queueOf, mfind_massign_self]

theorem queueOf_merase_self (k : Str) (m : StrMap (List Str)) :
    queueOf k (merase k m) = [] := by
  simp [queueOf, mfind_merase_self]

/-! ### Facts about the offline store -/

theorem queueOf_length_le (offline : StrMap (List Str)) (h : QueuesBounded offline)
    (userId : Str) : (queueOf userId offline).length ≤ 100 := by
  unfold queueOf
  cases hf : mfind userId offline with
  | none => simp
  | some q => exact h _ (mem_of_mfind userId q offline hf)

theorem queuesBounded_massign (k : Str) (q : List Str) (offline : StrMap (List Str))
    (h : QueuesBounded offline) (hq : q.length ≤ 100) : QueuesBounded (massign k q offline) := by
  intro e he
  rcases mem_massign k q offline e he with h1 | h1
  · simpa [h1] using hq
  · exact h e h1

theorem queuesBounded_merase (k : Str) (offline : StrMap (List Str))
    (h : QueuesBounded offline) : QueuesBounded (merase k offline) :=
  fun e he => h e (mem_merase k offline e he)

theorem storeOfflineMessage_of_accepted (recipientId message : Str) (s : ServerState)
    (h : message.take 7 = "MESSAGE".toList) :
    storeOfflineMessage recipientId message s =
      { s with m_offlineMessages :=
          (massign recipientId
            ((if (queueOf recipientId s.m_offlineMessages).length ≥ 100
              then (queueOf recipientId s.m_offlineMessages).tail
              else queueOf recipientId s.m_offlineMessages) ++ [message])
            s.m_offlineMessages) } := by
  unfold storeOfflineMessage
  rw [if_neg (fun hn => hn h)]
  rfl

theorem storeOfflineMessage_of_rejected (recipientId message : Str) (s : ServerState)
    (h : message.take 7 ≠ "MESSAGE".toList) :
    storeOfflineMessage recipientId message s = s := by
  unfold storeOfflineMessage
  rw [if_pos h]

theorem storeOfflineMessage_bounded (recipientId message : Str) (s : ServerState)
    (h : QueuesBounded s.m_offlineMessages) :
    QueuesBounded (storeOfflineMessage recipientId message s).m_offlineMessages := by
  by_cases hacc : message.take 7 = "MESSAGE".toList
  · rw [storeOfflineMessage_of_accepted _ _ _ hacc]
    apply queuesBounded_massign _ _ _ h
    have hq := queueOf_length_le _ h recipientId
    by_cases hfull : (queueOf recipientId s.m_offlineMessages).length ≥ 100
    · simp only [hfull, if_true, List.length_append, List.length_tail, List.length_singleton]
      omega
    · simp only [hfull, if_false, List.length_append, List.length_singleton]
      omega
  · rw [storeOfflineMessage_of_rejected _ _ _ hacc]
    exact h

theorem popLoop_eq_drop (n : Nat) (q : List Str) : popLoop n q = q.drop n := by
  induction n generalizing q with
  | zero => simp [popLoop]
  | succ n ih =>
    cases q with
    | nil => simp [popLoop, ih]
    | cons x r => simp [popLoop, ih]

theorem createBundledLoginResponse_bounded (userId : Str) (s : ServerState)
    (h : QueuesBounded s.m_offlineMessages) :
    QueuesBounded (createBundledLoginResponse userId s).2.m_offlineMessages := by
  unfold createBundledLoginResponse
  cases hf : mfind userId s.m_offlineMessages with
  | none => simpa using h
  | some queue =>
    have hq : queue.length ≤ 100 := h _ (mem_of_mfind userId queue _ hf)
    simp only
    split
    · exact h
    · split
      · exact queuesBounded_merase _ _ h
      · apply queuesBounded_massign _ _ _ h
        rw [popLoop_eq_drop, List.length_drop]
        omega

/-! ### Facts about the delivery tracker -/

theorem handleAck_frame (ackMessage : Str) (senderClient : Option Nat) (s s1 : ServerState)
    (h : handleAck ackMessage senderClient s = some s1) :
    s1.m_offlineMessages = s.m_offlineMessages ∧ s1.m_activeClients = s.m_activeClients ∧
      s1.counter = s.counter := by
  unfold handleAck at h
  split at h
  · cases h; simp
  · split at h
    · cases h
    · split at h
      · cases h; simp
      · split at h
        · cases h; simp
        · cases h; simp

theorem handleAcks_frame (acks : List (Str × Option Nat)) (s s1 : ServerState)
    (h : handleAcks acks s = some s1) :
    s1.m_offlineMessages = s.m_offlineMessages ∧ s1.m_activeClients = s.m_activeClients ∧
      s1.counter = s.counter := by
  induction acks generalizing s with
  | nil => simp [handleAcks] at h; subst h; simp
  | cons e r ih =>
    obtain ⟨f, c⟩ := e
    simp only [handleAcks] at h
    split at h
    · cases h
    · rename_i s2 h2
      have a := handleAck_frame _ _ _ _ h2
      have b := ih _ h
      exact ⟨b.1.trans a.1, b.2.1.trans a.2.1, b.2.2.trans a.2.2⟩

theorem sendMessageWithAck_message (env : SendEnv) (target : Nat) (message : Str)
    (s : ServerState) (tc : ClientSession) (decoded : MessageData)
    (hc : s.m_activeClients[target]? = some tc) (hconn : tc.connected = true)
    (hty : parseProtocolType message = PType.Message)
    (hd : deserializeMessage env.nowDecode message = some decoded) :
    sendMessageWithAck env (some target) message s =
      if !sendPipeMessage env.wire (outgoingText env s message decoded) then
        some (false, afterIdAssignment env s decoded)
      else
        match handleAcks env.acks (registerPending env target message decoded s) with
        | none => none
        | some s2 =>
          some ((match mfind (trackedId env s decoded) s2.m_pendingTransmissions with
                 | some tr => tr.acknowledged
                 | none => false),
            { s2 with m_pendingTransmissions :=
                merase (trackedId env s decoded) s2.m_pendingTransmissions }) := by
  simp only [sendMessageWithAck, hc, hconn, hty, hd]
  obtain ⟨mid, snd, rcv, cnt, ts⟩ := decoded
  cases mid <;> rfl

theorem sendMessageWithAck_frame (env : SendEnv) (targetClient : Option Nat) (message : Str)
    (s s1 : ServerState) (b : Bool)
    (h : sendMessageWithAck env targetClient message s = some (b, s1)) :
    s1.m_offlineMessages = s.m_offlineMessages ∧ s1.m_activeClients = s.m_activeClients := by
  have hid : ∀ (d : MessageData),
      (afterIdAssignment env s d).m_offlineMessages = s.m_offlineMessages ∧
      (afterIdAssignment env s d).m_activeClients = s.m_activeClients := by
    intro d
    unfold afterIdAssignment
    split <;> simp
  cases targetClient with
  | none => simp [sendMessageWithAck] at h; simp [h.2]
  | some target =>
    cases hc : s.m_activeClients[target]? with
    | none => simp [sendMessageWithAck, hc] at h
    | some tc =>
      cases hconn : tc.connected with
      | false => simp [sendMessageWithAck, hc, hconn] at h; simp [h.2]
      | true =>
        by_cases hty : parseProtocolType message = PType.Message
        · cases hd : deserializeMessage env.nowDecode message with
          | none => simp [sendMessageWithAck, hc, hconn, hty, hd] at h; simp [h.2]
          | some decoded =>
            rw [sendMessageWithAck_message env target message s tc decoded hc hconn hty hd] at h
            split at h
            · cases h
              exact hid decoded
            · split at h
              · cases h
              · rename_i s2 h2
                have a := handleAcks_frame _ _ _ h2
                cases h
                simp only [a.1, a.2.1, registerPending]
                exact hid decoded
        · simp only [sendMessageWithAck, hc, hconn, hty] at h
          simp only [Bool.not_true, Bool.false_eq_true, if_false] at h
          split at h
          · split at h <;> (cases h; simp)
          · cases h; simp

theorem deliverLoop_bounded (env : DeliverEnv) (client : Nat) (userId : Str) (fuel : Nat) :
    ∀ (attempt failed : Nat) (s s1 : ServerState),
      QueuesBounded s.m_offlineMessages →
      deliverLoop env client userId fuel attempt failed s = some s1 →
      QueuesBounded s1.m_offlineMessages := by
  induction fuel with
  | zero =>
    intro attempt failed s s1 hb h
    simp [deliverLoop] at h
    subst h
    exact hb
  | succ fuel ih =>
    intro attempt failed s s1 hb h
    simp only [deliverLoop] at h
    split at h
    · cases h
      exact hb
    · split at h
      · cases h
      · rename_i s2 h2
        have a := sendMessageWithAck_frame _ _ _ _ _ _ h2
        refine ih _ _ _ _ ?_ h
        apply queuesBounded_massign
        · simpa only [a.1] using hb
        · have := queueOf_length_le _ hb userId
          rw [a.1, List.length_tail]
          omega
      · rename_i s2 h2
        have a := sendMessageWithAck_frame _ _ _ _ _ _ h2
        split at h
        · cases h
          simpa only [a.1] using hb
        · refine ih _ _ _ _ ?_ h
          simpa only [a.1] using hb

theorem deliverOfflineMessages_bounded (env : DeliverEnv) (userId : Str) (s s1 : ServerState)
    (hb : QueuesBounded s.m_offlineMessages)
    (h : deliverOfflineMessages env userId s = some s1) :
    QueuesBounded s1.m_offlineMessages := by
  unfold deliverOfflineMessages at h
  split at h
  · cases h; exact hb
  · split at h
    · cases h; exact hb
    · split at h
      · cases h; exact hb
      · split at h
        · simp only at h
          split at h
          · cases h; exact hb
          · split at h
            · cases h
            · rename_i s2 h2
              have a := deliverLoop_bounded _ _ _ _ _ _ _ _ hb h2
              split at h
              · cases h
                exact queuesBounded_merase _ _ a
              · cases h
                exact a
        · cases h; exact hb

theorem applyOp_bounded (op : OfflineOp) (s s1 : ServerState)
    (hb : QueuesBounded s.m_offlineMessages) (h : applyOp op s = some s1) :
    QueuesBounded s1.m_offlineMessages := by
  cases op with
  | store recipientId message =>
    simp only [applyOp, Option.some.injEq] at h
    subst h
    exact storeOfflineMessage_bounded _ _ _ hb
  | bundle userId =>
    simp only [applyOp, Option.some.injEq] at h
    subst h
    exact createBundledLoginResponse_bounded _ _ hb
  | deliver env userId =>
    exact deliverOfflineMessages_bounded env userId s s1 hb h

/-- C3: in every state reached from an empty offline store by calls of
`storeOfflineMessage`, `createBundledLoginResponse` and
`deliverOfflineMessages`, every entry of the store, and so the queue of every
user, holds at most 100 messages. -/
theorem offline_queue_never_exceeds_capacity (s : ServerState) (h : StoreReachable s) :
    (∀ e ∈ s.m_offlineMessages, e.2.length ≤ 100) ∧
      ∀ userId : Str, (queueOf userId s.m_offlineMessages).length ≤ 100 := by
  have hb : QueuesBounded s.m_offlineMessages := by
    induction h with
    | init s0 h0 =>
      intro e he
      rw [h0] at he
      cases he
    | step s0 s1 op _ hstep ih => exact applyOp_bounded op s0 s1 ih hstep
  exact ⟨hb, queueOf_length_le _ hb⟩

/-- C3, witness: the state after storing one message in the idle server. -/
theorem offline_queue_never_exceeds_capacity_witness :
    StoreReachable (storeOfflineMessage "B".toList "MESSAGE|1|A|B|hi|t".toList idleServer) ∧
    ((∀ e ∈ (storeOfflineMessage "B".toList "MESSAGE|1|A|B|hi|t".toList
        idleServer).m_offlineMessages, e.2.length ≤ 100) ∧
      ∀ userId : Str,
        (queueOf userId (storeOfflineMessage "B".toList "MESSAGE|1|A|B|hi|t".toList
          idleServer).m_offlineMessages).length ≤ 100) :=
  ⟨StoreReachable.step idleServer _ (OfflineOp.store "B".toList "MESSAGE|1|A|B|hi|t".toList)
      (StoreReachable.init idleServer rfl) rfl,
    offline_queue_never_exceeds_capacity _
      (StoreReachable.step idleServer _ (OfflineOp.store "B".toList "MESSAGE|1|A|B|hi|t".toList)
        (StoreReachable.init idleServer rfl) rfl)⟩

/-- C4: for an accepted payload (one that begins with `MESSAGE`),
`storeOfflineMessage` leaves the queue of the user equal to `q ++ [p]` when
`q` has fewer than 100 entries and to `q` without its first element followed
by `p` when it has exactly 100; the queue of every other user, the sessions
and the pending deliveries are unchanged. -/
theorem storeOfflineMessage_appends_or_evicts (userId payload : Str) (s : ServerState)
    (hacc : payload.take 7 = "MESSAGE".toList) :
    ((queueOf userId s.m_offlineMessages).length < 100 →
      queueOf userId (storeOfflineMessage userId payload s).m_offlineMessages =
        queueOf userId s.m_offlineMessages ++ [payload]) ∧
    ((queueOf userId s.m_offlineMessages).length = 100 →
      queueOf userId (storeOfflineMessage userId payload s).m_offlineMessages =
        (queueOf userId s.m_offlineMessages).tail ++ [payload]) ∧
    (∀ other : Str, other ≠ userId →
      mfind other (storeOfflineMessage userId payload s).m_offlineMessages =
        mfind other s.m_offlineMessages) ∧
    (storeOfflineMessage userId payload s).m_activeClients = s.m_activeClients ∧
    (storeOfflineMessage userId payload s).m_pendingTransmissions = s.m_pendingTransmissions := by
  rw [storeOfflineMessage_of_accepted _ _ _ hacc]
  refine ⟨?_, ?_, ?_, rfl, rfl⟩
  · intro hlt
    have : ¬ (queueOf userId s.m_offlineMessages).length ≥ 100 := by omega
    simp only [queueOf_massign_self, this, if_false]
  · intro heq
    have : (queueOf userId s.m_offlineMessages).length ≥ 100 := by omega
    simp only [queueOf_massign_self, this, if_true]
  · intro other hne
    exact mfind_massign_of_ne _ _ _ _ hne

/-- C4, witness: storing a message for `B` in the idle server (append) and in
the server where the queue of `B` is full (eviction of the oldest entry). -/
theorem storeOfflineMessage_appends_or_evicts_witness :
    queueOf "B".toList
        (storeOfflineMessage "B".toList "MESSAGE|1|A|B|hi|t".toList idleServer).m_offlineMessages =
      queueOf "B".toList idleServer.m_offlineMessages ++ ["MESSAGE|1|A|B|hi|t".toList] ∧
    queueOf "B".toList
        (storeOfflineMessage "B".toList "MESSAGE|1|A|B|hi|t".toList fullServer).m_offlineMessages =
      (queueOf "B".toList fullServer.m_offlineMessages).tail ++ ["MESSAGE|1|A|B|hi|t".toList] :=
  ⟨(storeOfflineMessage_appends_or_evicts "B".toList "MESSAGE|1|A|B|hi|t".toList idleServer
      (by decide)).1 (by decide),
    (storeOfflineMessage_appends_or_evicts "B".toList "MESSAGE|1|A|B|hi|t".toList fullServer
      (by decide)).2.1 (by decide)⟩


theorem parseProtocolType_of_message_head (data : Str)
    (h : data.take 7 = "MESSAGE".toList) :
    parseProtocolType data = PType.Message ∨ parseProtocolType data = PType.Invalid := by
  obtain ⟨rest, rfl⟩ : ∃ rest, data = "MESSAGE".toList ++ rest :=
    ⟨data.drop 7, by rw [← h, List.take_append_drop]⟩
  unfold parseProtocolType
  cases hf : find '|' rest with
  | none =>
    simp [find, hf]
    tauto
  | some k =>
    simp [find, hf]
    tauto

/-- C5 (amended): for every payload that does not begin with the seven
characters `MESSAGE`, and so for every payload whose classified type is
Login, Logout, Response, Heartbeat or Ack, `storeOfflineMessage` leaves the
whole server state, the offline store included, unchanged. -/
theorem storeOfflineMessage_rejects_other_frames (recipientId payload : Str) (s : ServerState)
    (h : payload.take 7 ≠ "MESSAGE".toList ∨
      parseProtocolType payload ∈
        [PType.Login, PType.Logout, PType.Response, PType.Heartbeat, PType.Ack]) :
    storeOfflineMessage recipientId payload s = s := by
  apply storeOfflineMessage_of_rejected
  rcases h with h | h
  · exact h
  · intro hp
    rcases parseProtocolType_of_message_head payload hp with h1 | h1 <;>
      (rw [h1] at h; simp at h)

/-- C5, witness: a `RESPONSE` frame is not stored. -/
theorem storeOfflineMessage_rejects_other_frames_witness :
    storeOfflineMessage "B".toList "RESPONSE|SUCCESS|LOGIN_OK|ok".toList idleServer = idleServer :=
  storeOfflineMessage_rejects_other_frames "B".toList "RESPONSE|SUCCESS|LOGIN_OK|ok".toList
    idleServer (Or.inr (by decide))

/-- C5, counterexample: the payload `MESSAGEX` is not classified as Message by
`parseProtocolType`, yet `storeOfflineMessage` creates a queue for `B` and
stores it. -/
theorem storeOfflineMessage_stores_unclassified_payload :
    parseProtocolType "MESSAGEX".toList ≠ PType.Message ∧
    parseProtocolType "MESSAGEX".toList = PType.Invalid ∧
    mfind "B".toList idleServer.m_offlineMessages = none ∧
    mfind "B".toList (storeOfflineMessage "B".toList "MESSAGEX".toList idleServer).m_offlineMessages
      = some ["MESSAGEX".toList] ∧
    storeOfflineMessage "B".toList "MESSAGEX".toList idleServer ≠ idleServer := by
  decide


theorem intercalate_cons_eq (sep x : Str) (xs : List Str) :
    List.intercalate sep (x :: xs) = x ++ (xs.map (fun y => sep ++ y)).flatten := by
  induction xs generalizing x with
  | nil => simp [List.intercalate, List.intersperse]
  | cons y ys ih =>
    have h := ih y
    simp only [List.intercalate] at h ⊢
    simp only [List.intersperse, List.flatten, List.map_cons, List.append_assoc]
    rw [← List.flatten] at h
    simp only [List.flatten] at h
    rw [h]

theorem bundleLoop_pos (n : Nat) (q : List Str) (idx : Nat) (acc : Str) (hidx : 0 < idx) :
    bundleLoop n q idx acc =
      acc ++ ((q.take (n - idx)).map (fun y => "|".toList ++ y)).flatten := by
  induction q generalizing idx acc with
  | nil => simp [bundleLoop]
  | cons x r ih =>
    unfold bundleLoop
    by_cases hge : idx ≥ n
    · have : n - idx = 0 := by omega
      simp [hge, this]
    · have h1 : n - idx = (n - (idx + 1)) + 1 := by omega
      rw [if_neg hge, ih (idx + 1) _ (by omega), h1]
      simp [hidx]

theorem bundleLoop_zero (n : Nat) (q : List Str) (acc : Str) (hn : 0 < n) (hq : q ≠ []) :
    bundleLoop n q 0 acc = acc ++ List.intercalate "|".toList (q.take n) := by
  cases q with
  | nil => exact absurd rfl hq
  | cons x r =>
    obtain ⟨k, rfl⟩ : ∃ k, n = k + 1 := ⟨n - 1, by omega⟩
    unfold bundleLoop
    rw [if_neg (by omega), bundleLoop_pos _ _ _ _ (by omega)]
    simp [intercalate_cons_eq]


theorem createBundledLoginResponse_spec (userId : Str) (s : ServerState)
    (q : List Str) (hq : mfind userId s.m_offlineMessages = some q) (hne : q ≠ []) :
    (createBundledLoginResponse userId s).1 =
      "RESPONSE|SUCCESS|LOGIN_OK|登录成功|OFFLINE_COUNT:".toList ++
        (Nat.repr (min q.length 50)).toList ++ "|".toList ++
        List.intercalate "|".toList (q.take (min q.length 50)) ∧
    queueOf userId (createBundledLoginResponse userId s).2.m_offlineMessages =
      q.drop (min q.length 50) ∧
    (q.length ≤ 50 →
      mfind userId (createBundledLoginResponse userId s).2.m_offlineMessages = none) ∧
    (50 < q.length →
      mfind userId (createBundledLoginResponse userId s).2.m_offlineMessages =
        some (q.drop 50)) ∧
    (∀ other : Str, other ≠ userId →
      mfind other (createBundledLoginResponse userId s).2.m_offlineMessages =
        mfind other s.m_offlineMessages) ∧
    (createBundledLoginResponse userId s).2.m_activeClients = s.m_activeClients ∧
    (createBundledLoginResponse userId s).2.m_pendingTransmissions =
      s.m_pendingTransmissions := by
  have hlen : 0 < q.length := List.length_pos.mpr hne
  have hemp : q.isEmpty = false := by
    cases q with
    | nil => exact absurd rfl hne
    | cons x r => rfl
  have hn : 0 < min q.length 50 := by omega
  unfold createBundledLoginResponse
  simp only [hq, hemp, Bool.false_eq_true, if_false, MAX_OFFLINE_MESSAGES]
  rw [bundleLoop_zero _ _ _ hn hne]
  by_cases hk : q.length ≤ 50
  · have hge : min q.length 50 ≥ q.length := by omega
    have hmin : min q.length 50 = q.length := by omega
    simp only [hge, if_true]
    refine ⟨by trivial, ?_, ?_, ?_, ?_, by trivial, by trivial⟩
    · rw [queueOf_merase_self, hmin, List.drop_length]
    · intro _
      exact mfind_merase_self _ _
    · intro h50
      omega
    · intro other hne2
      exact mfind_merase_of_ne _ _ _ hne2
  · have hge : ¬ min q.length 50 ≥ q.length := by omega
    have hmin : min q.length 50 = 50 := by omega
    simp only [hge, if_false]
    refine ⟨by trivial, ?_, ?_, ?_, ?_, by trivial, by trivial⟩
    · rw [queueOf_massign_self, popLoop_eq_drop]
    · intro h50
      omega
    · intro _
      rw [mfind_massign_self, popLoop_eq_drop, hmin]
    · intro other hne2
      exact mfind_massign_of_ne _ _ _ _ hne2

/-- C6: for a user whose offline queue `q` holds `k ≥ 1` messages,
`createBundledLoginResponse` returns
`RESPONSE|SUCCESS|LOGIN_OK|登录成功|OFFLINE_COUNT:<n>|` with `n = min k 50`
followed by the first `n` entries of `q`, in queue order, joined by `|`;
afterwards the queue of the user is `q` without its first `n` entries (the
entry of the user is erased when `k ≤ 50`, and holds the remaining `k - 50`
messages in order when `k > 50`), and nothing else in the state has changed. -/
theorem createBundledLoginResponse_drains_front (userId : Str) (s : ServerState)
    (q : List Str) (hq : mfind userId s.m_offlineMessages = some q) (hne : q ≠ []) :
    (createBundledLoginResponse userId s).1 =
      "RESPONSE|SUCCESS|LOGIN_OK|登录成功|OFFLINE_COUNT:".toList ++
        (Nat.repr (min q.length 50)).toList ++ "|".toList ++
        List.intercalate "|".toList (q.take (min q.length 50)) ∧
    queueOf userId (createBundledLoginResponse userId s).2.m_offlineMessages =
      q.drop (min q.length 50) ∧
    (q.length ≤ 50 →
      mfind userId (createBundledLoginResponse userId s).2.m_offlineMessages = none) ∧
    (50 < q.length →
      mfind userId (createBundledLoginResponse userId s).2.m_offlineMessages =
        some (q.drop 50)) ∧
    (∀ other : Str, other ≠ userId →
      mfind other (createBundledLoginResponse userId s).2.m_offlineMessages =
        mfind other s.m_offlineMessages) ∧
    (createBundledLoginResponse userId s).2.m_activeClients = s.m_activeClients ∧
    (createBundledLoginResponse userId s).2.m_pendingTransmissions =
      s.m_pendingTransmissions :=
  createBundledLoginResponse_spec userId s q hq hne

/-- C6, witness: the login of `B` on the server whose queue for `B` holds 100
messages. -/
theorem createBundledLoginResponse_drains_front_witness :
    queueOf "B".toList (createBundledLoginResponse "B".toList fullServer).2.m_offlineMessages =
      (queueOf "B".toList fullServer.m_offlineMessages).drop 50 :=
  (createBundledLoginResponse_drains_front "B".toList fullServer
    (queueOf "B".toList fullServer.m_offlineMessages) rfl (by decide)).2.1


/-! ### Facts about decoding and the router -/

theorem readUntil_spec (delim : Char) (s : Str) :
    delim ∉ (readUntil delim s).1 ∧
      (match (readUntil delim s).2 with
       | none => s = (readUntil delim s).1
       | some rest => s = (readUntil delim s).1 ++ delim :: rest) := by
  induction s with
  | nil => simp [readUntil]
  | cons c cs ih =>
    by_cases hc : c = delim
    · simp [readUntil, hc]
    · have hne : ¬ delim = c := fun e => hc e.symm
      simp only [readUntil, hc, if_false, List.mem_cons, not_or]
      refine ⟨⟨hne, ih.1⟩, ?_⟩
      cases h2 : (readUntil delim cs).2 with
      | none =>
        rw [h2] at ih
        simp only [List.cons.injEq, true_and]
        exact ih.2
      | some rest =>
        rw [h2] at ih
        simp only [List.cons_append, List.cons.injEq, true_and]
        exact ih.2

theorem getline_some (delim : Char) (st st1 : Option Str) (a : Str)
    (h : getline delim st = (some a, st1)) :
    delim ∉ a ∧ ∃ s, st = some s ∧ (st1 = none → s = a) ∧
      (∀ rest, st1 = some rest → s = a ++ delim :: rest) := by
  cases st with
  | none => simp [getline] at h
  | some s =>
    have hs := readUntil_spec delim s
    simp only [getline] at h
    cases h2 : (readUntil delim s).2 with
    | none =>
      have e : readUntil delim s = ((readUntil delim s).1, none) := by rw [← h2]
      rw [e] at h
      simp only at h
      rw [h2] at hs
      split at h
      · simp at h
      · simp only [Prod.mk.injEq, Option.some.injEq] at h
        obtain ⟨h3, h4⟩ := h
        subst h4
        rw [h3] at hs
        exact ⟨hs.1, s, rfl, fun _ => hs.2, fun rest hr => (by cases hr)⟩
    | some rest =>
      have e : readUntil delim s = ((readUntil delim s).1, some rest) := by rw [← h2]
      rw [e] at h
      simp only [Prod.mk.injEq, Option.some.injEq] at h
      obtain ⟨h3, h4⟩ := h
      subst h4
      rw [h2] at hs
      rw [h3] at hs
      exact ⟨hs.1, s, rfl, fun hn => (by cases hn), fun r hr => (by cases hr; exact hs.2)⟩

theorem parseProtocolType_message_frame (rest : Str) :
    parseProtocolType ("MESSAGE".toList ++ '|' :: rest) = PType.Message := by
  simp [parseProtocolType, find]

theorem deserializeMessage_some (now raw : Str) (m : MessageData)
    (h : deserializeMessage now raw = some m) :
    (∃ rest, raw = "MESSAGE".toList ++ '|' :: rest) ∧ validateMessageFields m = true ∧
      '|' ∉ m.messageId ∧ '|' ∉ m.senderId ∧ '|' ∉ m.receiverId ∧ '|' ∉ m.content := by
  unfold deserializeMessage at h
  split at h
  · cases h
  · rename_i protocolType iss1 h1
    split at h
    · cases h
    · rename_i htype
      have htype : protocolType = "MESSAGE".toList := by
        by_contra hc
        exact htype hc
      split at h
      · cases h
      · rename_i messageId iss2 h2
        split at h
        · cases h
        · rename_i sender iss3 h3
          split at h
          · cases h
          · rename_i receiver iss4 h4
            split at h
            · cases h
            · rename_i content iss5 h5
              have key : ∀ T : MessageData,
                  (if (!validateMessageFields T) = true then none else some T) = some m →
                    validateMessageFields m = true ∧ T = m := by
                intro T hT
                cases hv : validateMessageFields T
                · simp [hv] at hT
                · simp only [hv, Bool.not_true, Bool.false_eq_true, if_false,
                    Option.some.injEq] at hT
                  exact ⟨hT ▸ hv, hT⟩
              obtain ⟨hval, h⟩ := key _ h
              · have g1 := getline_some _ _ _ _ h1
                have g2 := getline_some _ _ _ _ h2
                have g3 := getline_some _ _ _ _ h3
                have g4 := getline_some _ _ _ _ h4
                have g5 := getline_some _ _ _ _ h5
                obtain ⟨s1, hs1, _⟩ := g2.2
                obtain ⟨s0, hs0, _, hraw⟩ := g1.2
                simp only [Option.some.injEq] at hs0
                subst hs0
                have hraw := hraw s1 hs1
                refine ⟨⟨s1, by rw [hraw, htype]⟩, ?_, ?_⟩
                · exact hval
                · rw [← h]
                  exact ⟨g2.1, g3.1, g4.1, g5.1⟩

theorem deserializeMessage_head (now raw : Str) (m : MessageData)
    (h : deserializeMessage now raw = some m) :
    raw.take 3 ≠ "ACK".toList ∧ raw.take 5 ≠ "LOGIN".toList ∧
      raw.take 7 = "MESSAGE".toList ∧ parseProtocolType raw = PType.Message := by
  obtain ⟨⟨rest, rfl⟩, _⟩ := deserializeMessage_some now raw m h
  refine ⟨by simp, by simp, by rfl, parseProtocolType_message_frame rest⟩


theorem processMessage_message (env : RouterEnv) (raw : Str) (cur : Nat) (s : ServerState)
    (m : MessageData) (hd : deserializeMessage env.nowDecode raw = some m) :
    processMessage env raw (some cur) s =
      if isUserOnline m.receiverId s.m_activeClients then
        if ((findUserById m.receiverId s.m_activeClients).bind
            (fun i => s.m_activeClients[i]?)).any (·.connected) then
          match sendMessageWithAck env.send (findUserById m.receiverId s.m_activeClients)
              (serializeMessage env.nowEncode m) s with
          | none => none
          | some (true, s1) =>
            some ("RESPONSE|SUCCESS|MESSAGE_SENT|消息已发送并确认".toList, s1)
          | some (false, s1) =>
            some ("RESPONSE|ERROR|SEND_FAILED|转发失败，已保存为离线消息".toList,
              storeOfflineMessage m.receiverId (serializeMessage env.nowEncode m) s1)
        else
          some ("RESPONSE|SUCCESS|MESSAGE_CACHED|接收者连接异常，已保存为离线消息".toList,
            storeOfflineMessage m.receiverId (serializeMessage env.nowEncode m) s)
      else
        some ("RESPONSE|SUCCESS|MESSAGE_CACHED|消息已缓存".toList,
          storeOfflineMessage m.receiverId (serializeMessage env.nowEncode m) s) := by
  obtain ⟨h3, h5, h7, _⟩ := deserializeMessage_head _ _ _ hd
  obtain ⟨_, hv, _⟩ := deserializeMessage_some _ _ _ hd
  obtain ⟨hs, hr, _, _⟩ := (validateMessageFields_iff m).1 hv
  have hs2 : m.senderId.isEmpty = false := by
    cases h : m.senderId with
    | nil => exact absurd h hs
    | cons a l => rfl
  have hr2 : m.receiverId.isEmpty = false := by
    cases h : m.receiverId with
    | nil => exact absurd h hr
    | cons a l => rfl
  unfold processMessage
  rw [if_neg h3]
  simp only
  rw [if_neg h5, if_pos h7]
  simp only [hd, hs2, hr2, Bool.not_false, Bool.and_self, if_true]


theorem processMessage_login (env : RouterEnv) (userId : Str) (cur : Nat) (s : ServerState)
    (client : ClientSession) (hu : userId ≠ []) (hc : s.m_activeClients[cur]? = some client) :
    processMessage env ("LOGIN|".toList ++ userId) (some cur) s =
      some (createBundledLoginResponse userId
        { s with m_activeClients :=
            s.m_activeClients.set cur { client with isLoggedIn := true, userId := userId } }) := by
  have hu2 : userId.isEmpty = false := by
    cases h : userId with
    | nil => exact absurd h hu
    | cons a l => rfl
  have h3 : ¬ ("LOGIN|".toList ++ userId).take 3 = "ACK".toList := by simp
  have h5 : ("LOGIN|".toList ++ userId).take 5 = "LOGIN".toList := by rfl
  have hf : find '|' ("LOGIN|".toList ++ userId) = some 5 := by simp [find]
  unfold processMessage
  rw [if_neg h3]
  simp only
  rw [if_pos h5]
  simp only [hf, hc]
  have hdrop : List.drop (5 + 1) ("LOGIN|".toList ++ userId) = userId := by rfl
  rw [hdrop]
  simp only [hu2, Bool.not_false, if_true]

theorem findUserById_none_offline (userId : Str) (clients : List ClientSession)
    (h : findUserById userId clients = none) : isUserOnline userId clients = false := by
  simp [isUserOnline, h]


theorem serializeMessage_accepted (now : Str) (m : MessageData)
    (hv : validateMessageFields m = true) :
    (serializeMessage now m).take 7 = "MESSAGE".toList := by
  rw [serializeMessage_of_valid now m hv]
  rfl

theorem processMessage_offline_receiver (env : RouterEnv) (raw : Str) (cur : Nat)
    (s : ServerState) (m : MessageData) (hd : deserializeMessage env.nowDecode raw = some m)
    (hoff : findUserById m.receiverId s.m_activeClients = none) :
    processMessage env raw (some cur) s =
      some ("RESPONSE|SUCCESS|MESSAGE_CACHED|消息已缓存".toList,
        storeOfflineMessage m.receiverId (serializeMessage env.nowEncode m) s) := by
  rw [processMessage_message env raw cur s m hd]
  simp only [findUserById_none_offline _ _ hoff, Bool.false_eq_true, if_false]

theorem storeOfflineMessage_first (userId payload : Str) (s : ServerState)
    (hacc : payload.take 7 = "MESSAGE".toList) (hq : queueOf userId s.m_offlineMessages = []) :
    storeOfflineMessage userId payload s =
      { s with m_offlineMessages := massign userId [payload] s.m_offlineMessages } := by
  rw [storeOfflineMessage_of_accepted _ _ _ hacc, hq]
  rfl

theorem processMessage_login_single (env : RouterEnv) (userId entry : Str) (cur : Nat)
    (s : ServerState) (hu : userId ≠ []) (hc : cur < s.m_activeClients.length)
    (hq : mfind userId s.m_offlineMessages = some [entry]) :
    ∃ s2, processMessage env ("LOGIN|".toList ++ userId) (some cur) s =
        some ("RESPONSE|SUCCESS|LOGIN_OK|登录成功|OFFLINE_COUNT:1|".toList ++ entry, s2) ∧
      mfind userId s2.m_offlineMessages = none := by
  obtain ⟨client, hclient⟩ : ∃ client, s.m_activeClients[cur]? = some client :=
    ⟨s.m_activeClients[cur], List.getElem?_eq_getElem hc⟩
  rw [processMessage_login env userId cur s client hu hclient]
  have h := createBundledLoginResponse_spec userId
    { s with m_activeClients :=
        s.m_activeClients.set cur { client with isLoggedIn := true, userId := userId } }
    [entry] hq (by simp)
  refine ⟨_, ?_, h.2.2.1 (by simp)⟩
  have h1 := h.1
  simp only [List.length_singleton] at h1
  have hmin : min 1 50 = 1 := by decide
  rw [hmin] at h1
  have hrepr : (Nat.repr 1).toList = "1".toList := by decide
  rw [hrepr] at h1
  have hout : "RESPONSE|SUCCESS|LOGIN_OK|登录成功|OFFLINE_COUNT:".toList ++ "1".toList ++
      "|".toList ++ List.intercalate "|".toList (List.take 1 [entry]) =
      "RESPONSE|SUCCESS|LOGIN_OK|登录成功|OFFLINE_COUNT:1|".toList ++ entry := by
    simp [List.intercalate, List.intersperse]
  rw [hout] at h1
  rw [← h1]

/-- C7: end-to-end offline delivery. User `b` has no logged-in session and an
empty offline queue. Routing the frame `MESSAGE|<id>|a|b|c|<ts>` (non-empty
`a`, `b`, `c` and an id without `|`; the claim's instance is `a = A`,
`b = B`, `c = hi`) from a session returns the reply
`RESPONSE|SUCCESS|MESSAGE_CACHED|消息已缓存` and leaves the queue of `b` with
exactly one entry, which decodes to id, sender `a`, receiver `b` and content
`c`. A following `LOGIN|b` frame from a registered session returns the
bundled response `RESPONSE|SUCCESS|LOGIN_OK|登录成功|OFFLINE_COUNT:1|<entry>`
and leaves `b` without any offline queue. -/
theorem offline_message_then_login (env1 env2 : RouterEnv) (s : ServerState) (cur login : Nat)
    (mid a b c ts : Str)
    (hmid : '|' ∉ mid) (ha : a ≠ [] ∧ '|' ∉ a) (hb : b ≠ [] ∧ '|' ∉ b)
    (hc : c ≠ [] ∧ '|' ∉ c ∧ c.length ≤ 1000)
    (hoff : findUserById b s.m_activeClients = none)
    (hq : queueOf b s.m_offlineMessages = [])
    (hlogin : login < s.m_activeClients.length) :
    ∃ (reply1 : Str) (s1 : ServerState) (entry reply2 : Str) (s2 : ServerState),
      processMessage env1
          ("MESSAGE|".toList ++ mid ++ "|".toList ++ a ++ "|".toList ++ b ++ "|".toList ++ c ++
            "|".toList ++ ts) (some cur) s = some (reply1, s1) ∧
      "RESPONSE|SUCCESS|MESSAGE_CACHED|".toList <+: reply1 ∧
      queueOf b s1.m_offlineMessages = [entry] ∧
      (∀ now : Str, ∃ m : MessageData, deserializeMessage now entry = some m ∧
        m.messageId = mid ∧ m.senderId = a ∧ m.receiverId = b ∧ m.content = c) ∧
      processMessage env2 ("LOGIN|".toList ++ b) (some login) s1 = some (reply2, s2) ∧
      reply2 = "RESPONSE|SUCCESS|LOGIN_OK|登录成功|OFFLINE_COUNT:1|".toList ++ entry ∧
      queueOf b s2.m_offlineMessages = [] ∧
      mfind b s2.m_offlineMessages = none := by
  have hraw : "MESSAGE|".toList ++ mid ++ "|".toList ++ a ++ "|".toList ++ b ++ "|".toList ++ c ++
      "|".toList ++ ts =
      "MESSAGE".toList ++ '|' :: (mid ++ '|' :: (a ++ '|' :: (b ++ '|' :: (c ++ '|' :: ts)))) := by
    simp
  have hd0 := deserializeMessage_canonical env1.nowDecode mid a b c ts hmid ha.2 hb.2 hc.2.1
    ⟨ha.1, hb.1, hc.1, hc.2.2⟩
  rw [← hraw] at hd0
  obtain ⟨t1, hd⟩ : ∃ t1, deserializeMessage env1.nowDecode
      ("MESSAGE|".toList ++ mid ++ "|".toList ++ a ++ "|".toList ++ b ++ "|".toList ++ c ++
        "|".toList ++ ts) =
      some { messageId := mid, senderId := a, receiverId := b, content := c, timestamp := t1 } :=
    ⟨_, hd0⟩
  have hv : validateMessageFields
      { messageId := mid, senderId := a, receiverId := b, content := c, timestamp := t1 } = true :=
    (validateMessageFields_iff _).2 ⟨ha.1, hb.1, hc.1, hc.2.2⟩
  obtain ⟨t2, hser⟩ : ∃ t2, serializeMessage env1.nowEncode
      { messageId := mid, senderId := a, receiverId := b, content := c, timestamp := t1 } =
      "MESSAGE".toList ++ '|' :: (mid ++ '|' :: (a ++ '|' :: (b ++ '|' :: (c ++ '|' :: t2)))) :=
    ⟨_, serializeMessage_of_valid env1.nowEncode _ hv⟩
  have hacc := serializeMessage_accepted env1.nowEncode _ hv
  have hstep1 := processMessage_offline_receiver env1 _ cur s _ hd hoff
  rw [storeOfflineMessage_first _ _ _ hacc hq] at hstep1
  obtain ⟨s2, hstep2, hgone⟩ := processMessage_login_single env2 b
    (serializeMessage env1.nowEncode
      { messageId := mid, senderId := a, receiverId := b, content := c, timestamp := t1 })
    login
    { s with m_offlineMessages := (massign b
        [serializeMessage env1.nowEncode
          { messageId := mid, senderId := a, receiverId := b, content := c, timestamp := t1 }]
        s.m_offlineMessages) }
    hb.1 hlogin (mfind_massign_self _ _ _)
  refine ⟨_, _, _, _, s2, hstep1, by decide, queueOf_massign_self _ _ _, ?_, hstep2, rfl, ?_, hgone⟩
  · intro now
    rw [hser]
    exact ⟨_, deserializeMessage_canonical now mid a b c t2 hmid ha.2 hb.2 hc.2.1
      ⟨ha.1, hb.1, hc.1, hc.2.2⟩, rfl, rfl, rfl, rfl⟩
  · simp [queueOf, hgone]

/-- C7, witness: the frame `MESSAGE|17|A|B|hi|2025-01-01 08:30:00` sent from the
first session of a server where nobody is logged in as `B`, then `LOGIN|B`
from the second session. -/
theorem offline_message_then_login_witness :
    ∃ (reply1 : Str) (s1 : ServerState) (entry reply2 : Str) (s2 : ServerState),
      processMessage quietEnv
          ("MESSAGE|".toList ++ "17".toList ++ "|".toList ++ "A".toList ++ "|".toList ++
            "B".toList ++ "|".toList ++ "hi".toList ++ "|".toList ++ "2025-01-01 08:30:00".toList)
          (some 0) lobbyServer = some (reply1, s1) ∧
      "RESPONSE|SUCCESS|MESSAGE_CACHED|".toList <+: reply1 ∧
      queueOf "B".toList s1.m_offlineMessages = [entry] ∧
      (∀ now : Str, ∃ m : MessageData, deserializeMessage now entry = some m ∧
        m.messageId = "17".toList ∧ m.senderId = "A".toList ∧ m.receiverId = "B".toList ∧
        m.content = "hi".toList) ∧
      processMessage quietEnv ("LOGIN|".toList ++ "B".toList) (some 1) s1 = some (reply2, s2) ∧
      reply2 = "RESPONSE|SUCCESS|LOGIN_OK|登录成功|OFFLINE_COUNT:1|".toList ++ entry ∧
      queueOf "B".toList s2.m_offlineMessages = [] ∧
      mfind "B".toList s2.m_offlineMessages = none :=
  offline_message_then_login quietEnv quietEnv lobbyServer 0 1 "17".toList "A".toList "B".toList
    "hi".toList "2025-01-01 08:30:00".toList (by decide) (by decide) (by decide) (by decide)
    (by decide) (by decide) (by decide)


theorem handleAck_flag (frame : Str) (i : Nat) (s : ServerState) (messageId : Str)
    (t0 : MessageTransmission) (hi : i < s.m_activeClients.length)
    (hfind : mfind messageId s.m_pendingTransmissions = some t0) :
    ∃ s1 t1, handleAck frame (some i) s = some s1 ∧
      s1.m_activeClients = s.m_activeClients ∧
      mfind messageId s1.m_pendingTransmissions = some t1 ∧
      (t1.acknowledged = true ↔
        t0.acknowledged = true ∨ AckApplies s.m_activeClients messageId (frame, some i)) := by
  obtain ⟨sender, hsender⟩ : ∃ sender, s.m_activeClients[i]? = some sender :=
    ⟨s.m_activeClients[i], List.getElem?_eq_getElem hi⟩
  unfold handleAck
  cases hd : deserializeAck frame with
  | none =>
    refine ⟨s, t0, rfl, rfl, hfind, ?_⟩
    constructor
    · exact Or.inl
    · rintro (h | ⟨ack, j, c, h1, _⟩)
      · exact h
      · simp only [hd] at h1
        cases h1
  | some ack =>
    simp only [Option.bind, hsender]
    by_cases hrecv : ack.receiverId = sender.userId
    · rw [if_neg (fun hn => hn hrecv)]
      by_cases hid : ack.messageId = messageId
      · rw [hid, hfind]
        refine ⟨_, { t0 with acknowledged := true }, rfl, rfl, mfind_massign_self _ _ _, ?_⟩
        constructor
        · intro _
          exact Or.inr ⟨ack, i, sender, hd, rfl, hsender, hrecv, hid⟩
        · intro _
          rfl
      · have hne : messageId ≠ ack.messageId := fun e => hid e.symm
        have hno : ¬ AckApplies s.m_activeClients messageId (frame, some i) := by
          rintro ⟨ack2, j, c, h1, _, _, _, h5⟩
          simp only [hd, Option.some.injEq] at h1
          subst h1
          exact hid h5
        cases hm : mfind ack.messageId s.m_pendingTransmissions with
        | none =>
          exact ⟨s, t0, rfl, rfl, hfind, ⟨Or.inl, fun h => h.elim id (fun h => absurd h hno)⟩⟩
        | some t =>
          refine ⟨_, t0, rfl, rfl, ?_, ⟨Or.inl, fun h => h.elim id (fun h => absurd h hno)⟩⟩
          simp only
          rw [mfind_massign_of_ne _ _ _ _ hne]
          exact hfind
    · rw [if_pos hrecv]
      have hno : ¬ AckApplies s.m_activeClients messageId (frame, some i) := by
        rintro ⟨ack2, j, c, h1, h2, h3, h4, _⟩
        simp only [hd, Option.some.injEq] at h1
        subst h1
        simp only [Option.some.injEq] at h2
        subst h2
        rw [hsender] at h3
        simp only [Option.some.injEq] at h3
        subst h3
        exact hrecv h4
      exact ⟨s, t0, rfl, rfl, hfind, ⟨Or.inl, fun h => h.elim id (fun h => absurd h hno)⟩⟩

theorem handleAcks_flag (acks : List (Str × Option Nat)) (s : ServerState) (messageId : Str)
    (t0 : MessageTransmission) (hreg : AcksRegistered s.m_activeClients acks)
    (hfind : mfind messageId s.m_pendingTransmissions = some t0) :
    ∃ s2 t2, handleAcks acks s = some s2 ∧
      mfind messageId s2.m_pendingTransmissions = some t2 ∧
      (t2.acknowledged = true ↔
        t0.acknowledged = true ∨ ∃ e ∈ acks, AckApplies s.m_activeClients messageId e) := by
  induction acks generalizing s t0 with
  | nil =>
    exact ⟨s, t0, rfl, hfind, ⟨Or.inl, fun h => h.elim id (fun ⟨e, he, _⟩ => by cases he)⟩⟩
  | cons e rest ih =>
    obtain ⟨frame, sender⟩ := e
    obtain ⟨i, hi1, hi2⟩ := hreg (frame, sender) (List.mem_cons_self _ _)
    simp only at hi1
    subst hi1
    obtain ⟨s1, t1, h1, hc1, hf1, hflag1⟩ := handleAck_flag frame i s messageId t0 hi2 hfind
    have hreg1 : AcksRegistered s1.m_activeClients rest := by
      intro e he
      rw [hc1]
      exact hreg e (List.mem_cons_of_mem _ he)
    obtain ⟨s2, t2, h2, hf2, hflag2⟩ := ih s1 t1 hreg1 hf1
    refine ⟨s2, t2, ?_, hf2, ?_⟩
    · simp only [handleAcks, h1]
      exact h2
    · rw [hflag2, hflag1, hc1]
      constructor
      · rintro ((h | h) | ⟨e, he, h⟩)
        · exact Or.inl h
        · exact Or.inr ⟨_, List.mem_cons_self _ _, h⟩
        · exact Or.inr ⟨e, List.mem_cons_of_mem _ he, h⟩
      · rintro (h | ⟨e, he, h⟩)
        · exact Or.inl (Or.inl h)
        · rcases List.mem_cons.1 he with he | he
          · subst he
            exact Or.inl (Or.inr h)
          · exact Or.inr ⟨e, he, h⟩


theorem afterIdAssignment_frame (env : SendEnv) (s : ServerState) (decoded : MessageData) :
    (afterIdAssignment env s decoded).m_activeClients = s.m_activeClients ∧
      (afterIdAssignment env s decoded).m_offlineMessages = s.m_offlineMessages := by
  unfold afterIdAssignment
  split <;> exact ⟨rfl, rfl⟩

theorem sendMessageWithAck_transmitted (env : SendEnv) (target : Nat) (message : Str)
    (s : ServerState) (tc : ClientSession) (decoded : MessageData)
    (hc : s.m_activeClients[target]? = some tc) (hconn : tc.connected = true)
    (hd : deserializeMessage env.nowDecode message = some decoded)
    (htx : sendPipeMessage env.wire (transmittedText env s message) = true)
    (hreg : AcksRegistered s.m_activeClients env.acks) :
    ∃ result s1, sendMessageWithAck env (some target) message s = some (result, s1) ∧
      (result = true ↔
        ∃ e ∈ env.acks, AckApplies s.m_activeClients (trackedId env s decoded) e) ∧
      mfind (trackedId env s decoded) s1.m_pendingTransmissions = none ∧
      s1.m_offlineMessages = s.m_offlineMessages ∧ s1.m_activeClients = s.m_activeClients := by
  obtain ⟨_, _, _, hty⟩ := deserializeMessage_head _ _ _ hd
  have htx2 : sendPipeMessage env.wire (outgoingText env s message decoded) = true := by
    simpa only [transmittedText, hd] using htx
  have hclients : (registerPending env target message decoded s).m_activeClients =
      s.m_activeClients := (afterIdAssignment_frame env s decoded).1
  have hoffline : (registerPending env target message decoded s).m_offlineMessages =
      s.m_offlineMessages := (afterIdAssignment_frame env s decoded).2
  have hreg2 : AcksRegistered (registerPending env target message decoded s).m_activeClients
      env.acks := by
    rw [hclients]
    exact hreg
  obtain ⟨s2, t2, h2, hf2, hflag⟩ := handleAcks_flag env.acks
    (registerPending env target message decoded s) (trackedId env s decoded) _ hreg2
    (mfind_massign_self _ _ _)
  have hfr := handleAcks_frame _ _ _ h2
  rw [sendMessageWithAck_message env target message s tc decoded hc hconn hty hd]
  simp only [htx2, Bool.not_true, Bool.false_eq_true, if_false, h2]
  refine ⟨_, _, rfl, ?_, mfind_merase_self _ _, ?_, ?_⟩
  · rw [hf2]
    simp only
    rw [hflag, hclients]
    simp
  · simp only
    rw [hfr.1, hoffline]
  · simp only
    rw [hfr.2.1, hclients]

/-- C10: for a payload that decodes as a Message, sent to a registered and
connected session, whose socket write succeeds, while the frames handled
during the wait all come from registered sessions: `sendMessageWithAck`
returns, it returns `true` exactly when one of those frames is an
acknowledgment that `handleAck` applies to the id under which the message is
tracked, and in both cases the pending map holds no entry for that id
afterwards. -/
theorem sendMessageWithAck_true_iff_acknowledged (env : SendEnv) (target : Nat)
    (message : Str) (s : ServerState) (tc : ClientSession) (decoded : MessageData)
    (hc : s.m_activeClients[target]? = some tc) (hconn : tc.connected = true)
    (hd : deserializeMessage env.nowDecode message = some decoded)
    (htx : sendPipeMessage env.wire (transmittedText env s message) = true)
    (hreg : AcksRegistered s.m_activeClients env.acks) :
    ∃ result s1, sendMessageWithAck env (some target) message s = some (result, s1) ∧
      (result = true ↔
        ∃ e ∈ env.acks, AckApplies s.m_activeClients (trackedId env s decoded) e) ∧
      mfind (trackedId env s decoded) s1.m_pendingTransmissions = none := by
  obtain ⟨result, s1, h1, h2, h3, _⟩ :=
    sendMessageWithAck_transmitted env target message s tc decoded hc hconn hd htx hreg
  exact ⟨result, s1, h1, h2, h3⟩

/-- C10, witness: `MESSAGE|1|A|B|hi|t` sent to the session of `B`, which
acknowledges message `2` and then message `1` during the wait. -/
theorem sendMessageWithAck_true_iff_acknowledged_witness :
    ∃ result s1,
      sendMessageWithAck ackingEnv.send (some 1) "MESSAGE|1|A|B|hi|t".toList idleServer =
        some (result, s1) ∧
      (result = true ↔
        ∃ e ∈ ackingEnv.send.acks, AckApplies idleServer.m_activeClients
          (trackedId ackingEnv.send idleServer
            { messageId := "1".toList, senderId := "A".toList, receiverId := "B".toList,
              content := "hi".toList, timestamp := "t".toList }) e) ∧
      mfind (trackedId ackingEnv.send idleServer
            { messageId := "1".toList, senderId := "A".toList, receiverId := "B".toList,
              content := "hi".toList, timestamp := "t".toList }) s1.m_pendingTransmissions = none :=
  sendMessageWithAck_true_iff_acknowledged ackingEnv.send 1 "MESSAGE|1|A|B|hi|t".toList idleServer
    { ip := "10.0.0.2".toList, port := 5002, userId := "B".toList, isLoggedIn := true,
      connected := true }
    { messageId := "1".toList, senderId := "A".toList, receiverId := "B".toList,
      content := "hi".toList, timestamp := "t".toList }
    (by decide) (by decide) (by decide) (by decide)
    (by
      intro e he
      have h2 : e = ("ACK|2|B|t".toList, some 1) ∨ e = ("ACK|1|B|t".toList, some 1) := by
        simpa [ackingEnv, quietEnv] using he
      rcases h2 with h2 | h2 <;> exact ⟨1, by rw [h2], by decide⟩)


theorem processMessage_online_receiver (env : RouterEnv) (raw : Str) (cur : Nat)
    (s s1 : ServerState) (m : MessageData) (r : Nat) (rc : ClientSession) (result : Bool)
    (hd : deserializeMessage env.nowDecode raw = some m)
    (hon : findUserById m.receiverId s.m_activeClients = some r)
    (hrc : s.m_activeClients[r]? = some rc) (hconn : rc.connected = true)
    (hsend : sendMessageWithAck env.send (some r) (serializeMessage env.nowEncode m) s =
      some (result, s1)) :
    processMessage env raw (some cur) s =
      some (if result then ("RESPONSE|SUCCESS|MESSAGE_SENT|消息已发送并确认".toList, s1)
        else ("RESPONSE|ERROR|SEND_FAILED|转发失败，已保存为离线消息".toList,
          storeOfflineMessage m.receiverId (serializeMessage env.nowEncode m) s1)) := by
  rw [processMessage_message env raw cur s m hd]
  have h1 : isUserOnline m.receiverId s.m_activeClients = true := by
    simp [isUserOnline, hon]
  have h2 : ((findUserById m.receiverId s.m_activeClients).bind
      (fun i => s.m_activeClients[i]?)).any (·.connected) = true := by
    simp [hon, hrc, hconn]
  rw [if_pos h1, if_pos h2, hon, hsend]
  cases result <;> rfl

theorem storeOfflineMessage_queue (userId payload : Str) (s : ServerState)
    (hacc : payload.take 7 = "MESSAGE".toList) :
    queueOf userId (storeOfflineMessage userId payload s).m_offlineMessages =
      (if 100 ≤ (queueOf userId s.m_offlineMessages).length
        then (queueOf userId s.m_offlineMessages).tail
        else queueOf userId s.m_offlineMessages) ++ [payload] := by
  rw [storeOfflineMessage_of_accepted _ _ _ hacc]
  exact queueOf_massign_self _ _ _

theorem storeOfflineMessage_pending (userId payload : Str) (s : ServerState) :
    (storeOfflineMessage userId payload s).m_pendingTransmissions = s.m_pendingTransmissions := by
  unfold storeOfflineMessage
  split <;> rfl

/-- Decoding the text that encodes a decoded message gives the same message id,
sender, receiver and content (the timestamp may differ). -/
theorem deserializeMessage_serializeMessage (now0 now1 now2 raw : Str) (m : MessageData)
    (hd : deserializeMessage now0 raw = some m) :
    ∃ m2, deserializeMessage now2 (serializeMessage now1 m) = some m2 ∧
      m2.messageId = m.messageId ∧ m2.senderId = m.senderId ∧
      m2.receiverId = m.receiverId ∧ m2.content = m.content := by
  obtain ⟨_, hv, p1, p2, p3, p4⟩ := deserializeMessage_some _ _ _ hd
  rw [serializeMessage_of_valid now1 m hv]
  exact ⟨_, deserializeMessage_canonical now2 _ _ _ _ _ p1 p2 p3 p4
    ((validateMessageFields_iff m).1 hv), rfl, rfl, rfl, rfl⟩

theorem trackedId_congr (env : SendEnv) (s : ServerState) (m m2 : MessageData)
    (h : m2.messageId = m.messageId) : trackedId env s m2 = trackedId env s m := by
  simp only [trackedId, h]

/-- C8 (amended): for every frame that decodes as a Message whose receiver is
an online, connected session and for which `sendMessageWithAck` fails, the
router appends the forwarded text to the offline queue of the receiver
(after evicting the oldest entry of a full queue) and its reply is
`RESPONSE|ERROR|SEND_FAILED|转发失败，已保存为离线消息`, which begins
`RESPONSE|ERROR|SEND_FAILED|` and not `RESPONSE|SUCCESS|MESSAGE_CACHED|`. -/
theorem failed_delivery_is_stored_and_reported (env : RouterEnv) (raw : Str) (cur : Nat)
    (s s1 : ServerState) (m : MessageData) (r : Nat) (rc : ClientSession)
    (hd : deserializeMessage env.nowDecode raw = some m)
    (hon : findUserById m.receiverId s.m_activeClients = some r)
    (hrc : s.m_activeClients[r]? = some rc) (hconn : rc.connected = true)
    (hfail : sendMessageWithAck env.send (some r) (serializeMessage env.nowEncode m) s =
      some (false, s1)) :
    ∃ reply s2, processMessage env raw (some cur) s = some (reply, s2) ∧
      reply = "RESPONSE|ERROR|SEND_FAILED|转发失败，已保存为离线消息".toList ∧
      "RESPONSE|ERROR|SEND_FAILED|".toList <+: reply ∧
      ¬ ("RESPONSE|SUCCESS|MESSAGE_CACHED|".toList <+: reply) ∧
      queueOf m.receiverId s2.m_offlineMessages =
        (if 100 ≤ (queueOf m.receiverId s.m_offlineMessages).length
          then (queueOf m.receiverId s.m_offlineMessages).tail
          else queueOf m.receiverId s.m_offlineMessages) ++
          [serializeMessage env.nowEncode m] := by
  obtain ⟨_, hv, _⟩ := deserializeMessage_some _ _ _ hd
  have hacc := serializeMessage_accepted env.nowEncode m hv
  have hfr := sendMessageWithAck_frame _ _ _ _ _ _ hfail
  refine ⟨"RESPONSE|ERROR|SEND_FAILED|转发失败，已保存为离线消息".toList,
    storeOfflineMessage m.receiverId (serializeMessage env.nowEncode m) s1,
    ?_, rfl, by decide, by decide, ?_⟩
  · rw [processMessage_online_receiver env raw cur s s1 m r rc false hd hon hrc hconn hfail]
    rfl
  · rw [storeOfflineMessage_queue _ _ _ hacc, hfr.1]

/-- C8, witness: `MESSAGE|1|A|B|hi|t` routed while the socket write to the
session of `B` fails. -/
theorem failed_delivery_is_stored_and_reported_witness :
    ∃ reply s2,
      processMessage brokenWireEnv "MESSAGE|1|A|B|hi|t".toList (some 0) idleServer =
        some (reply, s2) ∧
      reply = "RESPONSE|ERROR|SEND_FAILED|转发失败，已保存为离线消息".toList ∧
      "RESPONSE|ERROR|SEND_FAILED|".toList <+: reply ∧
      ¬ ("RESPONSE|SUCCESS|MESSAGE_CACHED|".toList <+: reply) ∧
      queueOf plainMessage.receiverId s2.m_offlineMessages =
        (if 100 ≤ (queueOf plainMessage.receiverId idleServer.m_offlineMessages).length
          then (queueOf plainMessage.receiverId idleServer.m_offlineMessages).tail
          else queueOf plainMessage.receiverId idleServer.m_offlineMessages) ++
          [serializeMessage brokenWireEnv.nowEncode { plainMessage with timestamp := "t".toList }] :=
  failed_delivery_is_stored_and_reported brokenWireEnv "MESSAGE|1|A|B|hi|t".toList 0 idleServer
    idleServer { plainMessage with timestamp := "t".toList } 1
    { ip := "10.0.0.2".toList, port := 5002, userId := "B".toList, isLoggedIn := true,
      connected := true }
    (by decide) (by decide) (by decide) (by decide) (by decide)

/-- C8, counterexample: `B` is online and connected, the socket write to its
session fails, and the reply of the router to `MESSAGE|1|A|B|hi|t` is the
error response `RESPONSE|ERROR|SEND_FAILED|...`, not the cached success
response; the message is stored for `B` all the same. -/
theorem failed_delivery_reply_is_an_error :
    findUserById "B".toList idleServer.m_activeClients = some 1 ∧
    (idleServer.m_activeClients[1]?).map (·.connected) = some true ∧
    (sendMessageWithAck brokenWireEnv.send (some 1) "MESSAGE|1|A|B|hi|t".toList idleServer).map
      (·.1) = some false ∧
    (processMessage brokenWireEnv "MESSAGE|1|A|B|hi|t".toList (some 0) idleServer).map (·.1) =
      some "RESPONSE|ERROR|SEND_FAILED|转发失败，已保存为离线消息".toList ∧
    "RESPONSE|ERROR|".toList <+: "RESPONSE|ERROR|SEND_FAILED|转发失败，已保存为离线消息".toList ∧
    ¬ ("RESPONSE|SUCCESS|MESSAGE_CACHED|".toList <+:
        "RESPONSE|ERROR|SEND_FAILED|转发失败，已保存为离线消息".toList) ∧
    (processMessage brokenWireEnv "MESSAGE|1|A|B|hi|t".toList (some 0) idleServer).map
      (fun x => queueOf "B".toList x.2.m_offlineMessages) =
      some ["MESSAGE|1|A|B|hi|t".toList] := by
  decide

/-- For every frame that decodes as a Message whose receiver is an online,
connected session, when the socket write succeeds and no acknowledgment for
the tracked message id is applied during the wait, whatever session it comes
from, the router call returns
with the reply `RESPONSE|ERROR|SEND_FAILED|转发失败，已保存为离线消息`, the
forwarded text appended once to the offline queue of the receiver, and no
entry for the tracked message id left in the pending map. -/
theorem unacknowledged_delivery_is_stored (env : RouterEnv) (raw : Str) (cur : Nat)
    (s : ServerState) (m : MessageData) (r : Nat) (rc : ClientSession)
    (hd : deserializeMessage env.nowDecode raw = some m)
    (hon : findUserById m.receiverId s.m_activeClients = some r)
    (hrc : s.m_activeClients[r]? = some rc) (hconn : rc.connected = true)
    (htx : sendPipeMessage env.send.wire
      (transmittedText env.send s (serializeMessage env.nowEncode m)) = true)
    (hreg : AcksRegistered s.m_activeClients env.send.acks)
    (hnoack : ∀ e ∈ env.send.acks,
      ¬ AckApplies s.m_activeClients (trackedId env.send s m) e) :
    ∃ reply s2, processMessage env raw (some cur) s = some (reply, s2) ∧
      "RESPONSE|ERROR|SEND_FAILED|".toList <+: reply ∧
      queueOf m.receiverId s2.m_offlineMessages =
        (if 100 ≤ (queueOf m.receiverId s.m_offlineMessages).length
          then (queueOf m.receiverId s.m_offlineMessages).tail
          else queueOf m.receiverId s.m_offlineMessages) ++
          [serializeMessage env.nowEncode m] ∧
      mfind (trackedId env.send s m) s2.m_pendingTransmissions = none := by
  obtain ⟨_, hv, _⟩ := deserializeMessage_some _ _ _ hd
  have hacc := serializeMessage_accepted env.nowEncode m hv
  obtain ⟨m2, hd2, hid, _⟩ :=
    deserializeMessage_serializeMessage env.nowDecode env.nowEncode env.send.nowDecode raw m hd
  obtain ⟨result, s1, hsend, hres, hpend, hoff, _⟩ :=
    sendMessageWithAck_transmitted env.send r (serializeMessage env.nowEncode m) s rc m2
      hrc hconn hd2 htx hreg
  rw [trackedId_congr env.send s m m2 hid] at hres hpend
  have hfalse : result = false := by
    cases result with
    | false => rfl
    | true =>
      obtain ⟨e, he, happ⟩ := hres.1 rfl
      exact absurd happ (hnoack e he)
  subst hfalse
  refine ⟨"RESPONSE|ERROR|SEND_FAILED|转发失败，已保存为离线消息".toList,
    storeOfflineMessage m.receiverId (serializeMessage env.nowEncode m) s1,
    ?_, by decide, ?_, ?_⟩
  · rw [processMessage_online_receiver env raw cur s s1 m r rc false hd hon hrc hconn hsend]
    rfl
  · rw [storeOfflineMessage_queue _ _ _ hacc, hoff]
  · rw [storeOfflineMessage_pending]
    exact hpend

/-- An instance: `MESSAGE|1|A|B|hi|t` routed to the connected session of `B`,
which during the wait only acknowledges another message. -/
theorem unacknowledged_delivery_is_stored_witness :
    ∃ reply s2,
      processMessage strayAckEnv "MESSAGE|1|A|B|hi|t".toList (some 0) idleServer =
        some (reply, s2) ∧
      "RESPONSE|ERROR|SEND_FAILED|".toList <+: reply ∧
      queueOf plainMessage.receiverId s2.m_offlineMessages =
        (if 100 ≤ (queueOf plainMessage.receiverId idleServer.m_offlineMessages).length
          then (queueOf plainMessage.receiverId idleServer.m_offlineMessages).tail
          else queueOf plainMessage.receiverId idleServer.m_offlineMessages) ++
          [serializeMessage strayAckEnv.nowEncode { plainMessage with timestamp := "t".toList }] ∧
      mfind (trackedId strayAckEnv.send idleServer { plainMessage with timestamp := "t".toList })
        s2.m_pendingTransmissions = none :=
  unacknowledged_delivery_is_stored strayAckEnv "MESSAGE|1|A|B|hi|t".toList 0 idleServer
    { plainMessage with timestamp := "t".toList } 1
    { ip := "10.0.0.2".toList, port := 5002, userId := "B".toList, isLoggedIn := true,
      connected := true }
    (by decide) (by decide) (by decide) (by decide) (by decide)
    (by
      intro e he
      have h2 : e = ("ACK|2|B|t".toList, some 1) := by
        simpa [strayAckEnv, quietEnv] using he
      exact ⟨1, by rw [h2], by decide⟩)
    (by
      intro e he
      have h2 : e = ("ACK|2|B|t".toList, some 1) := by
        simpa [strayAckEnv, quietEnv] using he
      rintro ⟨ack, i, c, h3, _, _, _, h4⟩
      have h5 : deserializeAck e.1 =
          some { messageId := "2".toList, receiverId := "B".toList, timestamp := "t".toList } := by
        rw [h2]
        decide
      rw [h5] at h3
      cases h3
      revert h4
      decide)


/-- C9: the frame `MESSAGE|1|A|B|hi|t` from `A` is routed to `B`, who is online and
connected. The socket write succeeds and `B` sends nothing during the wait,
but the session of `C` sends `ACK|1|C|t`. The router call returns
`RESPONSE|SUCCESS|MESSAGE_SENT|消息已发送并确认`, the offline queue of `B` is empty and
nothing is pending: the message `B` never acknowledged is kept nowhere.
Without the frame of `C` the same call answers `RESPONSE|ERROR|SEND_FAILED|...` and
stores the message in the queue of `B`. -/
theorem foreign_ack_discards_unacknowledged_message :
    foreignAckEnv.send.acks = [("ACK|1|C|t".toList, some 2)] ∧
    (idleServer.m_activeClients[1]?).map (fun c => (c.userId, c.isLoggedIn, c.connected)) =
      some ("B".toList, true, true) ∧
    (idleServer.m_activeClients[2]?).map (·.userId) = some "C".toList ∧
    (processMessage foreignAckEnv "MESSAGE|1|A|B|hi|t".toList (some 0) idleServer).map
        (fun p => (p.1, queueOf "B".toList p.2.m_offlineMessages,
          p.2.m_pendingTransmissions.map Prod.fst)) =
      some ("RESPONSE|SUCCESS|MESSAGE_SENT|消息已发送并确认".toList, [], []) ∧
    (processMessage quietEnv "MESSAGE|1|A|B|hi|t".toList (some 0) idleServer).map
        (fun p => (p.1, queueOf "B".toList p.2.m_offlineMessages,
          p.2.m_pendingTransmissions.map Prod.fst)) =
      some ("RESPONSE|ERROR|SEND_FAILED|转发失败，已保存为离线消息".toList,
        ["MESSAGE|1|A|B|hi|t".toList], []) := by
  decide

/-! ### Facts about the router entry points and the classifier -/

/-- C11: two inputs on which the router does not return a response. The frame
`ACK|X|B|t` arriving for a client address without a registered session (the
default `clientId`, or an unknown address) makes `handleAck` read the user
id of an absent session, in both overloads of `processMessage`; the frame
`LOGIN|bob` arriving for the unregistered address `host:abc` makes
`std::stoi` throw out of `processMessage(rawMessage, clientId)`. -/
theorem processMessage_faults_without_session :
    findClientByAddr "".toList idleServer.m_activeClients = none ∧
    processMessageByClientId quietEnv "ACK|X|B|t".toList "".toList idleServer = none ∧
    processMessageByClientId quietEnv "ACK|X|B|t".toList "9.9.9.9:1".toList idleServer = none ∧
    processMessage quietEnv "ACK|X|B|t".toList none idleServer = none ∧
    handleAck "ACK|X|B|t".toList none idleServer = none ∧
    stoi "abc".toList = none ∧
    processMessageByClientId quietEnv "LOGIN|bob".toList "host:abc".toList idleServer = none := by
  decide

theorem takeWhile_of_find_none (d : Char) (data : Str) (h : find d data = none) :
    data.takeWhile (fun c => decide (c ≠ d)) = data := by
  induction data with
  | nil => rfl
  | cons c cs ih =>
    by_cases hc : c = d
    · simp [find, hc] at h
    · simp only [find, hc, if_false, Option.map_eq_none'] at h
      rw [List.takeWhile_cons]
      simp only [ne_eq, hc, not_false_eq_true, decide_True, if_true]
      rw [ih h]

theorem takeWhile_of_find_some (d : Char) (data : Str) (pos : Nat)
    (h : find d data = some pos) :
    data.takeWhile (fun c => decide (c ≠ d)) = data.take pos := by
  induction data generalizing pos with
  | nil => simp [find] at h
  | cons c cs ih =>
    by_cases hc : c = d
    · simp only [find, hc, if_true, Option.some.injEq] at h
      subst h
      simp [hc]
    · simp only [find, hc, if_false, Option.map_eq_some'] at h
      obtain ⟨p, hp, rfl⟩ := h
      rw [List.takeWhile_cons]
      simp only [ne_eq, hc, not_false_eq_true, decide_True, if_true, List.take_succ_cons]
      rw [ih p hp]

theorem parseProtocolType_eq (data : Str) :
    parseProtocolType data =
      if data.takeWhile (fun c => decide (c ≠ '|')) = "MESSAGE".toList then PType.Message
      else if data.takeWhile (fun c => decide (c ≠ '|')) = "LOGIN".toList then PType.Login
      else if data.takeWhile (fun c => decide (c ≠ '|')) = "LOGOUT".toList then PType.Logout
      else if data.takeWhile (fun c => decide (c ≠ '|')) = "RESPONSE".toList then PType.Response
      else if data.takeWhile (fun c => decide (c ≠ '|')) = "HEARTBEAT".toList then PType.Heartbeat
      else if data.takeWhile (fun c => decide (c ≠ '|')) = "ACK".toList then PType.Ack
      else PType.Invalid := by
  unfold parseProtocolType
  cases hf : find '|' data with
  | none => simp only [takeWhile_of_find_none _ _ hf]
  | some pos => simp only [takeWhile_of_find_some _ _ _ hf]

/-- C14: for every text, `parseProtocolType` returns the type named by the
substring before the first `|` (the whole text when it has no `|`): Login,
Logout, Message, Response, Heartbeat or Ack when that substring is exactly
`LOGIN`, `LOGOUT`, `MESSAGE`, `RESPONSE`, `HEARTBEAT` or `ACK`, and the
invalid value for every other substring. -/
theorem parseProtocolType_by_leading_tag (data : Str) :
    parseProtocolType data = classifyTag (data.takeWhile (fun c => decide (c ≠ '|'))) := by
  rw [parseProtocolType_eq]
  generalize data.takeWhile (fun c => decide (c ≠ '|')) = tag
  unfold classifyTag
  by_cases h1 : tag = "MESSAGE".toList
  · subst h1
    decide
  · by_cases h2 : tag = "LOGIN".toList
    · subst h2
      decide
    · by_cases h3 : tag = "LOGOUT".toList
      · subst h3
        decide
      · simp only [h1, h2, h3, if_false]


theorem tag_append_rest (data : Str) :
    ∃ rest, data = data.takeWhile (fun c => decide (c ≠ '|')) ++ rest :=
  ⟨data.dropWhile (fun c => decide (c ≠ '|')), (List.takeWhile_append_dropWhile _ _).symm⟩

theorem parseProtocolType_response (data : Str)
    (h : parseProtocolType data = PType.Response) : ∃ rest, data = "RESPONSE".toList ++ rest := by
  rw [parseProtocolType_eq] at h
  obtain ⟨rest, hr⟩ := tag_append_rest data
  by_cases h4 : data.takeWhile (fun c => decide (c ≠ '|')) = "RESPONSE".toList
  · exact ⟨rest, by rw [← h4]; exact hr⟩
  · exfalso
    revert h
    simp only [h4, if_false]
    split_ifs <;> simp

theorem parseProtocolType_heartbeat (data : Str)
    (h : parseProtocolType data = PType.Heartbeat) :
    ∃ rest, data = "HEARTBEAT".toList ++ rest := by
  rw [parseProtocolType_eq] at h
  obtain ⟨rest, hr⟩ := tag_append_rest data
  by_cases h4 : data.takeWhile (fun c => decide (c ≠ '|')) = "HEARTBEAT".toList
  · exact ⟨rest, by rw [← h4]; exact hr⟩
  · exfalso
    revert h
    simp only [h4, if_false]
    split_ifs <;> simp

theorem processMessage_unknown (env : RouterEnv) (raw : Str) (cur : Nat) (s : ServerState)
    (h3 : raw.take 3 ≠ "ACK".toList) (h5 : raw.take 5 ≠ "LOGIN".toList)
    (h7 : raw.take 7 ≠ "MESSAGE".toList) (h6 : raw.take 6 ≠ "LOGOUT".toList) :
    processMessage env raw (some cur) s =
      some ("RESPONSE|ERROR|UNKNOWN_COMMAND|未知命令".toList, s) := by
  unfold processMessage
  rw [if_neg h3]
  simp only
  rw [if_neg h5, if_neg h7, if_neg h6]

/-- C13 (amended): for every frame that begins with none of `ACK`, `LOGIN`,
`MESSAGE` and `LOGOUT`, and so for every frame classified as Response or
Heartbeat, the reply of the router is
`RESPONSE|ERROR|UNKNOWN_COMMAND|未知命令` and the sessions, the offline
queues and the pending deliveries are unchanged. -/
theorem unknown_frame_is_answered_unknown_command (env : RouterEnv) (raw : Str) (cur : Nat)
    (s : ServerState)
    (h : (raw.take 3 ≠ "ACK".toList ∧ raw.take 5 ≠ "LOGIN".toList ∧
          raw.take 7 ≠ "MESSAGE".toList ∧ raw.take 6 ≠ "LOGOUT".toList) ∨
        parseProtocolType raw = PType.Response ∨ parseProtocolType raw = PType.Heartbeat) :
    processMessage env raw (some cur) s =
        some ("RESPONSE|ERROR|UNKNOWN_COMMAND|未知命令".toList, s) ∧
      "RESPONSE|ERROR|UNKNOWN_COMMAND|".toList <+:
        "RESPONSE|ERROR|UNKNOWN_COMMAND|未知命令".toList := by
  refine ⟨?_, by decide⟩
  rcases h with ⟨h3, h5, h7, h6⟩ | h | h
  · exact processMessage_unknown env raw cur s h3 h5 h7 h6
  · obtain ⟨rest, rfl⟩ := parseProtocolType_response raw h
    exact processMessage_unknown env _ cur s (by simp) (by simp) (by simp) (by simp)
  · obtain ⟨rest, rfl⟩ := parseProtocolType_heartbeat raw h
    exact processMessage_unknown env _ cur s (by simp) (by simp) (by simp) (by simp)

/-- C13, witness: a `HEARTBEAT` frame from the second session of the lobby. -/
theorem unknown_frame_is_answered_unknown_command_witness :
    processMessage quietEnv "HEARTBEAT".toList (some 1) lobbyServer =
        some ("RESPONSE|ERROR|UNKNOWN_COMMAND|未知命令".toList, lobbyServer) ∧
      "RESPONSE|ERROR|UNKNOWN_COMMAND|".toList <+:
        "RESPONSE|ERROR|UNKNOWN_COMMAND|未知命令".toList :=
  unknown_frame_is_answered_unknown_command quietEnv "HEARTBEAT".toList 1 lobbyServer
    (Or.inr (Or.inr (by decide)))

/-- C13, counterexample: the frames `LOGINX|bob` and `ACKX`, sent from a
registered session, are classified as invalid by `parseProtocolType`; the
router answers the first with the login success response and logs the
session in as `bob`, and answers the second with the empty text. -/
theorem unclassified_frames_are_dispatched_by_their_first_letters :
    parseProtocolType "LOGINX|bob".toList = PType.Invalid ∧
    (lobbyServer.m_activeClients[1]?).map (fun c => (c.userId, c.isLoggedIn)) =
      some ([], false) ∧
    (processMessage quietEnv "LOGINX|bob".toList (some 1) lobbyServer).map (·.1) =
      some "RESPONSE|SUCCESS|LOGIN_OK|登录成功".toList ∧
    ((processMessage quietEnv "LOGINX|bob".toList (some 1) lobbyServer).bind
      (fun x => (x.2.m_activeClients[1]?).map (fun c => (c.userId, c.isLoggedIn)))) =
      some ("bob".toList, true) ∧
    parseProtocolType "ACKX".toList = PType.Invalid ∧
    (processMessage quietEnv "ACKX".toList (some 1) lobbyServer).map (·.1) = some [] := by
  decide


theorem createBundledLoginResponse_reply (userId : Str) (s : ServerState) :
    "RESPONSE|SUCCESS|LOGIN_OK|".toList <+: (createBundledLoginResponse userId s).1 ∧
    (createBundledLoginResponse userId s).2.m_activeClients = s.m_activeClients ∧
    (queueOf userId s.m_offlineMessages = [] →
      createBundledLoginResponse userId s = ("RESPONSE|SUCCESS|LOGIN_OK|登录成功".toList, s)) := by
  have hp : "RESPONSE|SUCCESS|LOGIN_OK|".toList <+:
      "RESPONSE|SUCCESS|LOGIN_OK|登录成功".toList := by decide
  cases hf : mfind userId s.m_offlineMessages with
  | none =>
    have e : createBundledLoginResponse userId s =
        ("RESPONSE|SUCCESS|LOGIN_OK|登录成功".toList, s) := by
      simp only [createBundledLoginResponse, hf]
    rw [e]
    exact ⟨hp, rfl, fun _ => rfl⟩
  | some q =>
    by_cases hq : q = []
    · have e : createBundledLoginResponse userId s =
          ("RESPONSE|SUCCESS|LOGIN_OK|登录成功".toList, s) := by
        simp [createBundledLoginResponse, hf, hq]
      rw [e]
      exact ⟨hp, rfl, fun _ => rfl⟩
    · have h := createBundledLoginResponse_spec userId s q hf hq
      refine ⟨?_, h.2.2.2.2.2.1, ?_⟩
      · rw [h.1]
        simp only [List.append_assoc]
        exact (by decide : "RESPONSE|SUCCESS|LOGIN_OK|".toList <+:
          "RESPONSE|SUCCESS|LOGIN_OK|登录成功|OFFLINE_COUNT:".toList).trans
          (List.prefix_append _ _)
      · intro he
        simp only [queueOf, hf, Option.getD_some] at he
        exact absurd he hq

/-- C16: for every non-empty user id and every registered session, the reply
of the router to `LOGIN|<userId>` begins `RESPONSE|SUCCESS|LOGIN_OK|` and the
session ends up logged in and bound to that user id; when the offline queue
of the user is empty or absent the reply is exactly
`RESPONSE|SUCCESS|LOGIN_OK|登录成功`. -/
theorem login_succeeds_and_binds_session (env : RouterEnv) (userId : Str) (cur : Nat)
    (s : ServerState) (client : ClientSession) (hu : userId ≠ [])
    (hc : s.m_activeClients[cur]? = some client) :
    ∃ reply s1, processMessage env ("LOGIN|".toList ++ userId) (some cur) s = some (reply, s1) ∧
      "RESPONSE|SUCCESS|LOGIN_OK|".toList <+: reply ∧
      s1.m_activeClients[cur]? = some { client with isLoggedIn := true, userId := userId } ∧
      (queueOf userId s.m_offlineMessages = [] →
        reply = "RESPONSE|SUCCESS|LOGIN_OK|登录成功".toList) := by
  have hlt : cur < s.m_activeClients.length := by
    rcases Nat.lt_or_ge cur s.m_activeClients.length with h | h
    · exact h
    · rw [List.getElem?_eq_none h] at hc
      cases hc
  have hproc := processMessage_login env userId cur s client hu hc
  obtain ⟨h1, h2, h3⟩ := createBundledLoginResponse_reply userId
    { s with m_activeClients :=
        (s.m_activeClients.set cur { client with isLoggedIn := true, userId := userId }) }
  refine ⟨(createBundledLoginResponse userId
      { s with m_activeClients :=
        (s.m_activeClients.set cur { client with isLoggedIn := true, userId := userId }) }).1,
    (createBundledLoginResponse userId
      { s with m_activeClients :=
        (s.m_activeClients.set cur { client with isLoggedIn := true, userId := userId }) }).2,
    hproc, h1, ?_, ?_⟩
  · rw [h2]
    simp [hlt]
  · intro hq
    rw [h3 hq]

/-- C16, witness: `LOGIN|B` from the second session of the lobby. -/
theorem login_succeeds_and_binds_session_witness :
    ∃ reply s1, processMessage quietEnv ("LOGIN|".toList ++ "B".toList) (some 1) lobbyServer =
        some (reply, s1) ∧
      "RESPONSE|SUCCESS|LOGIN_OK|".toList <+: reply ∧
      s1.m_activeClients[1]? =
        some { ip := "10.0.0.2".toList, port := 5002, userId := "B".toList, isLoggedIn := true,
               connected := true } ∧
      (queueOf "B".toList lobbyServer.m_offlineMessages = [] →
        reply = "RESPONSE|SUCCESS|LOGIN_OK|登录成功".toList) :=
  login_succeeds_and_binds_session quietEnv "B".toList 1 lobbyServer
    { ip := "10.0.0.2".toList, port := 5002, userId := [], isLoggedIn := false,
      connected := true }
    (by decide) (by decide)


/-! ### Facts about message ids -/

theorem splitFields_ne_nil (d : Char) (s : Str) : splitFields d s ≠ [] := by
  cases s with
  | nil => simp [splitFields]
  | cons c cs =>
    unfold splitFields
    split
    · simp
    · split <;> simp

theorem splitFields_single (d : Char) (s a : Str) (h : splitFields d s = [a]) :
    d ∉ a ∧ s = a := by
  induction s generalizing a with
  | nil =>
    simp only [splitFields, List.cons.injEq, and_true] at h
    subst h
    simp
  | cons c cs ih =>
    unfold splitFields at h
    by_cases hc : c = d
    · simp only [hc, if_true, List.cons.injEq] at h
      exact absurd h.2 (splitFields_ne_nil d cs)
    · simp only [hc, if_false] at h
      cases hs : splitFields d cs with
      | nil => exact absurd hs (splitFields_ne_nil d cs)
      | cons f fs =>
        rw [hs] at h
        simp only [List.cons.injEq] at h
        obtain ⟨h1, h2⟩ := h
        subst h2
        subst h1
        obtain ⟨i1, i2⟩ := ih f hs
        refine ⟨?_, by rw [i2]⟩
        simp only [List.mem_cons, not_or]
        exact ⟨fun e => hc e.symm, i1⟩

theorem splitFields_more (d : Char) (s a f : Str) (fs : List Str)
    (h : splitFields d s = a :: f :: fs) :
    d ∉ a ∧ ∃ rest, s = a ++ d :: rest ∧ splitFields d rest = f :: fs := by
  induction s generalizing a with
  | nil => simp [splitFields] at h
  | cons c cs ih =>
    unfold splitFields at h
    by_cases hc : c = d
    · simp only [hc, if_true, List.cons.injEq] at h
      obtain ⟨h1, h2⟩ := h
      subst h1
      exact ⟨by simp, cs, by simp [hc], h2⟩
    · simp only [hc, if_false] at h
      cases hs : splitFields d cs with
      | nil => exact absurd hs (splitFields_ne_nil d cs)
      | cons g gs =>
        rw [hs] at h
        simp only [List.cons.injEq] at h
        obtain ⟨h1, h2⟩ := h
        subst h1
        subst h2
        obtain ⟨i1, rest, i2, i3⟩ := ih g hs
        refine ⟨?_, rest, by rw [i2]; rfl, i3⟩
        simp only [List.mem_cons, not_or]
        exact ⟨fun e => hc e.symm, i1⟩

theorem getline_of_single (d : Char) (s a : Str) (h : splitFields d s = [a]) :
    getline d (some s) = (if a = [] then none else some a, none) := by
  obtain ⟨h1, h2⟩ := splitFields_single d s a h
  rw [h2]
  exact getline_last d a h1

theorem getline_of_more (d : Char) (s a f : Str) (fs : List Str)
    (h : splitFields d s = a :: f :: fs) :
    ∃ rest, getline d (some s) = (some a, some rest) ∧ splitFields d rest = f :: fs := by
  obtain ⟨h1, rest, h2, h3⟩ := splitFields_more d s a f fs h
  exact ⟨rest, by rw [h2]; exact getline_field d a rest h1, h3⟩

theorem getline_none (d : Char) : getline d none = (none, none) := rfl

/-- Reading one field: either the stream holds a single last field, or a field
followed by more. -/
theorem getline_fields (d : Char) (s : Str) :
    (∃ a, splitFields d s = [a] ∧
      getline d (some s) = (if a = [] then none else some a, none)) ∨
    (∃ a f fs rest, splitFields d s = a :: f :: fs ∧
      getline d (some s) = (some a, some rest) ∧ splitFields d rest = f :: fs) := by
  cases h : splitFields d s with
  | nil => exact absurd h (splitFields_ne_nil d s)
  | cons a t =>
    cases t with
    | nil => exact Or.inl ⟨a, rfl, getline_of_single d s a h⟩
    | cons f fs =>
      obtain ⟨rest, h1, h2⟩ := getline_of_more d s a f fs h
      exact Or.inr ⟨a, f, fs, rest, rfl, h1, h2⟩


/-- The text of a successfully decoded message: the tag and the four fields,
separated by `|`, followed by nothing or by `|` and the timestamp part. -/
theorem deserializeMessage_shape (now raw : Str) (m : MessageData)
    (h : deserializeMessage now raw = some m) :
    ∃ tailText : Str, (tailText = [] ∨ ∃ t, tailText = '|' :: t) ∧
      raw = "MESSAGE".toList ++ '|' :: (m.messageId ++ '|' :: (m.senderId ++ '|' ::
        (m.receiverId ++ '|' :: (m.content ++ tailText)))) := by
  unfold deserializeMessage at h
  split at h
  · cases h
  · rename_i protocolType iss1 h1
    split at h
    · cases h
    · rename_i htype
      have htype : protocolType = "MESSAGE".toList := by
        by_contra hc
        exact htype hc
      split at h
      · cases h
      · rename_i messageId iss2 h2
        split at h
        · cases h
        · rename_i sender iss3 h3
          split at h
          · cases h
          · rename_i receiver iss4 h4
            split at h
            · cases h
            · rename_i content iss5 h5
              have key : ∀ T : MessageData,
                  (if (!validateMessageFields T) = true then none else some T) = some m →
                    T = m := by
                intro T hT
                cases hv : validateMessageFields T
                · simp [hv] at hT
                · simp only [hv, Bool.not_true, Bool.false_eq_true, if_false,
                    Option.some.injEq] at hT
                  exact hT
              have h := key _ h
              obtain ⟨_, s0, hs0, _, r1⟩ := getline_some _ _ _ _ h1
              obtain ⟨_, s1, hs1, _, r2⟩ := getline_some _ _ _ _ h2
              obtain ⟨_, s2, hs2, _, r3⟩ := getline_some _ _ _ _ h3
              obtain ⟨_, s3, hs3, _, r4⟩ := getline_some _ _ _ _ h4
              obtain ⟨_, s4, hs4, e5, r5⟩ := getline_some _ _ _ _ h5
              simp only [Option.some.injEq] at hs0
              subst hs0
              have q1 := r1 s1 hs1
              have q2 := r2 s2 hs2
              have q3 := r3 s3 hs3
              have q4 := r4 s4 hs4
              rw [q1, q2, q3, q4, htype, ← h]
              cases iss5 with
              | none =>
                exact ⟨[], Or.inl rfl, by rw [e5 rfl, List.append_nil]⟩
              | some t =>
                exact ⟨'|' :: t, Or.inr ⟨t, rfl⟩, by rw [r5 t rfl]⟩

theorem splitFields_append (d : Char) (a rest : Str) (h : d ∉ a) :
    splitFields d (a ++ d :: rest) = a :: splitFields d rest := by
  induction a with
  | nil => simp [splitFields]
  | cons c cs ih =>
    have hc : c ≠ d := fun e => h (by simp [e])
    have hcs : d ∉ cs := fun e => h (by simp [e])
    rw [List.cons_append, splitFields, if_neg hc, ih hcs]

theorem splitFields_of_not_mem (d : Char) (a : Str) (h : d ∉ a) : splitFields d a = [a] := by
  induction a with
  | nil => simp [splitFields]
  | cons c cs ih =>
    have hc : c ≠ d := fun e => h (by simp [e])
    have hcs : d ∉ cs := fun e => h (by simp [e])
    rw [splitFields, if_neg hc, ih hcs]

/-- The fields of a successfully decoded text start with the tag and the four
fields of the message. -/
theorem splitFields_of_decoded (now raw : Str) (m : MessageData)
    (h : deserializeMessage now raw = some m) :
    ∃ more, splitFields '|' raw =
      "MESSAGE".toList :: m.messageId :: m.senderId :: m.receiverId :: m.content :: more := by
  obtain ⟨_, _, p1, p2, p3, p4⟩ := deserializeMessage_some now raw m h
  obtain ⟨tailText, ht, hraw⟩ := deserializeMessage_shape now raw m h
  rw [hraw, splitFields_append _ _ _ (by decide), splitFields_append _ _ _ p1,
    splitFields_append _ _ _ p2, splitFields_append _ _ _ p3]
  rcases ht with ht | ⟨t, ht⟩
  · rw [ht, List.append_nil, splitFields_of_not_mem _ _ p4]
    exact ⟨[], rfl⟩
  · rw [ht, splitFields_append _ _ _ p4]
    exact ⟨_, rfl⟩


/-- Decoding the text that ends with the content field: the timestamp is the
clock text. -/
theorem deserializeMessage_canonical_bare (now : Str) (mid snd rcv cnt : Str)
    (hid : '|' ∉ mid) (hs : '|' ∉ snd) (hr : '|' ∉ rcv) (hc : '|' ∉ cnt)
    (hv : snd ≠ [] ∧ rcv ≠ [] ∧ cnt ≠ [] ∧ cnt.length ≤ 1000) :
    deserializeMessage now
      ("MESSAGE".toList ++ '|' :: (mid ++ '|' :: (snd ++ '|' :: (rcv ++ '|' :: cnt))))
      = some { messageId := mid, senderId := snd, receiverId := rcv, content := cnt,
               timestamp := now } := by
  have h0 : '|' ∉ "MESSAGE".toList := by decide
  unfold deserializeMessage
  rw [getline_field '|' _ _ h0]
  simp only [ne_eq, not_true_eq_false, if_false]
  rw [getline_field '|' _ _ hid]
  simp only
  rw [getline_field '|' _ _ hs]
  simp only
  rw [getline_field '|' _ _ hr]
  simp only
  rw [getline_last '|' _ hc]
  simp only [hv.2.2.1, if_false]
  have hval : validateMessageFields
      { messageId := mid, senderId := snd, receiverId := rcv, content := cnt,
        timestamp := now } = true :=
    (validateMessageFields_iff _).2 hv
  simp [getline, hval]

theorem deserializeMessageInto_of_none (now raw : Str) (msg : MessageData)
    (h : deserializeMessage now raw = none) : deserializeMessageInto now raw msg = (false, msg) := by
  simp only [deserializeMessageInto, h]

theorem deserializeMessageInto_of_some (now raw : Str) (msg m : MessageData)
    (h : deserializeMessage now raw = some m) : deserializeMessageInto now raw msg = (true, m) := by
  simp only [deserializeMessageInto, h]

/-- C12 (amended): `deserializeMessage` returns failure, leaving the output
record as it was, for every text whose leading tag is not `MESSAGE`, for
every text that has fewer than four fields after the tag, and for every text
whose sender, receiver or content field is empty (an empty message id is
accepted). When the text ends with a valid content field, or with the `|`
after it, the call succeeds and the timestamp is the current clock text. -/
theorem deserializeMessage_rejects_incomplete_frames (now raw : Str) (msg : MessageData) :
    ((splitFields '|' raw).head? ≠ some "MESSAGE".toList →
      deserializeMessageInto now raw msg = (false, msg)) ∧
    ((splitFields '|' raw).length < 5 →
      deserializeMessageInto now raw msg = (false, msg)) ∧
    ((splitFields '|' raw)[2]? = some [] ∨ (splitFields '|' raw)[3]? = some [] ∨
        (splitFields '|' raw)[4]? = some [] →
      deserializeMessageInto now raw msg = (false, msg)) ∧
    (∀ messageId sender receiver content : Str,
      '|' ∉ messageId → '|' ∉ sender → '|' ∉ receiver → '|' ∉ content →
      sender ≠ [] → receiver ≠ [] → content ≠ [] → content.length ≤ 1000 →
      (raw = "MESSAGE|".toList ++ messageId ++ "|".toList ++ sender ++ "|".toList ++ receiver ++
          "|".toList ++ content ∨
        raw = "MESSAGE|".toList ++ messageId ++ "|".toList ++ sender ++ "|".toList ++ receiver ++
          "|".toList ++ content ++ "|".toList) →
      deserializeMessageInto now raw msg =
        (true, { messageId := messageId, senderId := sender, receiverId := receiver,
                 content := content, timestamp := now })) := by
  have hfail : ∀ (P : Prop), (∀ m more, splitFields '|' raw =
      "MESSAGE".toList :: m.messageId :: m.senderId :: m.receiverId :: m.content :: more →
      validateMessageFields m = true → ¬ P) → P →
      deserializeMessageInto now raw msg = (false, msg) := by
    intro P hP hp
    cases hd : deserializeMessage now raw with
    | none => exact deserializeMessageInto_of_none now raw msg hd
    | some m =>
      obtain ⟨more, hf⟩ := splitFields_of_decoded now raw m hd
      exact absurd hp (hP m more hf (deserializeMessage_some now raw m hd).2.1)
  refine ⟨?_, ?_, ?_, ?_⟩
  · apply hfail
    intro m more hf _ hp
    rw [hf] at hp
    exact hp rfl
  · apply hfail
    intro m more hf _ hp
    rw [hf] at hp
    simp only [List.length_cons] at hp
    omega
  · apply hfail
    intro m more hf hv hp
    obtain ⟨h1, h2, h3, _⟩ := (validateMessageFields_iff m).1 hv
    rw [hf] at hp
    simp only [List.getElem?_cons_succ, List.getElem?_cons_zero, Option.some.injEq] at hp
    rcases hp with hp | hp | hp
    · exact h1 hp
    · exact h2 hp
    · exact h3 hp
  · intro messageId sender receiver content p1 p2 p3 p4 q1 q2 q3 q4 hraw
    apply deserializeMessageInto_of_some
    rcases hraw with hraw | hraw
    · have e : raw = "MESSAGE".toList ++ '|' :: (messageId ++ '|' :: (sender ++ '|' ::
          (receiver ++ '|' :: content))) := by
        rw [hraw]
        simp
      rw [e]
      exact deserializeMessage_canonical_bare now _ _ _ _ p1 p2 p3 p4 ⟨q1, q2, q3, q4⟩
    · have e : raw = "MESSAGE".toList ++ '|' :: (messageId ++ '|' :: (sender ++ '|' ::
          (receiver ++ '|' :: (content ++ '|' :: [])))) := by
        rw [hraw]
        simp
      rw [e, deserializeMessage_canonical now _ _ _ _ _ p1 p2 p3 p4 ⟨q1, q2, q3, q4⟩]
      simp [getline, readUntil]

/-- C12, witness: a text with the wrong tag is rejected, and
`MESSAGE|1|A|B|hi` is decoded with the clock text as its timestamp. -/
theorem deserializeMessage_rejects_incomplete_frames_witness :
    deserializeMessageInto clockText "LOGIN|A".toList plainMessage = (false, plainMessage) ∧
    deserializeMessageInto clockText "MESSAGE|1|A|B|hi".toList untimedMessage =
      (true, { messageId := "1".toList, senderId := "A".toList, receiverId := "B".toList,
               content := "hi".toList, timestamp := clockText }) :=
  ⟨(deserializeMessage_rejects_incomplete_frames clockText "LOGIN|A".toList plainMessage).1
      (by decide),
    (deserializeMessage_rejects_incomplete_frames clockText "MESSAGE|1|A|B|hi".toList
      untimedMessage).2.2.2 "1".toList "A".toList "B".toList "hi".toList
      (by decide) (by decide) (by decide) (by decide) (by decide) (by decide) (by decide)
      (by decide) (Or.inl (by decide))⟩

/-- C12, counterexample: the text `MESSAGE||A|B|hi|t` has an empty message id
field, and `deserializeMessage` succeeds on it and assigns the output
record. -/
theorem deserializeMessage_accepts_empty_message_id :
    (splitFields '|' "MESSAGE||A|B|hi|t".toList)[1]? = some [] ∧
    deserializeMessage clockText "MESSAGE||A|B|hi|t".toList =
      some { messageId := [], senderId := "A".toList, receiverId := "B".toList,
             content := "hi".toList, timestamp := "t".toList } ∧
    deserializeMessageInto clockText "MESSAGE||A|B|hi|t".toList plainMessage ≠
      (false, plainMessage) := by
  decide


/-! ### Facts about the retry sweep -/

theorem storeExhausted_frame (env : RetryEnv) (key : Str) (tr : MessageTransmission)
    (s : ServerState) :
    (storeExhausted env key tr s).m_activeClients = s.m_activeClients ∧
      (storeExhausted env key tr s).m_pendingTransmissions = s.m_pendingTransmissions := by
  unfold storeExhausted
  split
  · unfold storeOfflineMessage
    split <;> exact ⟨rfl, rfl⟩
  · exact ⟨rfl, rfl⟩

theorem retryEntry_clients (env : RetryEnv) (key : Str) (tr : MessageTransmission)
    (s s1 : ServerState) (o : EntryOutcome) (h : retryEntry env key tr s = some (o, s1)) :
    s1.m_activeClients = s.m_activeClients := by
  unfold retryEntry at h
  split at h
  · cases h; rfl
  · split at h
    · split at h
      · cases h; exact (storeExhausted_frame env key tr s).1
      · split at h
        · cases h
        · split at h
          · cases h; rfl
          · cases h; exact (storeExhausted_frame env key tr s).1
    · cases h; rfl

/-- The outcome of the loop body depends on the state only through the sessions. -/
theorem retryEntry_outcome (env : RetryEnv) (key : Str) (tr : MessageTransmission)
    (s s2 : ServerState) (hc : s2.m_activeClients = s.m_activeClients) :
    (retryEntry env key tr s2).map Prod.fst = (retryEntry env key tr s).map Prod.fst := by
  unfold retryEntry
  rw [hc]
  split
  · rfl
  · split
    · split
      · rfl
      · cases s.m_activeClients[tr.targetClient]? with
        | none => rfl
        | some target =>
          simp only
          split <;> rfl
    · rfl

theorem retryEntry_total (env : RetryEnv) (key : Str) (tr : MessageTransmission)
    (s : ServerState) (ht : tr.targetClient < s.m_activeClients.length) :
    ∃ o s1, retryEntry env key tr s = some (o, s1) := by
  obtain ⟨target, htarget⟩ : ∃ target, s.m_activeClients[tr.targetClient]? = some target :=
    ⟨s.m_activeClients[tr.targetClient], List.getElem?_eq_getElem ht⟩
  unfold retryEntry
  rw [htarget]
  split
  · exact ⟨_, _, rfl⟩
  · split
    · split
      · exact ⟨_, _, rfl⟩
      · simp only
        split <;> exact ⟨_, _, rfl⟩
    · exact ⟨_, _, rfl⟩


theorem retryEntry_resend_key (env : RetryEnv) (key : Str) (tr : MessageTransmission)
    (s : ServerState) (o : EntryOutcome) (r : Resend)
    (h : (retryEntry env key tr s).map Prod.fst = some o) (hr : o.resend = some r) :
    r.key = key := by
  unfold retryEntry at h
  split at h
  · simp only [Option.map_some', Option.some.injEq] at h
    subst h
    cases hr
  · split at h
    · split at h
      · simp only [Option.map_some', Option.some.injEq] at h
        subst h
        cases hr
      · split at h
        · cases h
        · split at h
          · simp only [Option.map_some', Option.some.injEq] at h
            subst h
            simp only [Option.some.injEq] at hr
            subst hr
            rfl
          · simp only [Option.map_some', Option.some.injEq] at h
            subst h
            cases hr
    · simp only [Option.map_some', Option.some.injEq] at h
      subst h
      cases hr

/-- What the first loop of the sweep returns, delivery by delivery. -/
theorem retryLoop_spec (env : RetryEnv) (pending : List (Str × MessageTransmission)) :
    ∀ s : ServerState, (∀ e ∈ pending, e.2.targetClient < s.m_activeClients.length) →
    ∃ entries done resends s2, retryLoop env pending s = some (entries, done, resends, s2) ∧
      s2.m_activeClients = s.m_activeClients ∧
      entries.map Prod.fst = pending.map Prod.fst ∧
      (∀ key tr, (key, tr) ∈ pending → ∃ o, (retryEntry env key tr s).map Prod.fst = some o ∧
        (key, o.transmission) ∈ entries ∧ (o.completed = true → key ∈ done) ∧
        (∀ r, o.resend = some r → r ∈ resends)) ∧
      (∀ key v, (key, v) ∈ entries → ∃ tr o, (key, tr) ∈ pending ∧
        (retryEntry env key tr s).map Prod.fst = some o ∧ v = o.transmission) ∧
      (∀ k ∈ done, ∃ tr o, (k, tr) ∈ pending ∧
        (retryEntry env k tr s).map Prod.fst = some o ∧ o.completed = true) ∧
      (∀ r ∈ resends, ∃ tr o, (r.key, tr) ∈ pending ∧
        (retryEntry env r.key tr s).map Prod.fst = some o ∧ o.resend = some r) := by
  induction pending with
  | nil =>
    intro s _
    exact ⟨[], [], [], s, rfl, rfl, rfl, fun _ _ h => (by cases h), fun _ _ h => (by cases h),
      fun _ h => (by cases h), fun _ h => (by cases h)⟩
  | cons e rest ih =>
    intro s ht
    obtain ⟨key, tr⟩ := e
    obtain ⟨o, s1, he⟩ := retryEntry_total env key tr s (ht (key, tr) (List.mem_cons_self _ _))
    have hc1 := retryEntry_clients env key tr s s1 o he
    have ho : (retryEntry env key tr s).map Prod.fst = some o := by rw [he]; rfl
    have ht1 : ∀ e ∈ rest, e.2.targetClient < s1.m_activeClients.length := by
      intro e he2
      rw [hc1]
      exact ht e (List.mem_cons_of_mem _ he2)
    obtain ⟨entries, done, resends, s2, hloop, hc2, hkeys, hfwd, hent, hdone, hres⟩ := ih s1 ht1
    have tr1 : ∀ k t, (retryEntry env k t s1).map Prod.fst = (retryEntry env k t s).map Prod.fst :=
      fun k t => retryEntry_outcome env k t s s1 hc1
    refine ⟨(key, o.transmission) :: entries,
      (if o.completed then key :: done else done),
      o.resend.toList ++ resends, s2, ?_, hc2.trans hc1, ?_, ?_, ?_, ?_, ?_⟩
    · simp only [retryLoop, he, hloop]
    · simp only [List.map_cons, hkeys]
    · intro k t hm
      rcases List.mem_cons.1 hm with hm | hm
      · simp only [Prod.mk.injEq] at hm
        obtain ⟨rfl, rfl⟩ := hm
        refine ⟨o, ho, List.mem_cons_self _ _, ?_, ?_⟩
        · intro hcomp
          simp only [hcomp, if_true, List.mem_cons, true_or]
        · intro r hr
          simp only [hr, Option.toList_some, List.singleton_append, List.mem_cons, true_or]
      · obtain ⟨o2, h1, h2, h3, h4⟩ := hfwd k t hm
        refine ⟨o2, (tr1 k t) ▸ h1, List.mem_cons_of_mem _ h2, ?_, ?_⟩
        · intro hcomp
          have := h3 hcomp
          split
          · exact List.mem_cons_of_mem _ this
          · exact this
        · intro r hr
          exact List.mem_append_right _ (h4 r hr)
    · intro k v hm
      rcases List.mem_cons.1 hm with hm | hm
      · simp only [Prod.mk.injEq] at hm
        obtain ⟨rfl, rfl⟩ := hm
        exact ⟨tr, o, List.mem_cons_self _ _, ho, rfl⟩
      · obtain ⟨t, o2, h1, h2, h3⟩ := hent k v hm
        exact ⟨t, o2, List.mem_cons_of_mem _ h1, (tr1 k t) ▸ h2, h3⟩
    · intro k hk
      have hk2 : (o.completed = true ∧ k = key) ∨ k ∈ done := by
        by_cases hcomp : o.completed = true
        · simp only [hcomp, if_true, List.mem_cons] at hk
          rcases hk with hk | hk
          · exact Or.inl ⟨hcomp, hk⟩
          · exact Or.inr hk
        · simp only [hcomp, if_false] at hk
          exact Or.inr hk
      rcases hk2 with ⟨hcomp, rfl⟩ | hk2
      · exact ⟨tr, o, List.mem_cons_self _ _, ho, hcomp⟩
      · obtain ⟨t, o2, h1, h2, h3⟩ := hdone k hk2
        exact ⟨t, o2, List.mem_cons_of_mem _ h1, (tr1 k t) ▸ h2, h3⟩
    · intro r hr
      have hr2 : o.resend = some r ∨ r ∈ resends := by
        rcases List.mem_append.1 hr with hr | hr
        · exact Or.inl (by simpa [Option.mem_toList] using hr)
        · exact Or.inr hr
      rcases hr2 with hr2 | hr2
      · have hk := retryEntry_resend_key env key tr s o r ho hr2
        rw [hk]
        exact ⟨tr, o, List.mem_cons_self _ _, ho, hr2⟩
      · obtain ⟨t, o2, h1, h2, h3⟩ := hres r hr2
        exact ⟨t, o2, List.mem_cons_of_mem _ h1, (tr1 r.key t) ▸ h2, h3⟩


theorem mfind_merase (k d : Str) {V : Type} (m : StrMap V) :
    mfind k (merase d m) = if k = d then none else mfind k m := by
  by_cases h : k = d
  · rw [if_pos h, h]
    exact mfind_merase_self d m
  · rw [if_neg h]
    exact mfind_merase_of_ne d k m h

theorem mfind_eraseCompleted (k : Str) (done : List Str) :
    ∀ m : StrMap MessageTransmission,
      mfind k (eraseCompleted done m) = if k ∈ done then none else mfind k m := by
  induction done with
  | nil => intro m; simp [eraseCompleted]
  | cons d rest ih =>
    intro m
    rw [eraseCompleted, ih, mfind_merase]
    by_cases h1 : k ∈ rest
    · simp [h1]
    · by_cases h2 : k = d
      · simp [h2]
      · simp [h1, h2]

theorem mem_eraseCompleted (done : List Str) :
    ∀ (m : StrMap MessageTransmission) (e : Str × MessageTransmission),
      e ∈ eraseCompleted done m → e ∈ m := by
  induction done with
  | nil => intro m e h; exact h
  | cons d rest ih =>
    intro m e h
    exact mem_merase d m e (ih _ e h)

theorem mfind_of_mem {V : Type} (m : StrMap V) (hu : UniqueKeys m) (k : Str) (v : V)
    (h : (k, v) ∈ m) : mfind k m = some v := by
  induction m with
  | nil => cases h
  | cons e r ih =>
    obtain ⟨k1, v1⟩ := e
    simp only [UniqueKeys, List.map_cons, List.nodup_cons] at hu
    rcases List.mem_cons.1 h with h | h
    · simp only [Prod.mk.injEq] at h
      obtain ⟨rfl, rfl⟩ := h
      simp [mfind]
    · have hk : k ∈ r.map Prod.fst := List.mem_map.2 ⟨(k, v), h, rfl⟩
      have hne : k1 ≠ k := fun e => hu.1 (e ▸ hk)
      simp only [mfind, hne, if_false]
      exact ih hu.2 h

theorem mem_unique {V : Type} (m : StrMap V) (hu : UniqueKeys m) (k : Str) (v v2 : V)
    (h : (k, v) ∈ m) (h2 : (k, v2) ∈ m) : v = v2 := by
  have a := mfind_of_mem m hu k v h
  have b := mfind_of_mem m hu k v2 h2
  rw [a] at b
  exact Option.some.inj b

/-- What a sweep does to each pending delivery, when the keys are distinct and
every target session is registered. -/
theorem processRetryTransmissions_spec (env : RetryEnv) (s : ServerState)
    (hu : UniqueKeys s.m_pendingTransmissions)
    (ht : ∀ e ∈ s.m_pendingTransmissions, e.2.targetClient < s.m_activeClients.length) :
    ∃ s1 resends, processRetryTransmissions env s = some (s1, resends) ∧
      s1.m_activeClients = s.m_activeClients ∧
      (∀ key tr, mfind key s.m_pendingTransmissions = some tr →
        ∃ o, (retryEntry env key tr s).map Prod.fst = some o ∧
          mfind key s1.m_pendingTransmissions =
            (if o.completed then none else some o.transmission) ∧
          (∀ r, o.resend = some r → r ∈ resends) ∧
          (o.resend = none → ∀ r ∈ resends, r.key ≠ key)) ∧
      (∀ e ∈ s1.m_pendingTransmissions, ∃ tr o, (e.1, tr) ∈ s.m_pendingTransmissions ∧
        (retryEntry env e.1 tr s).map Prod.fst = some o ∧ e.2 = o.transmission) := by
  by_cases hem : s.m_pendingTransmissions = []
  · refine ⟨s, [], ?_, rfl, ?_, ?_⟩
    · simp [processRetryTransmissions, hem]
    · intro key tr h
      rw [hem] at h
      cases h
    · intro e he
      rw [hem] at he
      cases he
  · obtain ⟨entries, done, resends, s2, hloop, hc2, hkeys, hfwd, hent, hdone, hres⟩ :=
      retryLoop_spec env s.m_pendingTransmissions s ht
    have hue : UniqueKeys entries := by
      unfold UniqueKeys
      rw [hkeys]
      exact hu
    have hne : s.m_pendingTransmissions.isEmpty = false := by
      cases hp : s.m_pendingTransmissions with
      | nil => exact absurd hp hem
      | cons a l => rfl
    refine ⟨{ s2 with m_pendingTransmissions := eraseCompleted done entries }, resends, ?_, hc2,
      ?_, ?_⟩
    · simp only [processRetryTransmissions, hne, Bool.false_eq_true, if_false, hloop]
    · intro key tr hf
      have hm := mem_of_mfind key tr _ hf
      obtain ⟨o, h1, h2, h3, h4⟩ := hfwd key tr hm
      refine ⟨o, h1, ?_, h4, ?_⟩
      · simp only
        rw [mfind_eraseCompleted]
        by_cases hcomp : o.completed = true
        · simp only [h3 hcomp, hcomp, if_true]
        · have hnd : key ∉ done := by
            intro hd
            obtain ⟨t2, o2, g1, g2, g3⟩ := hdone key hd
            have := mem_unique _ hu key tr t2 hm g1
            subst this
            rw [h1] at g2
            simp only [Option.some.injEq] at g2
            subst g2
            exact hcomp g3
          simp only [hnd, hcomp, if_false, Bool.false_eq_true]
          exact mfind_of_mem entries hue key _ h2
      · intro hnone r hr hk
        obtain ⟨t2, o2, g1, g2, g3⟩ := hres r hr
        rw [hk] at g1 g2
        have := mem_unique _ hu key tr t2 hm g1
        subst this
        rw [h1] at g2
        simp only [Option.some.injEq] at g2
        subst g2
        rw [hnone] at g3
        cases g3
    · intro e he
      have he2 := mem_eraseCompleted done entries e he
      obtain ⟨t, o, g1, g2, g3⟩ := hent e.1 e.2 he2
      exact ⟨t, o, g1, g2, g3⟩


theorem storeExhausted_of_decoded (env : RetryEnv) (key : Str) (tr : MessageTransmission)
    (s : ServerState) (m : MessageData)
    (hdec : deserializeMessage (env.nowDecode key) tr.content = some m) :
    storeExhausted env key tr s = storeOfflineMessage m.receiverId tr.content s ∧
      queueOf m.receiverId (storeOfflineMessage m.receiverId tr.content s).m_offlineMessages =
        enqueued (queueOf m.receiverId s.m_offlineMessages) tr.content := by
  refine ⟨by simp only [storeExhausted, hdec], ?_⟩
  rw [storeOfflineMessage_queue _ _ _ (deserializeMessage_head _ _ _ hdec).2.2.1]
  rfl

theorem retryEntry_exhausted (env : RetryEnv) (key : Str) (tr : MessageTransmission)
    (s : ServerState) (hack : tr.acknowledged = false) (hdue : tr.nextRetryTime ≤ env.now)
    (hcount : 3 ≤ tr.retryCount) :
    retryEntry env key tr s =
      some ({ transmission := tr, completed := true, resend := none },
        storeExhausted env key tr s) := by
  have h1 : env.now ≥ tr.nextRetryTime := hdue
  have h2 : tr.retryCount ≥ MAX_RETRIES := hcount
  simp only [retryEntry, hack, Bool.false_eq_true, if_false, h1, h2, if_true]

theorem retryEntry_resent (env : RetryEnv) (key : Str) (tr : MessageTransmission)
    (s : ServerState) (tc : ClientSession) (hack : tr.acknowledged = false)
    (hdue : tr.nextRetryTime ≤ env.now) (hcount : tr.retryCount < 3)
    (htarget : s.m_activeClients[tr.targetClient]? = some tc) (hconn : tc.connected = true) :
    retryEntry env key tr s =
      some ({ transmission := resentOnce env.now tr, completed := false,
              resend := some (resendOf env key tr) }, s) := by
  have h1 : env.now ≥ tr.nextRetryTime := hdue
  have h2 : ¬ tr.retryCount ≥ MAX_RETRIES := by
    simp only [MAX_RETRIES, ge_iff_le, not_le]
    exact hcount
  simp only [retryEntry, hack, Bool.false_eq_true, if_false, h1, h2, if_true, htarget, hconn,
    resentOnce, resendOf]

theorem retryEntry_disconnected (env : RetryEnv) (key : Str) (tr : MessageTransmission)
    (s : ServerState) (tc : ClientSession) (hack : tr.acknowledged = false)
    (hdue : tr.nextRetryTime ≤ env.now) (hcount : tr.retryCount < 3)
    (htarget : s.m_activeClients[tr.targetClient]? = some tc) (hconn : tc.connected = false) :
    retryEntry env key tr s =
      some ({ transmission := tr, completed := true, resend := none },
        storeExhausted env key tr s) := by
  have h1 : env.now ≥ tr.nextRetryTime := hdue
  have h2 : ¬ tr.retryCount ≥ MAX_RETRIES := by
    simp only [MAX_RETRIES, ge_iff_le, not_le]
    exact hcount
  simp only [retryEntry, hack, Bool.false_eq_true, if_false, h1, h2, if_true, htarget, hconn]

theorem retryEntry_waiting (env : RetryEnv) (key : Str) (tr : MessageTransmission)
    (s : ServerState) (hack : tr.acknowledged = false) (hearly : env.now < tr.nextRetryTime) :
    retryEntry env key tr s =
      some ({ transmission := tr, completed := false, resend := none }, s) := by
  have h1 : ¬ env.now ≥ tr.nextRetryTime := by
    simp only [ge_iff_le, not_le]
    exact hearly
  simp only [retryEntry, hack, Bool.false_eq_true, if_false, h1]


/-! ### The sweep, delivery by delivery -/

theorem retryLoop_cons (env : RetryEnv) (key : Str) (tr : MessageTransmission)
    (rest : List (Str × MessageTransmission)) (s : ServerState) :
    retryLoop env ((key, tr) :: rest) s =
      (retryEntry env key tr s).bind (fun p =>
        (retryLoop env rest p.2).map (fun r =>
          ((key, p.1.transmission) :: r.1,
            (if p.1.completed then key :: r.2.1 else r.2.1),
            p.1.resend.toList ++ r.2.2.1, r.2.2.2))) := by
  simp only [retryLoop]
  cases retryEntry env key tr s with
  | none => rfl
  | some p =>
    obtain ⟨o, s1⟩ := p
    simp only [Option.some_bind]
    cases retryLoop env rest s1 with
    | none => rfl
    | some r => rfl

/-- The first loop of the sweep over a list of deliveries in two parts: the second
part is run from the state in which the first part ends. -/
theorem retryLoop_append (env : RetryEnv) (a b : List (Str × MessageTransmission)) :
    ∀ s : ServerState, retryLoop env (a ++ b) s =
      (retryLoop env a s).bind (fun r1 =>
        (retryLoop env b r1.2.2.2).map (fun r2 =>
          (r1.1 ++ r2.1, r1.2.1 ++ r2.2.1, r1.2.2.1 ++ r2.2.2.1, r2.2.2.2))) := by
  induction a with
  | nil =>
    intro s
    simp only [List.nil_append, retryLoop, Option.some_bind]
    cases retryLoop env b s with
    | none => rfl
    | some r => rfl
  | cons e rest ih =>
    intro s
    obtain ⟨key, tr⟩ := e
    rw [List.cons_append, retryLoop_cons, retryLoop_cons]
    cases he : retryEntry env key tr s with
    | none => rfl
    | some p =>
      obtain ⟨o, s1⟩ := p
      simp only [Option.some_bind]
      rw [ih s1]
      cases h1 : retryLoop env rest s1 with
      | none => rfl
      | some r1 =>
        obtain ⟨e1, d1, r1, s2⟩ := r1
        simp only [Option.some_bind, Option.map_some']
        cases h2 : retryLoop env b s2 with
        | none => rfl
        | some r2 =>
          obtain ⟨e2, d2, r2, s3⟩ := r2
          simp only [Option.map_some', Option.some.injEq, Prod.mk.injEq, List.cons_append,
            List.append_assoc, and_true, true_and]
          cases o.completed <;> simp

/-- A call of `storeOfflineMessage` leaves the queue of a user as it is or enqueues
its payload there. -/
theorem storeOfflineMessage_queue_cases (u rcv x : Str) (s : ServerState) :
    queueOf u (storeOfflineMessage rcv x s).m_offlineMessages = queueOf u s.m_offlineMessages ∨
      queueOf u (storeOfflineMessage rcv x s).m_offlineMessages =
        enqueued (queueOf u s.m_offlineMessages) x := by
  by_cases hacc : x.take 7 = "MESSAGE".toList
  · by_cases hu : rcv = u
    · subst hu
      right
      rw [storeOfflineMessage_queue _ _ _ hacc]
      rfl
    · left
      rw [storeOfflineMessage_of_accepted _ _ _ hacc]
      simp only [queueOf]
      rw [mfind_massign_of_ne _ _ _ _ (fun e => hu e.symm)]
  · left
    rw [storeOfflineMessage_of_rejected _ _ _ hacc]

/-- The loop body of the sweep leaves the queue of a user as it is or enqueues
one payload there. -/
theorem retryEntry_queue_cases (env : RetryEnv) (key : Str) (tr : MessageTransmission)
    (u : Str) (s s1 : ServerState) (o : EntryOutcome)
    (h : retryEntry env key tr s = some (o, s1)) :
    queueOf u s1.m_offlineMessages = queueOf u s.m_offlineMessages ∨
      ∃ x, queueOf u s1.m_offlineMessages = enqueued (queueOf u s.m_offlineMessages) x := by
  have hst : ∀ s0 : ServerState, s0 = storeExhausted env key tr s →
      queueOf u s0.m_offlineMessages = queueOf u s.m_offlineMessages ∨
        ∃ x, queueOf u s0.m_offlineMessages = enqueued (queueOf u s.m_offlineMessages) x := by
    intro s0 h0
    subst h0
    unfold storeExhausted
    cases deserializeMessage (env.nowDecode key) tr.content with
    | none => exact Or.inl rfl
    | some md =>
      rcases storeOfflineMessage_queue_cases u md.receiverId tr.content s with g | g
      · exact Or.inl g
      · exact Or.inr ⟨_, g⟩
  unfold retryEntry at h
  split at h
  · cases h; exact Or.inl rfl
  · split at h
    · split at h
      · cases h; exact hst _ rfl
      · split at h
        · cases h
        · split at h
          · cases h; exact Or.inl rfl
          · cases h; exact hst _ rfl
    · cases h; exact Or.inl rfl

/-- Enqueuing behind a stored payload keeps it in the queue while fewer than
99 entries follow it. -/
theorem enqueued_keeps (front back : List Str) (payload x : Str) (h : back.length < 99) :
    ∃ front2, enqueued (front ++ payload :: back) x = front2 ++ payload :: (back ++ [x]) ∧
      front2 <:+ front := by
  unfold enqueued
  by_cases hfull : 100 ≤ (front ++ payload :: back).length
  · rw [if_pos hfull]
    cases front with
    | nil =>
      simp only [List.nil_append, List.length_cons] at hfull
      omega
    | cons a f =>
      refine ⟨f, ?_, List.suffix_cons a f⟩
      simp
  · rw [if_neg hfull]
    exact ⟨front, by simp, List.suffix_refl _⟩

/-- The first loop of the sweep keeps a payload that is in the queue of a user
there, while fewer than 100 entries follow it. -/
theorem retryLoop_queue_keeps (env : RetryEnv) (u payload : Str) :
    ∀ (post : List (Str × MessageTransmission)) (s : ServerState)
      (r : List (Str × MessageTransmission) × List Str × List Resend × ServerState),
      retryLoop env post s = some r →
      ∀ front back : List Str, queueOf u s.m_offlineMessages = front ++ payload :: back →
        back.length + post.length < 100 →
        ∃ front2 back2, queueOf u r.2.2.2.m_offlineMessages = front2 ++ payload :: back2 ∧
          front2 <:+ front ∧ back2.length ≤ back.length + post.length := by
  intro post
  induction post with
  | nil =>
    intro s r h front back hq _
    simp only [retryLoop, Option.some.injEq] at h
    subst h
    exact ⟨front, back, hq, List.suffix_refl _, by omega⟩
  | cons e rest ih =>
    intro s r h front back hq hlen
    obtain ⟨key, tr⟩ := e
    simp only [retryLoop] at h
    cases he : retryEntry env key tr s with
    | none => rw [he] at h; cases h
    | some p =>
      obtain ⟨o, s1⟩ := p
      rw [he] at h
      simp only at h
      cases hl : retryLoop env rest s1 with
      | none => rw [hl] at h; cases h
      | some r1 =>
        rw [hl] at h
        obtain ⟨e1, d1, x1, s2⟩ := r1
        simp only [Option.some.injEq] at h
        subst h
        simp only [List.length_cons] at hlen
        rcases retryEntry_queue_cases env key tr u s s1 o he with g | ⟨x, g⟩
        · obtain ⟨f2, b2, k1, k2, k3⟩ := ih s1 _ hl front back (by rw [g]; exact hq) (by omega)
          exact ⟨f2, b2, k1, k2, by simp only [List.length_cons]; omega⟩
        · obtain ⟨f1, hf1, hs1⟩ := enqueued_keeps front back payload x (by omega)
          rw [hq, hf1] at g
          obtain ⟨f2, b2, k1, k2, k3⟩ := ih s1 _ hl f1 (back ++ [x]) g
            (by simp only [List.length_append, List.length_singleton]; omega)
          refine ⟨f2, b2, k1, k2.trans hs1, ?_⟩
          simp only [List.length_append, List.length_singleton, List.length_cons,
            List.length_nil] at k3 ⊢
          omega

/-- A sweep over a pending map in which the loop body, at the delivery `key`,
stores the payload for `rcv` and marks the delivery completed: the states the
sweep passes through and the state it returns. -/
theorem sweep_stores_completed (env : RetryEnv) (s : ServerState) (key rcv : Str)
    (tr : MessageTransmission) (pre post : List (Str × MessageTransmission))
    (hp : s.m_pendingTransmissions = pre ++ (key, tr) :: post)
    (hu : UniqueKeys s.m_pendingTransmissions)
    (ht : ∀ e ∈ s.m_pendingTransmissions, e.2.targetClient < s.m_activeClients.length)
    (hacc : tr.content.take 7 = "MESSAGE".toList)
    (hentry : ∀ sMid : ServerState, sMid.m_activeClients = s.m_activeClients →
      retryEntry env key tr sMid =
        some ({ transmission := tr, completed := true, resend := none },
          storeOfflineMessage rcv tr.content sMid)) :
    ∃ sBefore s1 resends,
      (retryLoop env pre s).map (fun r => r.2.2.2) = some sBefore ∧
      retryEntry env key tr sBefore =
        some ({ transmission := tr, completed := true, resend := none },
          storeOfflineMessage rcv tr.content sBefore) ∧
      queueOf rcv (storeOfflineMessage rcv tr.content sBefore).m_offlineMessages =
        enqueued (queueOf rcv sBefore.m_offlineMessages) tr.content ∧
      (retryLoop env post (storeOfflineMessage rcv tr.content sBefore)).map
        (fun r => r.2.2.2.m_offlineMessages) = some s1.m_offlineMessages ∧
      processRetryTransmissions env s = some (s1, resends) ∧
      mfind key s1.m_pendingTransmissions = none ∧
      (∀ r ∈ resends, r.key ≠ key) ∧
      (post.length < 100 →
        ∃ front back, queueOf rcv s1.m_offlineMessages = front ++ tr.content :: back ∧
          front <:+ queueOf rcv sBefore.m_offlineMessages ∧ back.length ≤ post.length) := by
  have hmem : (key, tr) ∈ s.m_pendingTransmissions := by
    rw [hp]
    simp
  have hfind := mfind_of_mem _ hu key tr hmem
  obtain ⟨s1, resends, h1, _, h2, _⟩ := processRetryTransmissions_spec env s hu ht
  obtain ⟨o, g1, g2, _, g4⟩ := h2 key tr hfind
  rw [hentry s rfl] at g1
  simp only [Option.map_some', Option.some.injEq] at g1
  subst g1
  have hne : s.m_pendingTransmissions.isEmpty = false := by
    rw [hp]
    cases pre <;> rfl
  -- the run of the first loop, part by part
  have hrun := h1
  simp only [processRetryTransmissions, hne, Bool.false_eq_true, if_false] at hrun
  rw [hp, retryLoop_append] at hrun
  obtain ⟨e1, d1, x1, sBefore, hpre, hc1, _⟩ := retryLoop_spec env pre s
    (fun e he => ht e (by rw [hp]; exact List.mem_append_left _ he))
  rw [hpre] at hrun
  simp only [Option.some_bind, retryLoop, hentry sBefore hc1] at hrun
  have hq := storeOfflineMessage_queue rcv tr.content sBefore hacc
  cases hpost : retryLoop env post (storeOfflineMessage rcv tr.content sBefore) with
  | none =>
    rw [hpost] at hrun
    cases hrun
  | some r3 =>
    rw [hpost] at hrun
    obtain ⟨e3, d3, x3, s3⟩ := r3
    simp only [Option.map_some', Option.some.injEq, Prod.mk.injEq] at hrun
    have hoff : s1.m_offlineMessages = s3.m_offlineMessages := by
      rw [← hrun.1]
    refine ⟨sBefore, s1, resends, by rw [hpre]; rfl, hentry sBefore hc1, ?_, ?_, h1, g2,
      g4 rfl, ?_⟩
    · rw [hq]
      rfl
    · rw [hoff, hpost]
      rfl
    · intro hlen
      have hq2 : queueOf rcv (storeOfflineMessage rcv tr.content sBefore).m_offlineMessages =
          (if 100 ≤ (queueOf rcv sBefore.m_offlineMessages).length
            then (queueOf rcv sBefore.m_offlineMessages).tail
            else queueOf rcv sBefore.m_offlineMessages) ++ tr.content :: [] := hq
      obtain ⟨f2, b2, k1, k2, k3⟩ := retryLoop_queue_keeps env rcv tr.content post _ _ hpost
        _ [] hq2 (by simpa using hlen)
      refine ⟨f2, b2, by rw [hoff]; exact k1, k2.trans ?_, by simpa using k3⟩
      split
      · exact List.tail_suffix _
      · exact List.suffix_refl _

/-- C17: in `processRetryTransmissions`, for a pending delivery that is not
acknowledged, whose deadline has passed and whose retry count has reached 3
(the payload decoding to a message `m`), at any place `pre ++ (key, tr) :: post` of
the pending map. The sweep returns. Its loop reaches the delivery in the state
`sBefore`, there the loop body appends the payload to the offline queue of
`m.receiverId` (after evicting the oldest entry of a full queue), marks the
delivery completed and makes no resend, and the offline store the sweep
returns is the one the loop reaches from there over the deliveries after it. In
the state returned no delivery is left under that key, no resend was made for
it, and, when fewer than 100 deliveries come after it, the payload is in the
queue of `m.receiverId`, behind entries that were queued before and followed only by
payloads stored for later deliveries. -/
theorem exhausted_delivery_is_stored_offline (env : RetryEnv) (s : ServerState) (key : Str)
    (tr : MessageTransmission) (m : MessageData)
    (pre post : List (Str × MessageTransmission))
    (hp : s.m_pendingTransmissions = pre ++ (key, tr) :: post)
    (hu : UniqueKeys s.m_pendingTransmissions)
    (ht : ∀ e ∈ s.m_pendingTransmissions, e.2.targetClient < s.m_activeClients.length)
    (hack : tr.acknowledged = false) (hdue : tr.nextRetryTime ≤ env.now)
    (hcount : 3 ≤ tr.retryCount)
    (hdec : deserializeMessage (env.nowDecode key) tr.content = some m) :
    ∃ sBefore s1 resends,
      (retryLoop env pre s).map (fun r => r.2.2.2) = some sBefore ∧
      retryEntry env key tr sBefore =
        some ({ transmission := tr, completed := true, resend := none },
          storeOfflineMessage m.receiverId tr.content sBefore) ∧
      queueOf m.receiverId (storeOfflineMessage m.receiverId tr.content sBefore).m_offlineMessages =
        enqueued (queueOf m.receiverId sBefore.m_offlineMessages) tr.content ∧
      (retryLoop env post (storeOfflineMessage m.receiverId tr.content sBefore)).map
        (fun r => r.2.2.2.m_offlineMessages) = some s1.m_offlineMessages ∧
      processRetryTransmissions env s = some (s1, resends) ∧
      mfind key s1.m_pendingTransmissions = none ∧
      (∀ r ∈ resends, r.key ≠ key) ∧
      (post.length < 100 →
        ∃ front back,
          queueOf m.receiverId s1.m_offlineMessages = front ++ tr.content :: back ∧
          front <:+ queueOf m.receiverId sBefore.m_offlineMessages ∧
          back.length ≤ post.length) := by
  apply sweep_stores_completed env s key m.receiverId tr pre post hp hu ht
    (deserializeMessage_head _ _ _ hdec).2.2.1
  intro sMid _
  rw [retryEntry_exhausted env key tr sMid hack hdue hcount,
    (storeExhausted_of_decoded env key tr sMid m hdec).1]

/-- C17, witness: a sweep over the server whose only pending delivery has been
resent three times; afterwards the queue of `B` holds its payload. -/
theorem exhausted_delivery_is_stored_offline_witness :
    ∃ s1 resends, processRetryTransmissions sweepEnv exhaustedServer = some (s1, resends) ∧
      mfind "X".toList s1.m_pendingTransmissions = none ∧
      (∀ r ∈ resends, r.key ≠ "X".toList) ∧
      ∃ front back,
        queueOf "B".toList s1.m_offlineMessages =
          front ++ "MESSAGE|X|A|B|hi|t".toList :: back ∧ back.length ≤ 0 :=
  let ⟨_, s1, resends, _, _, _, _, h5, h6, h7, h8⟩ :=
    exhausted_delivery_is_stored_offline sweepEnv exhaustedServer "X".toList
      { messageId := "X".toList, content := "MESSAGE|X|A|B|hi|t".toList, targetClient := 1,
        retryCount := 3, nextRetryTime := 0, acknowledged := false }
      { messageId := "X".toList, senderId := "A".toList, receiverId := "B".toList,
        content := "hi".toList, timestamp := "t".toList }
      [] [] (by decide) (by unfold UniqueKeys; decide) (by decide) (by decide) (by decide)
      (by decide) (by decide)
  let ⟨front, back, k1, _, k3⟩ := h8 (by decide)
  ⟨s1, resends, h5, h6, h7, front, back, k1, k3⟩

/-- C18: in `processRetryTransmissions`, for a pending delivery that is not
acknowledged, whose deadline has passed, whose retry count `c` is below 3 and
whose target session is connected: the sweep returns, it hands the payload
to the socket of the target once more, and afterwards the delivery is still
pending with retry count `c + 1` and deadline equal to the sweep time plus
`1000 ms * (c + 1)`. -/
theorem due_delivery_is_resent (env : RetryEnv) (s : ServerState) (key : Str)
    (tr : MessageTransmission) (tc : ClientSession)
    (hu : UniqueKeys s.m_pendingTransmissions)
    (ht : ∀ e ∈ s.m_pendingTransmissions, e.2.targetClient < s.m_activeClients.length)
    (hfind : mfind key s.m_pendingTransmissions = some tr)
    (hack : tr.acknowledged = false) (hdue : tr.nextRetryTime ≤ env.now)
    (hcount : tr.retryCount < 3)
    (htarget : s.m_activeClients[tr.targetClient]? = some tc) (hconn : tc.connected = true) :
    ∃ s1 resends, processRetryTransmissions env s = some (s1, resends) ∧
      { key := key, targetClient := tr.targetClient, payload := tr.content,
        delivered := sendPipeMessage (env.wire key) tr.content } ∈ resends ∧
      mfind key s1.m_pendingTransmissions =
        some { tr with
               retryCount := tr.retryCount + 1,
               nextRetryTime := env.now + milliseconds (1000 * (tr.retryCount + 1)) } ∧
      milliseconds (1000 * (tr.retryCount + 1)) = (tr.retryCount + 1) * milliseconds 1000 := by
  obtain ⟨s1, resends, h1, _, h2, _⟩ := processRetryTransmissions_spec env s hu ht
  obtain ⟨o, g1, g2, g3, _⟩ := h2 key tr hfind
  rw [retryEntry_resent env key tr s tc hack hdue hcount htarget hconn] at g1
  simp only [Option.map_some', Option.some.injEq] at g1
  subst g1
  refine ⟨s1, resends, h1, g3 _ rfl, g2, ?_⟩
  simp only [milliseconds]
  ring

/-- C18, witness: a sweep over the server whose only pending delivery is fresh
and addressed to the connected session of `B`. -/
theorem due_delivery_is_resent_witness :
    ∃ s1 resends, processRetryTransmissions sweepEnv waitingServer = some (s1, resends) ∧
      { key := "X".toList, targetClient := 1, payload := "MESSAGE|X|A|B|hi|t".toList,
        delivered := sendPipeMessage (sweepEnv.wire "X".toList) "MESSAGE|X|A|B|hi|t".toList }
        ∈ resends ∧
      mfind "X".toList s1.m_pendingTransmissions =
        some { messageId := "X".toList, content := "MESSAGE|X|A|B|hi|t".toList,
               targetClient := 1, retryCount := 0 + 1,
               nextRetryTime := sweepEnv.now + milliseconds (1000 * (0 + 1)),
               acknowledged := false } ∧
      milliseconds (1000 * (0 + 1)) = (0 + 1) * milliseconds 1000 :=
  due_delivery_is_resent sweepEnv waitingServer "X".toList
    { messageId := "X".toList, content := "MESSAGE|X|A|B|hi|t".toList, targetClient := 1,
      retryCount := 0, nextRetryTime := 0, acknowledged := false }
    { ip := "10.0.0.2".toList, port := 5002, userId := "B".toList, isLoggedIn := true,
      connected := true }
    (by unfold UniqueKeys; decide) (by decide) (by decide) (by decide) (by decide) (by decide)
    (by decide) (by decide)

/-- C19: in `processRetryTransmissions`, for a pending delivery that is not
acknowledged, whose deadline has passed, whose retry count is below 3 and
whose target session is no longer connected (the payload decoding to a
message `m`), at any place `pre ++ (key, tr) :: post` of the pending map. The sweep
returns. Its loop reaches the delivery in the state `sBefore`, there the loop body
appends the payload to the offline queue of `m.receiverId` (after evicting the
oldest entry of a full queue), marks the delivery completed with its retry
count unchanged and makes no resend, and the offline store the sweep returns
is the one the loop reaches from there over the deliveries after it. In the
state returned no delivery is left under that key, no resend was made for it,
and, when fewer than 100 deliveries come after it, the payload is in the queue
of `m.receiverId`, behind entries that were queued before and followed only by
payloads stored for later deliveries. -/
theorem disconnected_delivery_is_stored_offline (env : RetryEnv) (s : ServerState) (key : Str)
    (tr : MessageTransmission) (tc : ClientSession) (m : MessageData)
    (pre post : List (Str × MessageTransmission))
    (hp : s.m_pendingTransmissions = pre ++ (key, tr) :: post)
    (hu : UniqueKeys s.m_pendingTransmissions)
    (ht : ∀ e ∈ s.m_pendingTransmissions, e.2.targetClient < s.m_activeClients.length)
    (hack : tr.acknowledged = false) (hdue : tr.nextRetryTime ≤ env.now)
    (hcount : tr.retryCount < 3)
    (htarget : s.m_activeClients[tr.targetClient]? = some tc) (hconn : tc.connected = false)
    (hdec : deserializeMessage (env.nowDecode key) tr.content = some m) :
    ∃ sBefore s1 resends,
      (retryLoop env pre s).map (fun r => r.2.2.2) = some sBefore ∧
      retryEntry env key tr sBefore =
        some ({ transmission := tr, completed := true, resend := none },
          storeOfflineMessage m.receiverId tr.content sBefore) ∧
      queueOf m.receiverId (storeOfflineMessage m.receiverId tr.content sBefore).m_offlineMessages =
        enqueued (queueOf m.receiverId sBefore.m_offlineMessages) tr.content ∧
      (retryLoop env post (storeOfflineMessage m.receiverId tr.content sBefore)).map
        (fun r => r.2.2.2.m_offlineMessages) = some s1.m_offlineMessages ∧
      processRetryTransmissions env s = some (s1, resends) ∧
      mfind key s1.m_pendingTransmissions = none ∧
      (∀ r ∈ resends, r.key ≠ key) ∧
      (post.length < 100 →
        ∃ front back,
          queueOf m.receiverId s1.m_offlineMessages = front ++ tr.content :: back ∧
          front <:+ queueOf m.receiverId sBefore.m_offlineMessages ∧
          back.length ≤ post.length) := by
  apply sweep_stores_completed env s key m.receiverId tr pre post hp hu ht
    (deserializeMessage_head _ _ _ hdec).2.2.1
  intro sMid hc
  rw [retryEntry_disconnected env key tr sMid tc hack hdue hcount (by rw [hc]; exact htarget)
    hconn, (storeExhausted_of_decoded env key tr sMid m hdec).1]

/-- C19, witness: a sweep over the server whose only pending delivery is
addressed to the session of `B`, which has lost its connection; afterwards the
queue of `B` holds its payload. -/
theorem disconnected_delivery_is_stored_offline_witness :
    ∃ s1 resends, processRetryTransmissions sweepEnv droppedServer = some (s1, resends) ∧
      mfind "X".toList s1.m_pendingTransmissions = none ∧
      (∀ r ∈ resends, r.key ≠ "X".toList) ∧
      ∃ front back,
        queueOf "B".toList s1.m_offlineMessages =
          front ++ "MESSAGE|X|A|B|hi|t".toList :: back ∧ back.length ≤ 0 :=
  let ⟨_, s1, resends, _, _, _, _, h5, h6, h7, h8⟩ :=
    disconnected_delivery_is_stored_offline sweepEnv droppedServer "X".toList
      { messageId := "X".toList, content := "MESSAGE|X|A|B|hi|t".toList, targetClient := 1,
        retryCount := 1, nextRetryTime := 0, acknowledged := false }
      { ip := "10.0.0.2".toList, port := 5002, userId := "B".toList, isLoggedIn := true,
        connected := false }
      { messageId := "X".toList, senderId := "A".toList, receiverId := "B".toList,
        content := "hi".toList, timestamp := "t".toList }
      [] [] (by decide) (by unfold UniqueKeys; decide) (by decide) (by decide) (by decide)
      (by decide) (by decide) (by decide) (by decide)
  let ⟨front, back, k1, _, k3⟩ := h8 (by decide)
  ⟨s1, resends, h5, h6, h7, front, back, k1, k3⟩

/-! ### Facts about successive sweeps -/

theorem processRetryTransmissions_single (env : RetryEnv) (s s1 : ServerState) (key : Str)
    (tr : MessageTransmission) (o : EntryOutcome)
    (hp : s.m_pendingTransmissions = [(key, tr)])
    (he : retryEntry env key tr s = some (o, s1)) :
    processRetryTransmissions env s =
      some ({ s1 with m_pendingTransmissions :=
                (if o.completed then [] else [(key, o.transmission)]) },
        o.resend.toList) := by
  simp only [processRetryTransmissions, hp, List.isEmpty_cons, Bool.false_eq_true, if_false,
    retryLoop, he, List.append_nil]
  cases hcomp : o.completed
  · simp [eraseCompleted]
  · simp [eraseCompleted, merase]

theorem retryEntry_count (env : RetryEnv) (key : Str) (tr : MessageTransmission)
    (s : ServerState) (o : EntryOutcome)
    (h : (retryEntry env key tr s).map Prod.fst = some o) (hc : tr.retryCount ≤ 3) :
    o.transmission.retryCount ≤ 3 := by
  unfold retryEntry at h
  split at h
  · simp only [Option.map_some', Option.some.injEq] at h
    subst h
    exact hc
  · split at h
    · split at h
      · simp only [Option.map_some', Option.some.injEq] at h
        subst h
        exact hc
      · rename_i hlt
        split at h
        · cases h
        · split at h
          · simp only [Option.map_some', Option.some.injEq] at h
            subst h
            simp only [MAX_RETRIES, ge_iff_le, not_le] at hlt
            simp only
            omega
          · simp only [Option.map_some', Option.some.injEq] at h
            subst h
            exact hc
    · simp only [Option.map_some', Option.some.injEq] at h
      subst h
      exact hc

theorem retryEntry_target (env : RetryEnv) (key : Str) (tr : MessageTransmission)
    (s : ServerState) (o : EntryOutcome)
    (h : (retryEntry env key tr s).map Prod.fst = some o) :
    o.transmission.targetClient = tr.targetClient := by
  unfold retryEntry at h
  split at h
  · simp only [Option.map_some', Option.some.injEq] at h
    subst h
    rfl
  · split at h
    · split at h
      · simp only [Option.map_some', Option.some.injEq] at h
        subst h
        rfl
      · split at h
        · cases h
        · split at h
          · simp only [Option.map_some', Option.some.injEq] at h
            subst h
            rfl
          · simp only [Option.map_some', Option.some.injEq] at h
            subst h
            rfl
    · simp only [Option.map_some', Option.some.injEq] at h
      subst h
      rfl

theorem merase_sublist {V : Type} (k : Str) (m : StrMap V) : List.Sublist (merase k m) m := by
  induction m with
  | nil => exact List.Sublist.slnil
  | cons e r ih =>
    obtain ⟨k1, v1⟩ := e
    by_cases h : k1 = k
    · simp only [merase, h, if_true]
      exact List.Sublist.cons _ ih
    · simp only [merase, h, if_false]
      exact List.Sublist.cons₂ _ ih

theorem eraseCompleted_sublist (done : List Str) :
    ∀ m : StrMap MessageTransmission, List.Sublist (eraseCompleted done m) m := by
  induction done with
  | nil => intro m; exact List.Sublist.refl _
  | cons d rest ih =>
    intro m
    exact (ih (merase d m)).trans (merase_sublist d m)

theorem mfind_none_iff {V : Type} (k : Str) (m : StrMap V) :
    mfind k m = none ↔ k ∉ m.map Prod.fst := by
  induction m with
  | nil => exact ⟨fun _ h => (by cases h), fun _ => rfl⟩
  | cons e r ih =>
    obtain ⟨k1, v1⟩ := e
    rw [List.map_cons, List.mem_cons, not_or]
    by_cases h : k1 = k
    · subst h
      simp only [mfind, if_true]
      exact ⟨fun h2 => (by cases h2), fun h2 => absurd trivial h2.1⟩
    · simp only [mfind, h, if_false]
      exact ⟨fun h2 => ⟨fun e => h e.symm, ih.1 h2⟩, fun h2 => ih.2 h2.2⟩

theorem resendsOf_outcome (env : RetryEnv) (k key : Str) (tr : MessageTransmission)
    (s : ServerState) (o : EntryOutcome)
    (h : (retryEntry env k tr s).map Prod.fst = some o) :
    resendsOf key o.resend.toList = if k = key then o.resend.toList else [] := by
  cases hr : o.resend with
  | none => simp [resendsOf]
  | some r =>
    have hk := retryEntry_resend_key env k tr s o r h hr
    by_cases hkk : k = key
    · simp [resendsOf, hk, hkk]
    · simp [resendsOf, hk, hkk]

theorem resendsOf_append (key : Str) (a b : List Resend) :
    resendsOf key (a ++ b) = resendsOf key a ++ resendsOf key b := by
  simp [resendsOf]

theorem retryLoop_resendsOf (env : RetryEnv) (key : Str)
    (pending : List (Str × MessageTransmission)) :
    ∀ (s s2 : ServerState) (entries : List (Str × MessageTransmission)) (done : List Str)
      (resends : List Resend),
      retryLoop env pending s = some (entries, done, resends, s2) →
      (key ∉ pending.map Prod.fst → resendsOf key resends = []) ∧
      (∀ tr o, UniqueKeys pending → (key, tr) ∈ pending →
        (retryEntry env key tr s).map Prod.fst = some o →
        resendsOf key resends = o.resend.toList) := by
  induction pending with
  | nil =>
    intro s s2 entries done resends h
    simp only [retryLoop, Option.some.injEq, Prod.mk.injEq] at h
    obtain ⟨_, _, rfl, _⟩ := h
    exact ⟨fun _ => rfl, fun _ _ _ hm => (by cases hm)⟩
  | cons e rest ih =>
    intro s s2 entries done resends h
    obtain ⟨k, t⟩ := e
    simp only [retryLoop] at h
    cases he : retryEntry env k t s with
    | none => simp [he] at h
    | some p =>
      obtain ⟨o1, s1⟩ := p
      simp only [he] at h
      cases hl : retryLoop env rest s1 with
      | none => simp [hl] at h
      | some q =>
        obtain ⟨entries1, done1, resends1, s3⟩ := q
        simp only [hl, Option.some.injEq, Prod.mk.injEq] at h
        obtain ⟨_, _, rfl, _⟩ := h
        have ho1 : (retryEntry env k t s).map Prod.fst = some o1 := by rw [he]; rfl
        have hc1 := retryEntry_clients env k t s s1 o1 he
        obtain ⟨ih1, ih2⟩ := ih s1 s3 entries1 done1 resends1 hl
        constructor
        · intro hnot
          simp only [List.map_cons, List.mem_cons, not_or] at hnot
          have hk : ¬ k = key := fun e => hnot.1 e.symm
          rw [resendsOf_append, resendsOf_outcome env k key t s o1 ho1, if_neg hk, ih1 hnot.2]
          rfl
        · intro tr o hu hm ho
          simp only [UniqueKeys, List.map_cons, List.nodup_cons] at hu
          rcases List.mem_cons.1 hm with hm | hm
          · simp only [Prod.mk.injEq] at hm
            obtain ⟨rfl, rfl⟩ := hm
            rw [ho1] at ho
            simp only [Option.some.injEq] at ho
            subst ho
            rw [resendsOf_append, resendsOf_outcome env key key tr s o1 ho1, if_pos rfl,
              ih1 hu.1, List.append_nil]
          · have hkm : key ∈ rest.map Prod.fst := List.mem_map.2 ⟨(key, tr), hm, rfl⟩
            have hk : ¬ k = key := fun e => hu.1 (e ▸ hkm)
            rw [resendsOf_append, resendsOf_outcome env k key t s o1 ho1, if_neg hk,
              List.nil_append]
            exact ih2 tr o hu.2 hm ((retryEntry_outcome env key tr s s1 hc1).trans ho)

/-- What a sweep keeps: distinct keys, registered targets, absent keys; and the
resends it makes for one key. -/
theorem processRetryTransmissions_keeps (env : RetryEnv) (s s1 : ServerState)
    (resends : List Resend)
    (hu : UniqueKeys s.m_pendingTransmissions)
    (ht : ∀ e ∈ s.m_pendingTransmissions, e.2.targetClient < s.m_activeClients.length)
    (h : processRetryTransmissions env s = some (s1, resends)) :
    UniqueKeys s1.m_pendingTransmissions ∧
      (∀ e ∈ s1.m_pendingTransmissions, e.2.targetClient < s1.m_activeClients.length) ∧
      (∀ key, mfind key s.m_pendingTransmissions = none →
        mfind key s1.m_pendingTransmissions = none ∧ resendsOf key resends = []) ∧
      (∀ key tr o, mfind key s.m_pendingTransmissions = some tr →
        (retryEntry env key tr s).map Prod.fst = some o →
        resendsOf key resends = o.resend.toList) := by
  by_cases hem : s.m_pendingTransmissions = []
  · simp only [processRetryTransmissions, hem, List.isEmpty_nil, if_true, Option.some.injEq,
      Prod.mk.injEq] at h
    obtain ⟨rfl, rfl⟩ := h
    refine ⟨hu, ht, fun key hk => ⟨hk, rfl⟩, ?_⟩
    intro key tr o hf
    rw [hem] at hf
    cases hf
  · obtain ⟨entries, done, resends2, s2, hloop, hc2, hkeys, hfwd, hent, hdone, hres⟩ :=
      retryLoop_spec env s.m_pendingTransmissions s ht
    have hne : s.m_pendingTransmissions.isEmpty = false := by
      cases hp : s.m_pendingTransmissions with
      | nil => exact absurd hp hem
      | cons a l => rfl
    simp only [processRetryTransmissions, hne, Bool.false_eq_true, if_false, hloop,
      Option.some.injEq, Prod.mk.injEq] at h
    obtain ⟨rfl, rfl⟩ := h
    refine ⟨?_, ?_, ?_, ?_⟩
    · unfold UniqueKeys
      have hsub := (eraseCompleted_sublist done entries).map Prod.fst
      rw [hkeys] at hsub
      exact hu.sublist hsub
    · intro e he
      have he2 := mem_eraseCompleted done entries e he
      obtain ⟨t, o, g1, g2, g3⟩ := hent e.1 e.2 he2
      simp only
      rw [g3, retryEntry_target env e.1 t s o g2, hc2]
      exact ht (e.1, t) g1
    · intro key hk
      have hk2 := (mfind_none_iff key _).1 hk
      constructor
      · simp only
        rw [mfind_eraseCompleted]
        split
        · rfl
        · rw [mfind_none_iff, hkeys]
          exact hk2
      · exact (retryLoop_resendsOf env key _ s s2 entries done resends2 hloop).1 hk2
    · intro key tr o hf ho
      exact (retryLoop_resendsOf env key _ s s2 entries done resends2 hloop).2 tr o hu
        (mem_of_mfind key tr _ hf) ho

/-- One sweep over a state where the delivery `key` is pending, not acknowledged,
with a connected target: it waits, or is dropped, or is resent once. -/
theorem processRetryTransmissions_step (env : RetryEnv) (s : ServerState) (key : Str)
    (tr : MessageTransmission) (tc : ClientSession)
    (hu : UniqueKeys s.m_pendingTransmissions)
    (ht : ∀ e ∈ s.m_pendingTransmissions, e.2.targetClient < s.m_activeClients.length)
    (hfind : mfind key s.m_pendingTransmissions = some tr)
    (hack : tr.acknowledged = false)
    (htarget : s.m_activeClients[tr.targetClient]? = some tc) (hconn : tc.connected = true) :
    ∃ s1 resends, processRetryTransmissions env s = some (s1, resends) ∧
      UniqueKeys s1.m_pendingTransmissions ∧
      (∀ e ∈ s1.m_pendingTransmissions, e.2.targetClient < s1.m_activeClients.length) ∧
      s1.m_activeClients = s.m_activeClients ∧
      ((env.now < tr.nextRetryTime ∧ mfind key s1.m_pendingTransmissions = some tr ∧
          resendsOf key resends = []) ∨
        (tr.nextRetryTime ≤ env.now ∧ 3 ≤ tr.retryCount ∧
          mfind key s1.m_pendingTransmissions = none ∧ resendsOf key resends = []) ∨
        (tr.nextRetryTime ≤ env.now ∧ tr.retryCount < 3 ∧
          mfind key s1.m_pendingTransmissions = some (resentOnce env.now tr) ∧
          resendsOf key resends = [resendOf env key tr])) := by
  obtain ⟨s1, resends, h1, hc, h2, _⟩ := processRetryTransmissions_spec env s hu ht
  obtain ⟨k1, k2, _, k4⟩ := processRetryTransmissions_keeps env s s1 resends hu ht h1
  obtain ⟨o, g1, g2, _, _⟩ := h2 key tr hfind
  have hres := k4 key tr o hfind g1
  refine ⟨s1, resends, h1, k1, k2, hc, ?_⟩
  by_cases hdue : tr.nextRetryTime ≤ env.now
  · by_cases hcount : tr.retryCount < 3
    · rw [retryEntry_resent env key tr s tc hack hdue hcount htarget hconn] at g1
      simp only [Option.map_some', Option.some.injEq] at g1
      subst g1
      exact Or.inr (Or.inr ⟨hdue, hcount, g2, hres⟩)
    · have hcount2 : 3 ≤ tr.retryCount := not_lt.1 hcount
      rw [retryEntry_exhausted env key tr s hack hdue hcount2] at g1
      simp only [Option.map_some', Option.some.injEq] at g1
      subst g1
      exact Or.inr (Or.inl ⟨hdue, hcount2, g2, hres⟩)
  · have hearly : env.now < tr.nextRetryTime := not_le.1 hdue
    rw [retryEntry_waiting env key tr s hack hearly] at g1
    simp only [Option.map_some', Option.some.injEq] at g1
    subst g1
    exact Or.inl ⟨hearly, g2, hres⟩

/-- Sweeps never bring back a delivery that is not pending, and resend nothing
for it. -/
theorem successiveSweeps_absent (key : Str) (envs : List RetryEnv) :
    ∀ s : ServerState, UniqueKeys s.m_pendingTransmissions →
      (∀ e ∈ s.m_pendingTransmissions, e.2.targetClient < s.m_activeClients.length) →
      mfind key s.m_pendingTransmissions = none →
      ∃ s1 resends, successiveSweeps envs s = some (s1, resends) ∧
        s1.m_activeClients = s.m_activeClients ∧
        mfind key s1.m_pendingTransmissions = none ∧ resendsOf key resends = [] := by
  induction envs with
  | nil =>
    intro s _ _ hf
    exact ⟨s, [], rfl, rfl, hf, rfl⟩
  | cons env rest ih =>
    intro s hu ht hf
    obtain ⟨s1, r1, h1, hc, _, _⟩ := processRetryTransmissions_spec env s hu ht
    obtain ⟨k1, k2, k3, _⟩ := processRetryTransmissions_keeps env s s1 r1 hu ht h1
    obtain ⟨s2, r2, h2, hc2, g1, g2⟩ := ih s1 k1 k2 (k3 key hf).1
    refine ⟨s2, r1 ++ r2, ?_, hc2.trans hc, g1, ?_⟩
    · simp only [successiveSweeps, h1, h2]
    · rw [resendsOf_append, (k3 key hf).2, g2]
      rfl

/-- Any run of sweeps over a state where the delivery `key` is pending, not
acknowledged, with a connected target: the retry count grows by the number
of resends, up to 3. -/
theorem successiveSweeps_run (key : Str) (envs : List RetryEnv) :
    ∀ (s : ServerState) (tr : MessageTransmission) (tc : ClientSession),
      UniqueKeys s.m_pendingTransmissions →
      (∀ e ∈ s.m_pendingTransmissions, e.2.targetClient < s.m_activeClients.length) →
      mfind key s.m_pendingTransmissions = some tr →
      tr.acknowledged = false →
      s.m_activeClients[tr.targetClient]? = some tc → tc.connected = true →
      tr.retryCount ≤ 3 →
      ∃ s1 resends, successiveSweeps envs s = some (s1, resends) ∧
        s1.m_activeClients = s.m_activeClients ∧
        tr.retryCount + ((resendsOf key resends).length : Int) ≤ 3 ∧
        (∀ r ∈ resendsOf key resends,
          r.key = key ∧ r.payload = tr.content ∧ r.targetClient = tr.targetClient) ∧
        (mfind key s1.m_pendingTransmissions = none →
          tr.retryCount + ((resendsOf key resends).length : Int) = 3) ∧
        (∀ tr1, mfind key s1.m_pendingTransmissions = some tr1 →
          tr1.retryCount = tr.retryCount + ((resendsOf key resends).length : Int) ∧
          tr1.acknowledged = false ∧ tr1.content = tr.content ∧
          tr1.targetClient = tr.targetClient) := by
  induction envs with
  | nil =>
    intro s tr tc _ _ hf hack _ _ hle
    refine ⟨s, [], rfl, rfl, ?_, ?_, ?_, ?_⟩
    · simpa [resendsOf] using hle
    · intro r hr
      cases hr
    · intro hn
      rw [hn] at hf
      cases hf
    · intro tr1 h1
      rw [hf] at h1
      simp only [Option.some.injEq] at h1
      subst h1
      simp [resendsOf, hack]
  | cons env rest ih =>
    intro s tr tc hu ht hf hack htarget hconn hle
    obtain ⟨s1, r1, h1, k1, k2, hc, hcase⟩ :=
      processRetryTransmissions_step env s key tr tc hu ht hf hack htarget hconn
    rcases hcase with ⟨_, g1, g2⟩ | ⟨_, hge, g1, g2⟩ | ⟨_, hlt, g1, g2⟩
    · obtain ⟨s2, r2, h2, hc2, a1, a2, a3, a4⟩ :=
        ih s1 tr tc k1 k2 g1 hack (by rw [hc]; exact htarget) hconn hle
      refine ⟨s2, r1 ++ r2, ?_, hc2.trans hc, ?_, ?_, ?_, ?_⟩
      · simp only [successiveSweeps, h1, h2]
      · rw [resendsOf_append, g2, List.nil_append]
        exact a1
      · rw [resendsOf_append, g2, List.nil_append]
        exact a2
      · rw [resendsOf_append, g2, List.nil_append]
        exact a3
      · rw [resendsOf_append, g2, List.nil_append]
        exact a4
    · obtain ⟨s2, r2, h2, hc2, a1, a2⟩ := successiveSweeps_absent key rest s1 k1 k2 g1
      have hlen : ((resendsOf key (r1 ++ r2)).length : Int) = 0 := by
        rw [resendsOf_append, g2, a2]
        rfl
      refine ⟨s2, r1 ++ r2, ?_, hc2.trans hc, ?_, ?_, ?_, ?_⟩
      · simp only [successiveSweeps, h1, h2]
      · rw [hlen]
        omega
      · intro r hr
        rw [resendsOf_append, g2, a2] at hr
        cases hr
      · intro _
        rw [hlen]
        omega
      · intro tr1 h3
        rw [a1] at h3
        cases h3
    · have hle2 : (resentOnce env.now tr).retryCount ≤ 3 := by
        simp only [resentOnce]
        omega
      obtain ⟨s2, r2, h2, hc2, a1, a2, a3, a4⟩ :=
        ih s1 (resentOnce env.now tr) tc k1 k2 g1 hack (by rw [hc]; exact htarget) hconn hle2
      have hlen : ((resendsOf key (r1 ++ r2)).length : Int) =
          1 + ((resendsOf key r2).length : Int) := by
        rw [resendsOf_append, g2]
        simp only [List.singleton_append, List.length_cons, Nat.cast_add, Nat.cast_one]
        ring
      have hcnt : (resentOnce env.now tr).retryCount = tr.retryCount + 1 := rfl
      rw [hcnt] at a1 a3 a4
      refine ⟨s2, r1 ++ r2, ?_, hc2.trans hc, ?_, ?_, ?_, ?_⟩
      · simp only [successiveSweeps, h1, h2]
      · rw [hlen]
        omega
      · intro r hr
        rw [resendsOf_append, g2] at hr
        rcases List.mem_append.1 hr with hr | hr
        · simp only [List.mem_singleton] at hr
          subst hr
          exact ⟨rfl, rfl, rfl⟩
        · exact a2 r hr
      · intro hn
        rw [hlen]
        have := a3 hn
        omega
      · intro tr1 h3
        obtain ⟨b1, b2, b3, b4⟩ := a4 tr1 h3
        refine ⟨?_, b2, b3, b4⟩
        rw [hlen, b1]
        ring

theorem retryLoop_count (env : RetryEnv) (pending : List (Str × MessageTransmission)) :
    ∀ (s s2 : ServerState) (entries : List (Str × MessageTransmission)) (done : List Str)
      (resends : List Resend),
      retryLoop env pending s = some (entries, done, resends, s2) →
      (∀ e ∈ pending, e.2.retryCount ≤ 3) → ∀ e ∈ entries, e.2.retryCount ≤ 3 := by
  induction pending with
  | nil =>
    intro s s2 entries done resends h _ e he
    simp only [retryLoop, Option.some.injEq, Prod.mk.injEq] at h
    obtain ⟨rfl, _⟩ := h
    cases he
  | cons e0 rest ih =>
    intro s s2 entries done resends h hb e he
    obtain ⟨k, t⟩ := e0
    simp only [retryLoop] at h
    cases hentry : retryEntry env k t s with
    | none => simp [hentry] at h
    | some p =>
      obtain ⟨o1, s1⟩ := p
      simp only [hentry] at h
      cases hl : retryLoop env rest s1 with
      | none => simp [hl] at h
      | some q =>
        obtain ⟨entries1, done1, resends1, s3⟩ := q
        simp only [hl, Option.some.injEq, Prod.mk.injEq] at h
        obtain ⟨rfl, _⟩ := h
        rcases List.mem_cons.1 he with he | he
        · subst he
          exact retryEntry_count env k t s o1 (by rw [hentry]; rfl)
            (hb (k, t) (List.mem_cons_self _ _))
        · exact ih s1 s3 entries1 done1 resends1 hl
            (fun e2 h2 => hb e2 (List.mem_cons_of_mem _ h2)) e he

theorem processRetryTransmissions_count (env : RetryEnv) (s s1 : ServerState)
    (resends : List Resend) (h : processRetryTransmissions env s = some (s1, resends))
    (hb : ∀ e ∈ s.m_pendingTransmissions, e.2.retryCount ≤ 3) :
    ∀ e ∈ s1.m_pendingTransmissions, e.2.retryCount ≤ 3 := by
  unfold processRetryTransmissions at h
  split at h
  · simp only [Option.some.injEq, Prod.mk.injEq] at h
    obtain ⟨rfl, _⟩ := h
    exact hb
  · cases hl : retryLoop env s.m_pendingTransmissions s with
    | none => simp [hl] at h
    | some q =>
      obtain ⟨entries, done, resends1, s2⟩ := q
      simp only [hl, Option.some.injEq, Prod.mk.injEq] at h
      obtain ⟨rfl, _⟩ := h
      intro e he
      exact retryLoop_count env _ s s2 entries done resends1 hl hb e
        (mem_eraseCompleted done entries e he)

theorem handleAck_count (ackMessage : Str) (senderClient : Option Nat) (s s1 : ServerState)
    (h : handleAck ackMessage senderClient s = some s1)
    (hb : ∀ e ∈ s.m_pendingTransmissions, e.2.retryCount ≤ 3) :
    ∀ e ∈ s1.m_pendingTransmissions, e.2.retryCount ≤ 3 := by
  unfold handleAck at h
  split at h
  · cases h; exact hb
  · split at h
    · cases h
    · split at h
      · cases h; exact hb
      · split at h
        · rename_i t hfind
          cases h
          intro e he
          rcases mem_massign _ _ _ e he with he | he
          · subst he
            exact hb (_, t) (mem_of_mfind _ t _ hfind)
          · exact hb e he
        · cases h; exact hb

theorem afterIdAssignment_pending (env : SendEnv) (s : ServerState) (decoded : MessageData) :
    (afterIdAssignment env s decoded).m_pendingTransmissions = s.m_pendingTransmissions := by
  unfold afterIdAssignment
  split <;> rfl

theorem applyPendingOp_count (op : PendingOp) (s s1 : ServerState)
    (hb : ∀ e ∈ s.m_pendingTransmissions, e.2.retryCount ≤ 3)
    (h : applyPendingOp op s = some s1) :
    ∀ e ∈ s1.m_pendingTransmissions, e.2.retryCount ≤ 3 := by
  cases op with
  | register env target message decoded =>
    simp only [applyPendingOp, Option.some.injEq] at h
    subst h
    intro e he
    simp only [registerPending, afterIdAssignment_pending] at he
    rcases mem_massign _ _ _ e he with he | he
    · subst he
      exact (by decide : (0 : Int) ≤ 3)
    · exact hb e he
  | ack ackMessage senderClient =>
    exact handleAck_count ackMessage senderClient s s1 h hb
  | erase messageId =>
    simp only [applyPendingOp, Option.some.injEq] at h
    subst h
    intro e he
    exact hb e (mem_merase _ _ e he)
  | sweep env =>
    simp only [applyPendingOp] at h
    cases hs : processRetryTransmissions env s with
    | none => simp [hs] at h
    | some p =>
      obtain ⟨s2, resends⟩ := p
      simp only [hs, Option.map_some', Option.some.injEq] at h
      subst h
      exact processRetryTransmissions_count env s s2 resends hs hb

theorem pendingReachable_count (s : ServerState) (h : PendingReachable s) :
    ∀ e ∈ s.m_pendingTransmissions, e.2.retryCount ≤ 3 := by
  induction h with
  | init s0 h0 =>
    intro e he
    rw [h0] at he
    cases he
  | step s0 s1 op _ hstep ih => exact applyPendingOp_count op s0 s1 ih hstep

theorem resentOnce_eq (now : Int) (tr : MessageTransmission) (c : Int)
    (hc : tr.retryCount = c) :
    resentOnce now tr =
      { tr with retryCount := c + 1, nextRetryTime := now + milliseconds (1000 * (c + 1)) } := by
  simp only [resentOnce, RETRY_INTERVAL_MS, hc]


/-- C20: for a pending delivery with retry count 0 that is not acknowledged and
whose target session is connected, in a pending map with distinct keys and
registered targets. First, for sweeps made at or after the deadline of the
delivery, then at least 1 s, 2 s and 3 s after the previous sweep: each of
the first three sweeps returns with exactly one resend of the payload to the
target and leaves the delivery pending with retry count 1, 2, 3 and deadline
1 s, 2 s, 3 s after the sweep; the fourth returns with no resend and the
delivery removed, its loop body appending the payload to the offline queue
of the decoded receiver (and when the delivery is the only pending one, the
offline store after the four sweeps is the one after that single append).
Second, whatever the times of a run of sweeps, the run returns, the payload
is resent at most 3 times, exactly 3 times once the delivery is removed, and
the retry count of the delivery is the number of resends made. Third, in
every state reached from an empty pending map by registrations, acks,
erasures and sweeps, every retry count is at most 3. -/
theorem fresh_delivery_is_resent_three_times (s0 : ServerState) (key : Str)
    (tr0 : MessageTransmission) (tc : ClientSession) (m : MessageData)
    (env1 env2 env3 env4 : RetryEnv)
    (hu : UniqueKeys s0.m_pendingTransmissions)
    (ht : ∀ e ∈ s0.m_pendingTransmissions, e.2.targetClient < s0.m_activeClients.length)
    (hfind : mfind key s0.m_pendingTransmissions = some tr0)
    (hfresh : tr0.retryCount = 0) (hack : tr0.acknowledged = false)
    (htarget : s0.m_activeClients[tr0.targetClient]? = some tc) (hconn : tc.connected = true)
    (hdec : deserializeMessage (env4.nowDecode key) tr0.content = some m)
    (h1 : tr0.nextRetryTime ≤ env1.now)
    (h2 : env1.now + milliseconds 1000 ≤ env2.now)
    (h3 : env2.now + milliseconds 2000 ≤ env3.now)
    (h4 : env3.now + milliseconds 3000 ≤ env4.now) :
    (∃ s1 s2 s3 s4 r1 r2 r3 r4,
      processRetryTransmissions env1 s0 = some (s1, r1) ∧
      processRetryTransmissions env2 s1 = some (s2, r2) ∧
      processRetryTransmissions env3 s2 = some (s3, r3) ∧
      processRetryTransmissions env4 s3 = some (s4, r4) ∧
      resendsOf key r1 = [resendOf env1 key tr0] ∧
      resendsOf key r2 = [resendOf env2 key tr0] ∧
      resendsOf key r3 = [resendOf env3 key tr0] ∧
      resendsOf key r4 = [] ∧
      mfind key s1.m_pendingTransmissions =
        some { tr0 with retryCount := 1, nextRetryTime := env1.now + milliseconds 1000 } ∧
      mfind key s2.m_pendingTransmissions =
        some { tr0 with retryCount := 2, nextRetryTime := env2.now + milliseconds 2000 } ∧
      mfind key s3.m_pendingTransmissions =
        some { tr0 with retryCount := 3, nextRetryTime := env3.now + milliseconds 3000 } ∧
      mfind key s4.m_pendingTransmissions = none ∧
      (∀ sMid : ServerState,
        retryEntry env4 key
            { tr0 with retryCount := 3, nextRetryTime := env3.now + milliseconds 3000 } sMid =
          some ({ transmission :=
                    { tr0 with retryCount := 3,
                               nextRetryTime := env3.now + milliseconds 3000 },
                  completed := true, resend := none },
            storeOfflineMessage m.receiverId tr0.content sMid) ∧
        queueOf m.receiverId
            (storeOfflineMessage m.receiverId tr0.content sMid).m_offlineMessages =
          enqueued (queueOf m.receiverId sMid.m_offlineMessages) tr0.content) ∧
      (s0.m_pendingTransmissions = [(key, tr0)] →
        s4 = { storeOfflineMessage m.receiverId tr0.content s0 with
               m_pendingTransmissions := [] })) ∧
    (∀ envs : List RetryEnv, ∃ s1 resends, successiveSweeps envs s0 = some (s1, resends) ∧
      (resendsOf key resends).length ≤ 3 ∧
      (∀ r ∈ resendsOf key resends,
        r.payload = tr0.content ∧ r.targetClient = tr0.targetClient) ∧
      (mfind key s1.m_pendingTransmissions = none → (resendsOf key resends).length = 3) ∧
      (∀ tr, mfind key s1.m_pendingTransmissions = some tr →
        tr.retryCount = ((resendsOf key resends).length : Int))) ∧
    (∀ s : ServerState, PendingReachable s →
      ∀ e ∈ s.m_pendingTransmissions, e.2.retryCount ≤ 3) := by
  refine ⟨?_, ?_, pendingReachable_count⟩
  · have q1 : resentOnce env1.now tr0 =
        { tr0 with retryCount := 1, nextRetryTime := env1.now + milliseconds 1000 } := by
      rw [resentOnce_eq env1.now tr0 0 hfresh]
      norm_num
    have q2 : resentOnce env2.now
          { tr0 with retryCount := 1, nextRetryTime := env1.now + milliseconds 1000 } =
        { tr0 with retryCount := 2, nextRetryTime := env2.now + milliseconds 2000 } := by
      rw [resentOnce_eq env2.now _ 1 rfl]
      norm_num
    have q3 : resentOnce env3.now
          { tr0 with retryCount := 2, nextRetryTime := env2.now + milliseconds 2000 } =
        { tr0 with retryCount := 3, nextRetryTime := env3.now + milliseconds 3000 } := by
      rw [resentOnce_eq env3.now _ 2 rfl]
      norm_num
    -- first sweep
    obtain ⟨s1, r1, e1, u1, t1, c1, case1⟩ :=
      processRetryTransmissions_step env1 s0 key tr0 tc hu ht hfind hack htarget hconn
    have ⟨g1, f1⟩ : mfind key s1.m_pendingTransmissions = some (resentOnce env1.now tr0) ∧
        resendsOf key r1 = [resendOf env1 key tr0] := by
      rcases case1 with ⟨a, _, _⟩ | ⟨_, a, _, _⟩ | ⟨_, _, a, b⟩
      · exact absurd h1 (not_le.2 a)
      · rw [hfresh] at a
        exact absurd a (by decide)
      · exact ⟨a, b⟩
    rw [q1] at g1
    -- second sweep
    obtain ⟨s2, r2, e2, u2, t2, c2, case2⟩ :=
      processRetryTransmissions_step env2 s1 key _ tc u1 t1 g1 hack
        (by rw [c1]; exact htarget) hconn
    have ⟨g2, f2⟩ : mfind key s2.m_pendingTransmissions =
          some (resentOnce env2.now
            { tr0 with retryCount := 1, nextRetryTime := env1.now + milliseconds 1000 }) ∧
        resendsOf key r2 = [resendOf env2 key tr0] := by
      rcases case2 with ⟨a, _, _⟩ | ⟨_, a, _, _⟩ | ⟨_, _, a, b⟩
      · exact absurd h2 (not_le.2 a)
      · exact absurd (show (3 : Int) ≤ 1 from a) (by decide)
      · exact ⟨a, b⟩
    rw [q2] at g2
    -- third sweep
    obtain ⟨s3, r3, e3, u3, t3, c3, case3⟩ :=
      processRetryTransmissions_step env3 s2 key _ tc u2 t2 g2 hack
        (by rw [c2, c1]; exact htarget) hconn
    have ⟨g3, f3⟩ : mfind key s3.m_pendingTransmissions =
          some (resentOnce env3.now
            { tr0 with retryCount := 2, nextRetryTime := env2.now + milliseconds 2000 }) ∧
        resendsOf key r3 = [resendOf env3 key tr0] := by
      rcases case3 with ⟨a, _, _⟩ | ⟨_, a, _, _⟩ | ⟨_, _, a, b⟩
      · exact absurd h3 (not_le.2 a)
      · exact absurd (show (3 : Int) ≤ 2 from a) (by decide)
      · exact ⟨a, b⟩
    rw [q3] at g3
    -- fourth sweep
    obtain ⟨s4, r4, e4, u4, t4, c4, case4⟩ :=
      processRetryTransmissions_step env4 s3 key _ tc u3 t3 g3 hack
        (by rw [c3, c2, c1]; exact htarget) hconn
    have ⟨g4, f4⟩ : mfind key s4.m_pendingTransmissions = none ∧ resendsOf key r4 = [] := by
      rcases case4 with ⟨a, _, _⟩ | ⟨_, _, a, b⟩ | ⟨_, a, _, _⟩
      · exact absurd h4 (not_le.2 a)
      · exact ⟨a, b⟩
      · exact absurd (show (3 : Int) < 3 from a) (by decide)
    have hstore : ∀ sMid : ServerState,
        retryEntry env4 key
            { tr0 with retryCount := 3, nextRetryTime := env3.now + milliseconds 3000 } sMid =
          some ({ transmission :=
                    { tr0 with retryCount := 3,
                               nextRetryTime := env3.now + milliseconds 3000 },
                  completed := true, resend := none },
            storeOfflineMessage m.receiverId tr0.content sMid) ∧
        queueOf m.receiverId
            (storeOfflineMessage m.receiverId tr0.content sMid).m_offlineMessages =
          enqueued (queueOf m.receiverId sMid.m_offlineMessages) tr0.content := by
      intro sMid
      have hd := storeExhausted_of_decoded env4 key
        { tr0 with retryCount := 3, nextRetryTime := env3.now + milliseconds 3000 } sMid m hdec
      rw [retryEntry_exhausted env4 key
        { tr0 with retryCount := 3, nextRetryTime := env3.now + milliseconds 3000 } sMid hack h4
        (show (3 : Int) ≤ 3 by decide), hd.1]
      exact ⟨rfl, hd.2⟩
    refine ⟨s1, s2, s3, s4, r1, r2, r3, r4, e1, e2, e3, e4, f1, f2, f3, f4, g1, g2, g3, g4,
      hstore, ?_⟩
    intro hsingle
    have d1 := processRetryTransmissions_single env1 s0 _ key tr0 _ hsingle
      (retryEntry_resent env1 key tr0 s0 tc hack h1 (by rw [hfresh]; decide) htarget hconn)
    rw [e1] at d1
    simp only [Option.some.injEq, Prod.mk.injEq, Bool.false_eq_true, if_false, q1] at d1
    obtain ⟨rfl, _⟩ := d1
    have d2 := processRetryTransmissions_single env2
      { s0 with m_pendingTransmissions :=
          [(key, { tr0 with retryCount := 1,
                            nextRetryTime := env1.now + milliseconds 1000 })] }
      _ key _ _ rfl
      (retryEntry_resent env2 key
        { tr0 with retryCount := 1, nextRetryTime := env1.now + milliseconds 1000 } _ tc hack h2
        (show (1 : Int) < 3 by decide) htarget hconn)
    rw [e2] at d2
    simp only [Option.some.injEq, Prod.mk.injEq, Bool.false_eq_true, if_false, q2] at d2
    obtain ⟨rfl, _⟩ := d2
    have d3 := processRetryTransmissions_single env3
      { s0 with m_pendingTransmissions :=
          [(key, { tr0 with retryCount := 2,
                            nextRetryTime := env2.now + milliseconds 2000 })] }
      _ key _ _ rfl
      (retryEntry_resent env3 key
        { tr0 with retryCount := 2, nextRetryTime := env2.now + milliseconds 2000 } _ tc hack h3
        (show (2 : Int) < 3 by decide) htarget hconn)
    rw [e3] at d3
    simp only [Option.some.injEq, Prod.mk.injEq, Bool.false_eq_true, if_false, q3] at d3
    obtain ⟨rfl, _⟩ := d3
    have d4 := processRetryTransmissions_single env4
      { s0 with m_pendingTransmissions :=
          [(key, { tr0 with retryCount := 3,
                            nextRetryTime := env3.now + milliseconds 3000 })] }
      _ key _ _ rfl (hstore _).1
    rw [e4] at d4
    simp only [Option.some.injEq, Prod.mk.injEq, if_true] at d4
    obtain ⟨rfl, _⟩ := d4
    simp only [storeOfflineMessage]
    split <;> rfl
  · intro envs
    obtain ⟨s1, resends, hrun, _, a1, a2, a3, a4⟩ :=
      successiveSweeps_run key envs s0 tr0 tc hu ht hfind hack htarget hconn
        (by rw [hfresh]; decide)
    rw [hfresh] at a1 a3 a4
    refine ⟨s1, resends, hrun, ?_, ?_, ?_, ?_⟩
    · omega
    · intro r hr
      exact (a2 r hr).2
    · intro hn
      have := a3 hn
      omega
    · intro tr h
      have := (a4 tr h).1
      omega

/-- C20, witness: four sweeps over the server whose only pending delivery is
fresh and addressed to the connected session of `B`, made 0 s, 1 s, 3 s and
6 s after the delivery was created. -/
theorem fresh_delivery_is_resent_three_times_witness :
    ∃ s1 resends,
      successiveSweeps [sweepAt 0, sweepAt 1000000000, sweepAt 3000000000, sweepAt 6000000000]
        waitingServer = some (s1, resends) ∧
      (resendsOf "X".toList resends).length ≤ 3 ∧
      (∀ r ∈ resendsOf "X".toList resends,
        r.payload = "MESSAGE|X|A|B|hi|t".toList ∧ r.targetClient = 1) ∧
      (mfind "X".toList s1.m_pendingTransmissions = none →
        (resendsOf "X".toList resends).length = 3) ∧
      (∀ tr, mfind "X".toList s1.m_pendingTransmissions = some tr →
        tr.retryCount = ((resendsOf "X".toList resends).length : Int)) :=
  (fresh_delivery_is_resent_three_times waitingServer "X".toList
    { messageId := "X".toList, content := "MESSAGE|X|A|B|hi|t".toList, targetClient := 1,
      retryCount := 0, nextRetryTime := 0, acknowledged := false }
    { ip := "10.0.0.2".toList, port := 5002, userId := "B".toList, isLoggedIn := true,
      connected := true }
    { messageId := "X".toList, senderId := "A".toList, receiverId := "B".toList,
      content := "hi".toList, timestamp := "t".toList }
    (sweepAt 0) (sweepAt 1000000000) (sweepAt 3000000000) (sweepAt 6000000000)
    (by unfold UniqueKeys; decide) (by decide) (by decide) (by decide) (by decide) (by decide)
    (by decide) (by decide) (by decide) (by decide) (by decide) (by decide)).2.1
    [sweepAt 0, sweepAt 1000000000, sweepAt 3000000000, sweepAt 6000000000]

/-! ### Facts about the stale-delivery cleanup -/

theorem merase_eq_filter {V : Type} (k : Str) (m : StrMap V) :
    merase k m = m.filter (fun e => decide (e.1 ≠ k)) := by
  induction m with
  | nil => rfl
  | cons e r ih =>
    obtain ⟨k1, v1⟩ := e
    by_cases h : k1 = k
    · simp only [merase, h, if_true, ih, List.filter_cons, ne_eq, not_true_eq_false,
        decide_False, Bool.false_eq_true, if_false]
    · simp only [merase, h, if_false, ih, List.filter_cons, ne_eq, not_false_eq_true,
        decide_True, if_true]

theorem eraseCompleted_eq_filter (done : List Str) :
    ∀ m : StrMap MessageTransmission,
      eraseCompleted done m = m.filter (fun e => decide (e.1 ∉ done)) := by
  induction done with
  | nil =>
    intro m
    simp [eraseCompleted]
  | cons d rest ih =>
    intro m
    rw [eraseCompleted, ih, merase_eq_filter, List.filter_filter]
    apply List.filter_congr
    intro e _
    by_cases h1 : e.1 = d
    · simp [h1]
    · by_cases h2 : e.1 ∈ rest
      · simp [h1, h2]
      · simp [h1, h2]

theorem mem_timeoutLoop (now : Int) (key : Str) (pending : List (Str × MessageTransmission)) :
    key ∈ timeoutLoop now pending ↔
      ∃ tr, (key, tr) ∈ pending ∧ now - tr.nextRetryTime > minutes 5 := by
  induction pending with
  | nil => simp [timeoutLoop]
  | cons e r ih =>
    obtain ⟨k1, t1⟩ := e
    by_cases h : now - t1.nextRetryTime > minutes 5
    · simp only [timeoutLoop, h, if_true, List.mem_cons, ih, Prod.mk.injEq]
      constructor
      · rintro (rfl | ⟨tr, h1, h2⟩)
        · exact ⟨t1, Or.inl ⟨rfl, rfl⟩, h⟩
        · exact ⟨tr, Or.inr h1, h2⟩
      · rintro ⟨tr, (⟨rfl, rfl⟩ | h1), h2⟩
        · exact Or.inl rfl
        · exact Or.inr ⟨tr, h1, h2⟩
    · simp only [timeoutLoop, h, if_false, List.mem_cons, ih, Prod.mk.injEq]
      constructor
      · rintro ⟨tr, h1, h2⟩
        exact ⟨tr, Or.inr h1, h2⟩
      · rintro ⟨tr, (⟨rfl, rfl⟩ | h1), h2⟩
        · exact absurd h2 h
        · exact ⟨tr, h1, h2⟩

/-- What `cleanupTimeoutTransmissions` leaves in a pending map with distinct keys. -/
theorem cleanupTimeoutTransmissions_spec (now : Int) (s : ServerState)
    (hu : UniqueKeys s.m_pendingTransmissions) :
    (cleanupTimeoutTransmissions now s).m_pendingTransmissions =
      s.m_pendingTransmissions.filter
        (fun e => decide (¬ now - e.2.nextRetryTime > minutes 5)) := by
  unfold cleanupTimeoutTransmissions
  split
  · rename_i he
    have : s.m_pendingTransmissions = [] := List.isEmpty_iff.1 he
    rw [this]
    rfl
  · simp only
    rw [eraseCompleted_eq_filter]
    apply List.filter_congr
    intro e he
    have hiff : e.1 ∈ timeoutLoop now s.m_pendingTransmissions ↔
        now - e.2.nextRetryTime > minutes 5 := by
      rw [mem_timeoutLoop]
      constructor
      · rintro ⟨tr, h1, h2⟩
        have := mem_unique _ hu e.1 tr e.2 h1 he
        rw [← this]
        exact h2
      · intro h
        exact ⟨e.2, he, h⟩
    by_cases h : now - e.2.nextRetryTime > minutes 5
    · simp [hiff, h]
    · simp [hiff, h]

/-- C21 (amended): `cleanupTimeoutTransmissions` removes exactly those pending
deliveries for which more than 5 minutes have passed since their
`nextRetryTime` (the creation time of a delivery that was never resent, the
deadline set by its last resend otherwise), whatever their retry count and
acknowledged flag, and keeps every other one unchanged; the sessions, the
offline store and the id counter are untouched. -/
theorem cleanupTimeoutTransmissions_removes_overdue (now : Int) (s : ServerState)
    (hu : UniqueKeys s.m_pendingTransmissions) :
    (cleanupTimeoutTransmissions now s).m_pendingTransmissions =
      s.m_pendingTransmissions.filter
        (fun e => decide (¬ now - e.2.nextRetryTime > minutes 5)) ∧
    (∀ key tr, mfind key s.m_pendingTransmissions = some tr →
      mfind key (cleanupTimeoutTransmissions now s).m_pendingTransmissions =
        if now - tr.nextRetryTime > minutes 5 then none else some tr) ∧
    (∀ key, mfind key s.m_pendingTransmissions = none →
      mfind key (cleanupTimeoutTransmissions now s).m_pendingTransmissions = none) ∧
    (cleanupTimeoutTransmissions now s).m_activeClients = s.m_activeClients ∧
    (cleanupTimeoutTransmissions now s).m_offlineMessages = s.m_offlineMessages ∧
    (cleanupTimeoutTransmissions now s).counter = s.counter := by
  have hfind : ∀ key,
      mfind key (cleanupTimeoutTransmissions now s).m_pendingTransmissions =
        if key ∈ timeoutLoop now s.m_pendingTransmissions then none
        else mfind key s.m_pendingTransmissions := by
    intro key
    unfold cleanupTimeoutTransmissions
    split
    · rename_i he
      have hnil : s.m_pendingTransmissions = [] := List.isEmpty_iff.1 he
      rw [hnil]
      rfl
    · exact mfind_eraseCompleted key _ _
  refine ⟨cleanupTimeoutTransmissions_spec now s hu, ?_, ?_, ?_, ?_, ?_⟩
  · intro key tr hf
    rw [hfind, hf]
    have hm := mem_of_mfind key tr _ hf
    have hiff : key ∈ timeoutLoop now s.m_pendingTransmissions ↔
        now - tr.nextRetryTime > minutes 5 := by
      rw [mem_timeoutLoop]
      constructor
      · rintro ⟨tr2, h1, h2⟩
        rw [mem_unique _ hu key tr tr2 hm h1]
        exact h2
      · intro h
        exact ⟨tr, hm, h⟩
    by_cases h : now - tr.nextRetryTime > minutes 5
    · rw [if_pos (hiff.2 h), if_pos h]
    · rw [if_neg (fun hk => h (hiff.1 hk)), if_neg h]
  · intro key hf
    rw [hfind, hf]
    split <;> rfl
  · unfold cleanupTimeoutTransmissions
    split <;> rfl
  · unfold cleanupTimeoutTransmissions
    split <;> rfl
  · unfold cleanupTimeoutTransmissions
    split <;> rfl

/-- C21, witness: the delivery of the waiting server, created when the steady
clock read 0 and never resent, is removed by a cleanup made 6 minutes
later. -/
theorem cleanupTimeoutTransmissions_removes_overdue_witness :
    mfind "X".toList
        (cleanupTimeoutTransmissions (minutes 6) waitingServer).m_pendingTransmissions =
      if minutes 6 - 0 > minutes 5 then none
      else some { messageId := "X".toList, content := "MESSAGE|X|A|B|hi|t".toList,
                  targetClient := 1, retryCount := 0, nextRetryTime := 0,
                  acknowledged := false } :=
  (cleanupTimeoutTransmissions_removes_overdue (minutes 6) waitingServer
    (by unfold UniqueKeys; decide)).2.1 "X".toList
    { messageId := "X".toList, content := "MESSAGE|X|A|B|hi|t".toList, targetClient := 1,
      retryCount := 0, nextRetryTime := 0, acknowledged := false } (by decide)

/-- C21, counterexample: message `X` is registered for the session of `B` when
the steady clock reads 0, a sweep made 5 minutes later resends it, and a
cleanup made 6 minutes after the registration (1 minute after the resend)
still finds it pending and keeps it: its `nextRetryTime` is then 59 seconds
old. -/
theorem resent_delivery_outlives_five_minutes :
    quietEnv.send.steadyNow = 0 ∧
    registerPending quietEnv.send 1 "MESSAGE|X|A|B|hi|t".toList
        { messageId := "X".toList, senderId := "A".toList, receiverId := "B".toList,
          content := "hi".toList, timestamp := "t".toList } idleServer = waitingServer ∧
    (processRetryTransmissions (sweepAt (minutes 5)) waitingServer).map
        (fun p => (p.2.map (fun r => r.key),
          mfind "X".toList
            (cleanupTimeoutTransmissions (minutes 6) p.1).m_pendingTransmissions)) =
      some (["X".toList],
        some { messageId := "X".toList, content := "MESSAGE|X|A|B|hi|t".toList,
               targetClient := 1, retryCount := 1,
               nextRetryTime := minutes 5 + milliseconds 1000, acknowledged := false }) ∧
    minutes 6 - (minutes 5 + milliseconds 1000) = milliseconds 59000 := by
  decide

/-! ### Facts about the session registry -/

theorem findUserById_cons (userId : Str) (c0 : ClientSession) (rest : List ClientSession) :
    findUserById userId (c0 :: rest) =
      if c0.userId = userId ∧ c0.isLoggedIn = true then some 0
      else (findUserById userId rest).map (· + 1) := by
  by_cases h0 : c0.userId = userId ∧ c0.isLoggedIn = true
  · rw [if_pos h0]
    simp [findUserById, h0.1, h0.2]
  · rw [if_neg h0]
    have hb : ¬ (decide (c0.userId = userId) && c0.isLoggedIn) = true := by
      simpa using h0
    simp only [findUserById, hb, Bool.false_eq_true, if_false]

theorem findUserById_some_iff (userId : Str) (clients : List ClientSession) (i : Nat) :
    findUserById userId clients = some i ↔
      (∃ c, clients[i]? = some c ∧ c.userId = userId ∧ c.isLoggedIn = true) ∧
      ∀ j, j < i → ∀ c, clients[j]? = some c → ¬ (c.userId = userId ∧ c.isLoggedIn = true) := by
  induction clients generalizing i with
  | nil => simp [findUserById]
  | cons c0 rest ih =>
    rw [findUserById_cons]
    by_cases h0 : c0.userId = userId ∧ c0.isLoggedIn = true
    · rw [if_pos h0]
      constructor
      · intro hi
        simp only [Option.some.injEq] at hi
        subst hi
        exact ⟨⟨c0, List.getElem?_cons_zero, h0.1, h0.2⟩,
          fun j hj => absurd hj (Nat.not_lt_zero j)⟩
      · rintro ⟨_, hmin⟩
        cases i with
        | zero => rfl
        | succ k => exact absurd h0 (hmin 0 (Nat.succ_pos k) c0 List.getElem?_cons_zero)
    · rw [if_neg h0]
      cases i with
      | zero =>
        constructor
        · intro h
          cases hf : findUserById userId rest with
          | none => rw [hf] at h; cases h
          | some k => rw [hf] at h; cases h
        · rintro ⟨⟨c, hc, h1, h2⟩, _⟩
          simp only [List.getElem?_cons_zero, Option.some.injEq] at hc
          subst hc
          exact absurd ⟨h1, h2⟩ h0
      | succ k =>
        have hmap : (findUserById userId rest).map (· + 1) = some (k + 1) ↔
            findUserById userId rest = some k := by
          cases findUserById userId rest with
          | none => simp
          | some n => simp
        rw [hmap, ih k]
        constructor
        · rintro ⟨hex, hmin⟩
          refine ⟨by simpa using hex, ?_⟩
          intro j hj c hc
          cases j with
          | zero =>
            simp only [List.getElem?_cons_zero, Option.some.injEq] at hc
            subst hc
            exact h0
          | succ n =>
            simp only [List.getElem?_cons_succ] at hc
            exact hmin n (Nat.lt_of_succ_lt_succ hj) c hc
        · rintro ⟨hex, hmin⟩
          refine ⟨by simpa using hex, ?_⟩
          intro j hj c hc
          exact hmin (j + 1) (Nat.succ_lt_succ hj) c (by simpa using hc)

theorem findUserById_none_iff (userId : Str) (clients : List ClientSession) :
    findUserById userId clients = none ↔
      ∀ c ∈ clients, ¬ (c.userId = userId ∧ c.isLoggedIn = true) := by
  induction clients with
  | nil => simp [findUserById]
  | cons c0 rest ih =>
    rw [findUserById_cons]
    by_cases h0 : c0.userId = userId ∧ c0.isLoggedIn = true
    · rw [if_pos h0]
      constructor
      · intro h
        cases h
      · intro h
        exact absurd h0 (h c0 (List.mem_cons_self _ _))
    · rw [if_neg h0]
      have hmap : (findUserById userId rest).map (· + 1) = none ↔
          findUserById userId rest = none := by
        cases findUserById userId rest with
        | none => simp
        | some n => simp
      rw [hmap, ih]
      constructor
      · intro h c hc
        rcases List.mem_cons.1 hc with rfl | hc
        · exact h0
        · exact h c hc
      · intro h c hc
        exact h c (List.mem_cons_of_mem _ hc)

theorem findUserById_append (userId : Str) (clients more : List ClientSession) (i : Nat)
    (h : findUserById userId clients = some i) :
    findUserById userId (clients ++ more) = some i := by
  induction clients generalizing i with
  | nil => simp [findUserById] at h
  | cons c0 rest ih =>
    rw [List.cons_append, findUserById_cons]
    rw [findUserById_cons] at h
    by_cases h0 : c0.userId = userId ∧ c0.isLoggedIn = true
    · rw [if_pos h0] at h ⊢
      exact h
    · rw [if_neg h0] at h ⊢
      cases hf : findUserById userId rest with
      | none => rw [hf] at h; cases h
      | some k =>
        rw [hf] at h
        rw [ih k hf]
        exact h

theorem processMessage_logout (env : RouterEnv) (rest : Str) (cur : Nat) (s : ServerState)
    (client : ClientSession) (hc : s.m_activeClients[cur]? = some client) :
    processMessage env ("LOGOUT".toList ++ rest) (some cur) s =
      some ("RESPONSE|SUCCESS|LOGOUT_OK|登出成功".toList,
        { s with m_activeClients :=
            s.m_activeClients.set cur { client with isLoggedIn := false } }) := by
  have h1 : ("LOGOUT".toList ++ rest).take 3 ≠ "ACK".toList := by simp
  have h2 : ("LOGOUT".toList ++ rest).take 5 ≠ "LOGIN".toList := by simp
  have h3 : ("LOGOUT".toList ++ rest).take 7 ≠ "MESSAGE".toList := by
    cases rest <;> simp
  have h4 : ("LOGOUT".toList ++ rest).take 6 = "LOGOUT".toList := by simp
  simp only [processMessage, h1, h2, h3, h4, if_false, if_true, hc]

/-- C22: for every registry and every user id, `findUserById` returns the session at
position `i` exactly when that session has this user id and is logged in
and no session before it (none inserted earlier) is; it returns no session
exactly when no session of the registry has this user id and is logged in.
So the session found stays the same when `createSession` registers a new
session, or when any sessions are pushed after it, and a session that has
just processed a `LOGOUT` frame is not returned for any user id. -/
theorem findUserById_returns_first_logged_in (userId : Str) (clients : List ClientSession) :
    (∀ i, findUserById userId clients = some i ↔
      (∃ c, clients[i]? = some c ∧ c.userId = userId ∧ c.isLoggedIn = true) ∧
      ∀ j, j < i → ∀ c, clients[j]? = some c →
        ¬ (c.userId = userId ∧ c.isLoggedIn = true)) ∧
    (findUserById userId clients = none ↔
      ∀ c ∈ clients, ¬ (c.userId = userId ∧ c.isLoggedIn = true)) ∧
    (∀ (i : Nat) (more : List ClientSession), findUserById userId clients = some i →
      findUserById userId (clients ++ more) = some i) ∧
    (∀ (s : ServerState) (ip : Str) (port : Nat) (connected : Bool) (i : Nat),
      findUserById userId s.m_activeClients = some i →
      findUserById userId (createSession ip port connected s).2.m_activeClients = some i) ∧
    (∀ (env : RouterEnv) (rest : Str) (cur : Nat) (s s1 : ServerState) (reply : Str),
      processMessage env ("LOGOUT".toList ++ rest) (some cur) s = some (reply, s1) →
      findUserById userId s1.m_activeClients ≠ some cur) := by
  refine ⟨findUserById_some_iff userId clients, findUserById_none_iff userId clients,
    fun i more h => findUserById_append userId clients more i h,
    fun s ip port connected i h => findUserById_append userId _ _ i h, ?_⟩
  intro env rest cur s s1 reply h hfound
  cases hc : s.m_activeClients[cur]? with
  | none =>
    have h1 : ("LOGOUT".toList ++ rest).take 3 ≠ "ACK".toList := by simp
    have h2 : ("LOGOUT".toList ++ rest).take 5 ≠ "LOGIN".toList := by simp
    have h3 : ("LOGOUT".toList ++ rest).take 7 ≠ "MESSAGE".toList := by
      cases rest <;> simp
    have h4 : ("LOGOUT".toList ++ rest).take 6 = "LOGOUT".toList := by simp
    simp only [processMessage, h1, h2, h3, h4, if_false, if_true, hc] at h
    cases h
  | some client =>
    rw [processMessage_logout env rest cur s client hc] at h
    simp only [Option.some.injEq, Prod.mk.injEq] at h
    obtain ⟨_, rfl⟩ := h
    obtain ⟨⟨c, hget, _, hlog⟩, _⟩ := (findUserById_some_iff userId _ cur).1 hfound
    have hlt : cur < s.m_activeClients.length := by
      rcases Nat.lt_or_ge cur s.m_activeClients.length with h | h
      · exact h
      · rw [List.getElem?_eq_none h] at hc
        cases hc
    simp only [List.getElem?_set_self hlt, Option.some.injEq] at hget
    subst hget
    cases hlog

/-- C22, witness: among three sessions logged in as `A`, `B`, `C`, the
session of `B` is the one at position 1; it is still the one found after a
second session of `B` is pushed at the back. -/
theorem findUserById_returns_first_logged_in_witness :
    (findUserById "B".toList threeClients = some 1 ↔
      (∃ c, threeClients[1]? = some c ∧ c.userId = "B".toList ∧ c.isLoggedIn = true) ∧
      ∀ j, j < 1 → ∀ c, threeClients[j]? = some c →
        ¬ (c.userId = "B".toList ∧ c.isLoggedIn = true)) ∧
    findUserById "B".toList
        (threeClients ++
          [{ ip := "10.0.0.9".toList, port := 5009, userId := "B".toList, isLoggedIn := true,
             connected := true }]) = some 1 :=
  ⟨(findUserById_returns_first_logged_in "B".toList threeClients).1 1,
    (findUserById_returns_first_logged_in "B".toList threeClients).2.2.1 1 _ (by decide)⟩

/-! ### Facts about the acknowledgment decoder -/

/-- The fields of a text that `deserializeAck` accepts. -/
theorem deserializeAck_fields (raw : Str) (a : AckData) (h : deserializeAck raw = some a) :
    ∃ more, splitFields '|' raw =
        "ACK".toList :: a.messageId :: a.receiverId :: a.timestamp :: more ∧
      a.messageId ≠ [] ∧ a.receiverId ≠ [] := by
  unfold deserializeAck at h
  rcases getline_fields '|' raw with ⟨f0, hF0, hg0⟩ | ⟨f0, f1, fs1, rest1, hF0, hg0, hF1⟩
  · rw [hg0] at h
    by_cases he : f0 = []
    · simp only [he, if_true] at h
      cases h
    · simp only [he, if_false, getline_none] at h
      split at h <;> cases h
  · rw [hg0] at h
    simp only at h
    split at h
    · cases h
    · rename_i htag
      have htag : f0 = "ACK".toList := by
        by_contra hc
        exact htag hc
      rcases getline_fields '|' rest1 with ⟨g1, hG1, hg1⟩ | ⟨g1, f2, fs2, rest2, hG1, hg1, hF2⟩
      · rw [hg1] at h
        by_cases he : g1 = []
        · simp only [he, if_true] at h
          cases h
        · simp only [he, if_false, getline_none] at h
          cases h
      · rw [hg1] at h
        simp only at h
        rw [hF1] at hG1
        simp only [List.cons.injEq] at hG1
        obtain ⟨rfl, rfl⟩ := hG1
        rcases getline_fields '|' rest2 with ⟨g2, hG2, hg2⟩ |
          ⟨g2, f3, fs3, rest3, hG2, hg2, hF3⟩
        · rw [hg2] at h
          by_cases he : g2 = []
          · simp only [he, if_true] at h
            cases h
          · simp only [he, if_false, getline_none] at h
            cases h
        · rw [hg2] at h
          simp only at h
          rw [hF2] at hG2
          simp only [List.cons.injEq] at hG2
          obtain ⟨rfl, rfl⟩ := hG2
          rcases getline_fields '|' rest3 with ⟨g3, hG3, hg3⟩ |
            ⟨g3, f4, fs4, rest4, hG3, hg3, hF4⟩
          · rw [hg3] at h
            by_cases he : g3 = []
            · simp only [he, if_true] at h
              cases h
            · simp only [he, if_false] at h
              split at h
              · cases h
              · rename_i hne
                simp only [Option.some.injEq] at h
                subst h
                rw [hF3] at hG3
                simp only [List.cons.injEq] at hG3
                obtain ⟨rfl, rfl⟩ := hG3
                simp only [Bool.or_eq_true, List.isEmpty_iff, not_or] at hne
                exact ⟨[], by rw [hF0, htag], hne.1, hne.2⟩
          · rw [hg3] at h
            simp only at h
            split at h
            · cases h
            · rename_i hne
              simp only [Option.some.injEq] at h
              subst h
              rw [hF3] at hG3
              simp only [List.cons.injEq] at hG3
              obtain ⟨rfl, rfl⟩ := hG3
              simp only [Bool.or_eq_true, List.isEmpty_iff, not_or] at hne
              exact ⟨_, by rw [hF0, htag], hne.1, hne.2⟩

/-- C23: for every text whose message id field (the second of its fields
between `|`) or receiver id field (the third) is empty or absent,
`deserializeAck` returns `false`; and whenever it returns `false` the output
record is the one passed in. -/
theorem deserializeAck_rejects_empty_ids (raw : Str) (ack : AckData) :
    (((splitFields '|' raw)[1]?).getD [] = [] →
      deserializeAckInto raw ack = (false, ack)) ∧
    (((splitFields '|' raw)[2]?).getD [] = [] →
      deserializeAckInto raw ack = (false, ack)) ∧
    ((deserializeAckInto raw ack).1 = false → (deserializeAckInto raw ack).2 = ack) := by
  refine ⟨?_, ?_, ?_⟩
  · intro hempty
    cases hd : deserializeAck raw with
    | none => simp only [deserializeAckInto, hd]
    | some a =>
      obtain ⟨more, hF, h1, _⟩ := deserializeAck_fields raw a hd
      rw [hF] at hempty
      exact absurd hempty h1
  · intro hempty
    cases hd : deserializeAck raw with
    | none => simp only [deserializeAckInto, hd]
    | some a =>
      obtain ⟨more, hF, _, h2⟩ := deserializeAck_fields raw a hd
      rw [hF] at hempty
      exact absurd hempty h2
  · intro hfalse
    cases hd : deserializeAck raw with
    | none => simp only [deserializeAckInto, hd]
    | some a =>
      simp only [deserializeAckInto, hd] at hfalse
      cases hfalse

/-- C23, witness: `ACK||B|t`, whose message id field is empty, is rejected and
the output record is left as it was. -/
theorem deserializeAck_rejects_empty_ids_witness :
    deserializeAckInto "ACK||B|t".toList
        { messageId := "old".toList, receiverId := "Z".toList, timestamp := [] } =
      (false, { messageId := "old".toList, receiverId := "Z".toList, timestamp := [] }) :=
  (deserializeAck_rejects_empty_ids "ACK||B|t".toList
    { messageId := "old".toList, receiverId := "Z".toList, timestamp := [] }).1 (by decide)

/-! ### Facts about the connection handler -/

theorem processMessageThrows_none (env : RouterEnv) (raw clientId : Str) (s : ServerState)
    (h : processMessageThrows raw clientId s = true) :
    processMessageByClientId env raw clientId s = none := by
  simp only [processMessageThrows, Bool.and_eq_true, decide_eq_true_eq,
    Option.isNone_iff_eq_none] at h
  obtain ⟨⟨h1, h2⟩, h3⟩ := h
  unfold processMessageByClientId
  simp only [h1, if_true, h2]
  cases hf : find ':' clientId with
  | none => simp [hf] at h3
  | some colon =>
    simp only [hf, Option.isNone_iff_eq_none] at h3
    simp only [h3]

theorem deliverTrace_state (env : DeliverEnv) (client : Nat) (userId : Str) (fuel : Nat) :
    ∀ (attempt failed : Nat) (s : ServerState),
      (deliverTrace env client userId fuel attempt failed s).map Prod.snd =
        deliverLoop env client userId fuel attempt failed s := by
  induction fuel with
  | zero => intro attempt failed s; rfl
  | succ fuel ih =>
    intro attempt failed s
    simp only [deliverTrace, deliverLoop]
    split
    · rfl
    · cases hs : sendMessageWithAck (env.attempts attempt) (some client)
          ((queueOf userId s.m_offlineMessages).headD []) s with
      | none => rfl
      | some p =>
        obtain ⟨b, s1⟩ := p
        cases b with
        | true =>
          simp only [Option.map_map]
          rw [← ih]
          rfl
        | false =>
          simp only
          split
          · rfl
          · simp only [Option.map_map]
            rw [← ih]
            rfl

theorem handleAcks_total (acks : List (Str × Option Nat)) :
    ∀ s : ServerState, AcksRegistered s.m_activeClients acks →
      ∃ s1, handleAcks acks s = some s1 := by
  induction acks with
  | nil => intro s _; exact ⟨s, rfl⟩
  | cons e rest ih =>
    intro s hreg
    obtain ⟨frame, sender⟩ := e
    obtain ⟨i, hi1, hi2⟩ := hreg (frame, sender) (List.mem_cons_self _ _)
    simp only at hi1
    subst hi1
    have hget : s.m_activeClients[i]? = some s.m_activeClients[i] :=
      List.getElem?_eq_getElem hi2
    have h1 : ∃ s1, handleAck frame (some i) s = some s1 := by
      unfold handleAck
      split
      · exact ⟨_, rfl⟩
      · simp only [Option.some_bind, hget]
        split
        · exact ⟨_, rfl⟩
        · split <;> exact ⟨_, rfl⟩
    obtain ⟨s1, h1⟩ := h1
    have hc := (handleAck_frame _ _ _ _ h1).2.1
    have hreg1 : AcksRegistered s1.m_activeClients rest := by
      intro e he
      rw [hc]
      exact hreg e (List.mem_cons_of_mem _ he)
    obtain ⟨s2, h2⟩ := ih s1 hreg1
    exact ⟨s2, by simp only [handleAcks, h1, h2]⟩

theorem sendMessageWithAck_total (env : SendEnv) (target : Nat) (message : Str)
    (s : ServerState) (tc : ClientSession) (hc : s.m_activeClients[target]? = some tc)
    (hreg : AcksRegistered s.m_activeClients env.acks) :
    ∃ b s1, sendMessageWithAck env (some target) message s = some (b, s1) := by
  cases hconn : tc.connected with
  | false => exact ⟨false, s, by simp [sendMessageWithAck, hc, hconn]⟩
  | true =>
    by_cases hty : parseProtocolType message = PType.Message
    · cases hd : deserializeMessage env.nowDecode message with
      | none => exact ⟨false, s, by simp [sendMessageWithAck, hc, hconn, hty, hd]⟩
      | some decoded =>
        rw [sendMessageWithAck_message env target message s tc decoded hc hconn hty hd]
        split
        · exact ⟨_, _, rfl⟩
        · have hreg2 : AcksRegistered
              (registerPending env target message decoded s).m_activeClients env.acks := by
            rw [show (registerPending env target message decoded s).m_activeClients =
              s.m_activeClients from (afterIdAssignment_frame env s decoded).1]
            exact hreg
          obtain ⟨s2, h2⟩ := handleAcks_total env.acks _ hreg2
          rw [h2]
          exact ⟨_, _, rfl⟩
    · simp only [sendMessageWithAck, hc, hconn, hty, Bool.not_true, Bool.false_eq_true,
        if_false]
      split
      · split <;> exact ⟨_, _, rfl⟩
      · exact ⟨_, _, rfl⟩

theorem failedAfter_cons (failed : Nat) (b : Bool) (rest : List Bool) :
    failedAfter failed (b :: rest) = failedAfter (if b then 0 else failed + 1) rest := by
  cases b <;> rfl

/-- The loop of `deliverOfflineMessages`, from any round on: with enough fuel it
returns, the sessions and the queues of the other users are untouched, the
queue of the user has lost one front entry per successful attempt, and the
loop has stopped exactly when the queue became empty or the counter of
consecutive failures reached 3. -/
theorem deliverTrace_spec (env : DeliverEnv) (client : Nat) (userId : Str)
    (c : ClientSession) (fuel : Nat) :
    ∀ (attempt failed : Nat) (s : ServerState) (q : List Str),
      queueOf userId s.m_offlineMessages = q →
      s.m_activeClients[client]? = some c →
      (∀ n, AcksRegistered s.m_activeClients (env.attempts n).acks) →
      failed < 3 → 3 * q.length ≤ fuel + failed →
      ∃ outcomes s1, deliverTrace env client userId fuel attempt failed s = some (outcomes, s1) ∧
        s1.m_activeClients = s.m_activeClients ∧
        queueOf userId s1.m_offlineMessages = q.drop (outcomes.count true) ∧
        (∀ other, other ≠ userId →
          mfind other s1.m_offlineMessages = mfind other s.m_offlineMessages) ∧
        (q.drop (outcomes.count true) = [] ∨ 3 ≤ failedAfter failed outcomes) ∧
        (∀ k, k < outcomes.length →
          q.drop ((outcomes.take k).count true) ≠ [] ∧
            failedAfter failed (outcomes.take k) < 3) := by
  induction fuel with
  | zero =>
    intro attempt failed s q hq _ _ hf hfuel
    have hq0 : q = [] := by
      cases q with
      | nil => rfl
      | cons a l => simp only [List.length_cons] at hfuel; omega
    refine ⟨[], s, rfl, rfl, ?_, fun _ _ => rfl, Or.inl ?_, ?_⟩
    · rw [hq]; rfl
    · rw [hq0]; rfl
    · intro k hk
      cases hk
  | succ fuel ih =>
    intro attempt failed s q hq hc hreg hf hfuel
    cases q with
    | nil =>
      refine ⟨[], s, ?_, rfl, ?_, fun _ _ => rfl, Or.inl rfl, ?_⟩
      · simp only [deliverTrace, hq, List.isEmpty_nil, Bool.true_or, if_true]
      · rw [hq]; rfl
      · intro k hk
        cases hk
    | cons front rest =>
      have hcond : ((front :: rest).isEmpty || decide (failed ≥ 3)) = false := by
        simp only [List.isEmpty_cons, Bool.false_or, decide_eq_false_iff_not, ge_iff_le, not_le]
        exact hf
      obtain ⟨b, s1, hsend⟩ := sendMessageWithAck_total (env.attempts attempt) client front s c
        hc (hreg attempt)
      have hfr := sendMessageWithAck_frame _ _ _ _ _ _ hsend
      simp only [deliverTrace, hq, hcond, Bool.false_eq_true, if_false, List.headD_cons, hsend]
      simp only [List.length_cons] at hfuel
      cases b with
      | true =>
        simp only
        have hq2 : queueOf userId
            ({ s1 with m_offlineMessages :=
                (massign userId (queueOf userId s1.m_offlineMessages).tail
                  s1.m_offlineMessages) } : ServerState).m_offlineMessages = rest := by
          simp only [queueOf_massign_self, hfr.1, hq, List.tail_cons]
        obtain ⟨outcomes, s2, h2, k1, k2, k3, k4, k5⟩ :=
          ih (attempt + 1) 0 _ rest hq2 (by simp only [hfr.2]; exact hc)
            (by intro n; simp only [hfr.2]; exact hreg n) (by omega) (by omega)
        refine ⟨true :: outcomes, s2, by rw [h2]; rfl, k1.trans hfr.2, ?_, ?_, ?_, ?_⟩
        · rw [k2]
          simp only [List.count_cons_self, List.drop_succ_cons]
        · intro other ho
          rw [k3 other ho]
          simp only
          rw [mfind_massign_of_ne _ _ _ _ ho, hfr.1]
        · simp only [List.count_cons_self, List.drop_succ_cons, failedAfter_cons, if_true]
          exact k4
        · intro k hk
          cases k with
          | zero =>
            simp only [List.take_zero, List.count_nil, List.drop_zero, ne_eq, reduceCtorEq,
              not_false_eq_true, true_and]
            exact hf
          | succ n =>
            simp only [List.length_cons, Nat.add_lt_add_iff_right] at hk
            simp only [List.take_succ_cons, List.count_cons_self, List.drop_succ_cons,
              failedAfter_cons, if_true]
            exact k5 n hk
      | false =>
        simp only
        by_cases h3 : failed + 1 ≥ 3
        · simp only [h3, if_true]
          refine ⟨[false], s1, rfl, hfr.2, ?_, ?_, Or.inr ?_, ?_⟩
          · simp only [List.count_cons_of_ne (by decide : true ≠ false), List.count_nil,
              List.drop_zero, hfr.1, hq]
          · intro other _
            rw [hfr.1]
          · simp only [failedAfter, List.foldl_cons, Bool.false_eq_true, if_false, List.foldl_nil]
            exact h3
          · intro k hk
            simp only [List.length_singleton, Nat.lt_one_iff] at hk
            subst hk
            simp only [List.take_zero, List.count_nil, List.drop_zero, ne_eq, reduceCtorEq,
              not_false_eq_true, true_and]
            exact hf
        · simp only [h3, if_false]
          have hq2 : queueOf userId s1.m_offlineMessages = front :: rest := by
            rw [hfr.1, hq]
          obtain ⟨outcomes, s2, h2, k1, k2, k3, k4, k5⟩ :=
            ih (attempt + 1) (failed + 1) s1 (front :: rest) hq2 (by rw [hfr.2]; exact hc)
              (by intro n; rw [hfr.2]; exact hreg n) (by omega)
              (by simp only [List.length_cons]; omega)
          refine ⟨false :: outcomes, s2, by rw [h2]; rfl, k1.trans hfr.2, ?_, ?_, ?_, ?_⟩
          · rw [k2]
            simp only [List.count_cons_of_ne (by decide : true ≠ false)]
          · intro other ho
            rw [k3 other ho, hfr.1]
          · simp only [List.count_cons_of_ne (by decide : true ≠ false), failedAfter_cons,
              Bool.false_eq_true, if_false]
            exact k4
          · intro k hk
            cases k with
            | zero =>
              simp only [List.take_zero, List.count_nil, List.drop_zero, ne_eq, reduceCtorEq,
                not_false_eq_true, true_and]
              exact hf
            | succ n =>
              simp only [List.length_cons, Nat.add_lt_add_iff_right] at hk
              simp only [List.take_succ_cons, List.count_cons_of_ne (by decide : true ≠ false),
                failedAfter_cons, Bool.false_eq_true, if_false]
              exact k5 n hk

/-- C25: for a user who is logged in on a registered, connected session and has
a non-empty offline queue `q`, whatever the outcomes of the socket writes and
whatever acknowledgments arrive from registered sessions during the
attempts, `deliverOfflineMessages` returns. When the notification cannot be
sent nothing changes. Otherwise, with `outcomes` the results of its
`sendMessageWithAck` calls in order: the queue left is `q` without as many front
entries as there were successful attempts (a suffix of `q`, in order, with
the entry of a failed attempt still in it), the queues of the other users are
untouched, and the loop stopped exactly at the first point where the queue
was empty or three attempts in a row had failed. -/
theorem deliverOfflineMessages_drains_front (env : DeliverEnv) (userId : Str)
    (s : ServerState) (q : List Str) (client : Nat) (c : ClientSession)
    (hq : mfind userId s.m_offlineMessages = some q) (hne : q ≠ [])
    (hfind : findUserById userId s.m_activeClients = some client)
    (hc : s.m_activeClients[client]? = some c) (hconn : c.connected = true)
    (hreg : ∀ n, AcksRegistered s.m_activeClients (env.attempts n).acks) :
    (sendPipeMessage env.notifyWire
        ("RESPONSE|OFFLINE_MESSAGES|COUNT|".toList ++ (Nat.repr q.length).toList ++
          "|离线消息准备投递".toList) = false →
      deliverOfflineMessages env userId s = some s) ∧
    (sendPipeMessage env.notifyWire
        ("RESPONSE|OFFLINE_MESSAGES|COUNT|".toList ++ (Nat.repr q.length).toList ++
          "|离线消息准备投递".toList) = true →
      ∃ outcomes sLoop s1,
        deliverTrace env client userId (3 * q.length + 3) 0 0 s = some (outcomes, sLoop) ∧
        deliverOfflineMessages env userId s = some s1 ∧
        queueOf userId s1.m_offlineMessages = q.drop (outcomes.count true) ∧
        (∀ other, other ≠ userId →
          mfind other s1.m_offlineMessages = mfind other s.m_offlineMessages) ∧
        (q.drop (outcomes.count true) = [] ∨ 3 ≤ failedAfter 0 outcomes) ∧
        (∀ k, k < outcomes.length →
          q.drop ((outcomes.take k).count true) ≠ [] ∧
            failedAfter 0 (outcomes.take k) < 3)) := by
  have hemp : q.isEmpty = false := by
    cases q with
    | nil => exact absurd rfl hne
    | cons a l => rfl
  have hany : (s.m_activeClients[client]?).any (·.connected) = true := by
    rw [hc]
    simpa using hconn
  constructor
  · intro hwire
    simp only [deliverOfflineMessages, hq, hemp, Bool.false_eq_true, if_false, hfind, hany,
      if_true, hwire, Bool.not_false]
  · intro hwire
    obtain ⟨outcomes, sLoop, h1, _, h3, h4, h5, h6⟩ :=
      deliverTrace_spec env client userId c (3 * q.length + 3) 0 0 s q
        (by simp only [queueOf, hq, Option.getD_some]) hc hreg (by decide) (by omega)
    have hloop : deliverLoop env client userId (3 * q.length + 3) 0 0 s = some sLoop := by
      rw [← deliverTrace_state, h1]
      rfl
    simp only [deliverOfflineMessages, hq, hemp, Bool.false_eq_true, if_false, hfind, hany,
      if_true, hwire, Bool.not_true, hloop]
    by_cases hend : (queueOf userId sLoop.m_offlineMessages).isEmpty = true
    · simp only [hend, if_true]
      refine ⟨outcomes, sLoop, _, h1, rfl, ?_, ?_, h5, h6⟩
      · simp only [queueOf_merase_self]
        rw [← h3]
        exact (List.isEmpty_iff.1 hend).symm
      · intro other ho
        simp only
        rw [mfind_merase_of_ne _ _ _ ho]
        exact h4 other ho
    · simp only [hend, Bool.false_eq_true, if_false]
      exact ⟨outcomes, sLoop, sLoop, h1, rfl, h3, h4, h5, h6⟩

/-- C25, witness: the two queued messages of `B` are delivered to a session
that acknowledges the first one only. -/
theorem deliverOfflineMessages_drains_front_witness :
      ∃ outcomes sLoop s1,
        deliverTrace firstAckEnv 1 "B".toList (3 * 2 + 3) 0 0 backlogServer =
          some (outcomes, sLoop) ∧
        deliverOfflineMessages firstAckEnv "B".toList backlogServer = some s1 ∧
        queueOf "B".toList s1.m_offlineMessages =
          ["MESSAGE|1|A|B|hi|t".toList, "MESSAGE|2|C|B|yo|t".toList].drop
            (outcomes.count true) ∧
        (∀ other, other ≠ "B".toList →
          mfind other s1.m_offlineMessages = mfind other backlogServer.m_offlineMessages) ∧
        (["MESSAGE|1|A|B|hi|t".toList, "MESSAGE|2|C|B|yo|t".toList].drop
            (outcomes.count true) = [] ∨ 3 ≤ failedAfter 0 outcomes) ∧
        (∀ k, k < outcomes.length →
          ["MESSAGE|1|A|B|hi|t".toList, "MESSAGE|2|C|B|yo|t".toList].drop
              ((outcomes.take k).count true) ≠ [] ∧
            failedAfter 0 (outcomes.take k) < 3) :=
  (deliverOfflineMessages_drains_front firstAckEnv "B".toList backlogServer
    ["MESSAGE|1|A|B|hi|t".toList, "MESSAGE|2|C|B|yo|t".toList] 1
    { ip := "10.0.0.2".toList, port := 5002, userId := "B".toList, isLoggedIn := true,
      connected := true }
    (by decide) (by decide) (by decide) (by decide) (by decide)
    (by
      intro n e he
      by_cases hn : n = 0
      · have h2 : e = ("ACK|1|B|t".toList, some 1) := by
          simpa [firstAckEnv, quietEnv, hn] using he
        exact ⟨1, by rw [h2], by decide⟩
      · simp [firstAckEnv, quietEnv, hn] at he)).2 (by decide)

/-! ### Facts about the message id of a stored copy -/

/-- For every frame that decodes as a Message with a non-empty
message id, whose receiver is an online, connected session and for which
`sendMessageWithAck` fails: the text appended to the offline queue of the
receiver is the very text `sendMessageWithAck` handed to the receiver's socket,
and it decodes, whatever the clock, to the message id of the frame. -/
theorem stored_copy_keeps_message_id (env : RouterEnv) (raw : Str) (cur : Nat)
    (s s1 : ServerState) (m : MessageData) (r : Nat) (rc : ClientSession)
    (hd : deserializeMessage env.nowDecode raw = some m)
    (hid : m.messageId ≠ [])
    (hon : findUserById m.receiverId s.m_activeClients = some r)
    (hrc : s.m_activeClients[r]? = some rc) (hconn : rc.connected = true)
    (hfail : sendMessageWithAck env.send (some r) (serializeMessage env.nowEncode m) s =
      some (false, s1)) :
    ∃ reply s2 stored, processMessage env raw (some cur) s = some (reply, s2) ∧
      queueOf m.receiverId s2.m_offlineMessages =
        enqueued (queueOf m.receiverId s.m_offlineMessages) stored ∧
      stored = transmittedText env.send s (serializeMessage env.nowEncode m) ∧
      ∀ now, (deserializeMessage now stored).map (·.messageId) = some m.messageId := by
  obtain ⟨_, hv, _⟩ := deserializeMessage_some _ _ _ hd
  have hacc := serializeMessage_accepted env.nowEncode m hv
  have hfr := sendMessageWithAck_frame _ _ _ _ _ _ hfail
  obtain ⟨m2, hd2, hid2, _⟩ :=
    deserializeMessage_serializeMessage env.nowDecode env.nowEncode env.send.nowDecode raw m hd
  have hne2 : m2.messageId.isEmpty = false := by
    rw [hid2]
    cases h : m.messageId with
    | nil => exact absurd h hid
    | cons a l => rfl
  refine ⟨"RESPONSE|ERROR|SEND_FAILED|转发失败，已保存为离线消息".toList,
    storeOfflineMessage m.receiverId (serializeMessage env.nowEncode m) s1,
    serializeMessage env.nowEncode m, ?_, ?_, ?_, ?_⟩
  · rw [processMessage_online_receiver env raw cur s s1 m r rc false hd hon hrc hconn hfail]
    rfl
  · rw [storeOfflineMessage_queue _ _ _ hacc, hfr.1]
    rfl
  · simp only [transmittedText, hd2, outgoingText, hne2, Bool.false_eq_true, if_false]
  · intro now
    obtain ⟨m3, hd3, hid3, _⟩ :=
      deserializeMessage_serializeMessage env.nowDecode env.nowEncode now raw m hd
    rw [hd3]
    simp only [Option.map_some', hid3]

/-- An instance: `MESSAGE|1|A|B|hi|t` routed while the socket write to the
session of `B` fails. -/
theorem stored_copy_keeps_message_id_witness :
    ∃ reply s2 stored,
      processMessage brokenWireEnv "MESSAGE|1|A|B|hi|t".toList (some 0) idleServer =
        some (reply, s2) ∧
      queueOf "B".toList s2.m_offlineMessages =
        enqueued (queueOf "B".toList idleServer.m_offlineMessages) stored ∧
      stored = transmittedText brokenWireEnv.send idleServer
        (serializeMessage brokenWireEnv.nowEncode
          { messageId := "1".toList, senderId := "A".toList, receiverId := "B".toList,
            content := "hi".toList, timestamp := "t".toList }) ∧
      ∀ now, (deserializeMessage now stored).map (·.messageId) = some "1".toList :=
  stored_copy_keeps_message_id brokenWireEnv "MESSAGE|1|A|B|hi|t".toList 0 idleServer
    idleServer
    { messageId := "1".toList, senderId := "A".toList, receiverId := "B".toList,
      content := "hi".toList, timestamp := "t".toList } 1
    { ip := "10.0.0.2".toList, port := 5002, userId := "B".toList, isLoggedIn := true,
      connected := true }
    (by decide) (by decide) (by decide) (by decide) (by decide) (by decide)

/-- C26: the frame `MESSAGE||A|B|hi|t`, whose message id field is
empty, is routed to `B`, who is online and connected and does not acknowledge.
`sendMessageWithAck` generates the id `1735689600000_1` and hands
`MESSAGE|1735689600000_1|A|B|hi|t` to the socket of `B` (it is the payload of the
pending delivery it registers); the router then stores the text it had
built before that call, `MESSAGE||A|B|hi|t`, whose message id is empty. -/
theorem stored_copy_lacks_generated_id :
    serializeMessage quietEnv.nowEncode
        { messageId := [], senderId := "A".toList, receiverId := "B".toList,
          content := "hi".toList, timestamp := "t".toList } = "MESSAGE||A|B|hi|t".toList ∧
    transmittedText quietEnv.send idleServer "MESSAGE||A|B|hi|t".toList =
      "MESSAGE|1735689600000_1|A|B|hi|t".toList ∧
    (registerPending quietEnv.send 1 "MESSAGE||A|B|hi|t".toList
        { messageId := [], senderId := "A".toList, receiverId := "B".toList,
          content := "hi".toList, timestamp := "t".toList }
        idleServer).m_pendingTransmissions.map (fun e => e.2.content) =
      ["MESSAGE|1735689600000_1|A|B|hi|t".toList] ∧
    (processMessage quietEnv "MESSAGE||A|B|hi|t".toList (some 0) idleServer).map
        (fun p => (p.1, queueOf "B".toList p.2.m_offlineMessages)) =
      some ("RESPONSE|ERROR|SEND_FAILED|转发失败，已保存为离线消息".toList,
        ["MESSAGE||A|B|hi|t".toList]) ∧
    (deserializeMessage clockText "MESSAGE||A|B|hi|t".toList).map (·.messageId) = some [] ∧
    (deserializeMessage clockText "MESSAGE|1735689600000_1|A|B|hi|t".toList).map
        (·.messageId) = some "1735689600000_1".toList := by
  decide

/-! ### Facts about re-encoding -/

theorem isTimestampText_line (now : Str) (h : IsTimestampText now) :
    now ≠ [] ∧ '\n' ∉ now := by
  refine ⟨h.1, fun hmem => ?_⟩
  rcases h.2 '\n' hmem with h1 | h1 | h1 | h1
  · exact absurd h1 (by decide)
  · exact absurd h1 (by decide)
  · exact absurd h1 (by decide)
  · exact absurd h1 (by decide)

/-- The timestamp of a decoded message is the clock text, or a non-empty text
without line break read from the frame. -/
theorem deserializeMessage_timestamp (now raw : Str) (m : MessageData)
    (h : deserializeMessage now raw = some m) :
    m.timestamp = now ∨ (m.timestamp ≠ [] ∧ '\n' ∉ m.timestamp) := by
  unfold deserializeMessage at h
  split at h
  · cases h
  · split at h
    · cases h
    · split at h
      · cases h
      · split at h
        · cases h
        · split at h
          · cases h
          · split at h
            · cases h
            · rename_i content iss5 h5
              have key : ∀ T : MessageData,
                  (if (!validateMessageFields T) = true then none else some T) = some m →
                    T = m := by
                intro T hT
                cases hv : validateMessageFields T
                · simp [hv] at hT
                · simp only [hv, Bool.not_true, Bool.false_eq_true, if_false,
                    Option.some.injEq] at hT
                  exact hT
              have h := key _ h
              rw [← h]
              simp only
              cases hg : getline '\n' iss5 with
              | mk a st =>
                cases a with
                | none => exact Or.inl (by simp)
                | some ts =>
                  have g := getline_some _ _ _ _ hg
                  by_cases he : ts = []
                  · exact Or.inl (by simp [he])
                  · refine Or.inr ?_
                    have hemp : ts.isEmpty = false := by
                      cases ts with
                      | nil => exact absurd rfl he
                      | cons x l => rfl
                    simp only [Option.getD_some, hemp, Bool.not_false, if_true]
                    exact ⟨he, g.1⟩

/-- C27: for every text `x`, whatever it holds after its fifth `|`, and all
clock readings: if `deserializeMessage` accepts `x` and gives the record `m`, then
`serializeMessage m` is not empty and `deserializeMessage` accepts it and gives `m`
again, in all five fields. -/
theorem reencoding_is_stable (now1 now2 now3 x : Str) (m : MessageData)
    (hclock : IsTimestampText now1)
    (hd : deserializeMessage now1 x = some m) :
    serializeMessage now2 m ≠ [] ∧
      deserializeMessage now3 (serializeMessage now2 m) = some m := by
  obtain ⟨_, hv, p1, p2, p3, p4⟩ := deserializeMessage_some _ _ _ hd
  have hts : m.timestamp ≠ [] ∧ '\n' ∉ m.timestamp := by
    rcases deserializeMessage_timestamp _ _ _ hd with h | h
    · rw [h]
      exact isTimestampText_line now1 hclock
    · exact h
  have he : m.timestamp.isEmpty = false := by
    cases h : m.timestamp with
    | nil => exact absurd h hts.1
    | cons a l => rfl
  rw [serializeMessage_of_valid now2 m hv]
  refine ⟨by simp, ?_⟩
  simp only [he, Bool.false_eq_true, if_false]
  rw [deserializeMessage_canonical now3 _ _ _ _ _ p1 p2 p3 p4
    ((validateMessageFields_iff m).1 hv), getline_last _ _ hts.2]
  simp [hts.1, he]

/-- C27, witness: `MESSAGE|1|A|B|hi|t|u`, whose trailing part holds a `|`. -/
theorem reencoding_is_stable_witness :
    serializeMessage clockText
        { messageId := "1".toList, senderId := "A".toList, receiverId := "B".toList,
          content := "hi".toList, timestamp := "t|u".toList } ≠ [] ∧
      deserializeMessage clockText
        (serializeMessage clockText
          { messageId := "1".toList, senderId := "A".toList, receiverId := "B".toList,
            content := "hi".toList, timestamp := "t|u".toList }) =
        some { messageId := "1".toList, senderId := "A".toList, receiverId := "B".toList,
               content := "hi".toList, timestamp := "t|u".toList } :=
  reencoding_is_stable clockText clockText clockText "MESSAGE|1|A|B|hi|t|u".toList
    { messageId := "1".toList, senderId := "A".toList, receiverId := "B".toList,
      content := "hi".toList, timestamp := "t|u".toList }
    ⟨by decide, by decide⟩ (by decide)

/-! ### Facts about the payloads of the offline store -/

/-- C29: the frame `LOGIN|`, sent from the address `10.0.0.2:5002` of a registered
session that is not logged in, is rejected by `processMessage(rawMessage, clientId)` with
`RESPONSE|ERROR|LOGIN_FAILED|登录失败：无效的用户ID`, and that session is
logged in with an empty user id afterwards. Sent from the address of the
session logged in as `A`, the same frame is rejected too, and the user id
bound to that session is empty afterwards. The three-argument router, given
the same frame, leaves the state as it was. -/
theorem rejected_login_marks_session_logged_in :
    findClientByAddr "10.0.0.2:5002".toList lobbyServer.m_activeClients = some 1 ∧
    lobbyServer.m_activeClients[1]?.map (fun c => (c.userId, c.isLoggedIn)) =
      some ([], false) ∧
    (processMessageByClientId quietEnv "LOGIN|".toList "10.0.0.2:5002".toList lobbyServer).map
        (fun p => (p.1, p.2.m_activeClients[1]?.map (fun c => (c.userId, c.isLoggedIn)))) =
      some ("RESPONSE|ERROR|LOGIN_FAILED|登录失败：无效的用户ID".toList, some ([], true)) ∧
    "RESPONSE|ERROR|LOGIN_FAILED|".toList <+:
      "RESPONSE|ERROR|LOGIN_FAILED|登录失败：无效的用户ID".toList ∧
    lobbyServer.m_activeClients[0]?.map (fun c => (c.userId, c.isLoggedIn)) =
      some ("A".toList, true) ∧
    (processMessageByClientId quietEnv "LOGIN|".toList "10.0.0.1:5001".toList lobbyServer).map
        (fun p => (p.1, p.2.m_activeClients[0]?.map (fun c => (c.userId, c.isLoggedIn)))) =
      some ("RESPONSE|ERROR|LOGIN_FAILED|登录失败：无效的用户ID".toList, some ([], true)) ∧
    processMessage quietEnv "LOGIN|".toList (some 1) lobbyServer =
      some ("RESPONSE|ERROR|LOGIN_FAILED|登录失败：无效的用户ID".toList, lobbyServer) := by
  decide

/-! ### Facts about the client's parsing of the bundled response -/

theorem isPrefixOf_true_iff (pat l : Str) : pat.isPrefixOf l = true ↔ pat <+: l :=
  List.isPrefixOf_iff_prefix

theorem findSub_cons (pat : Str) (c : Char) (cs : Str) :
    findSub pat (c :: cs) =
      if pat.isPrefixOf (c :: cs) = true then some 0 else (findSub pat cs).map (· + 1) := rfl

theorem findSub_hit (pat l : Str) (h : pat <+: l) : findSub pat l = some 0 := by
  cases l with
  | nil =>
    have : pat = [] := List.prefix_nil.1 h
    simp [findSub, this]
  | cons c cs =>
    have hp : pat.isPrefixOf (c :: cs) = true := (isPrefixOf_true_iff _ _).2 h
    simp only [findSub, hp, if_true]

theorem findSub_bound (pat : Str) (x : Str) :
    ∀ k, findSub pat x = some k → k + pat.length ≤ x.length := by
  induction x with
  | nil =>
    intro k h
    simp only [findSub] at h
    split at h
    · rename_i he
      simp only [Option.some.injEq] at h
      subst h
      simp [List.isEmpty_iff.1 he]
    · cases h
  | cons c cs ih =>
    intro k h
    simp only [findSub] at h
    split at h
    · rename_i hp
      simp only [Option.some.injEq] at h
      subst h
      have := ((isPrefixOf_true_iff _ _).1 hp).length_le
      omega
    · cases hf : findSub pat cs with
      | none => rw [hf] at h; cases h
      | some j =>
        rw [hf] at h
        simp only [Option.map_some', Option.some.injEq] at h
        subst h
        have := ih j hf
        simp only [List.length_cons]
        omega

/-- The first occurrence of a text stays the first one when more text is
appended. -/
theorem findSub_extend (pat : Str) (x y : Str) :
    ∀ k, findSub pat x = some k → findSub pat (x ++ y) = some k := by
  induction x with
  | nil =>
    intro k h
    simp only [findSub] at h
    split at h
    · rename_i he
      simp only [Option.some.injEq] at h
      subst h
      rw [List.isEmpty_iff.1 he]
      exact findSub_hit [] _ ⟨_, rfl⟩
    · cases h
  | cons c cs ih =>
    intro k h
    simp only [findSub] at h
    split at h
    · rename_i hp
      simp only [Option.some.injEq] at h
      subst h
      exact findSub_hit pat _
        (((isPrefixOf_true_iff _ _).1 hp).trans (List.prefix_append _ _))
    · rename_i hp
      cases hf : findSub pat cs with
      | none => rw [hf] at h; cases h
      | some j =>
        rw [hf] at h
        simp only [Option.map_some', Option.some.injEq] at h
        subst h
        have hb := findSub_bound pat cs j hf
        have hnp : ¬ pat.isPrefixOf (c :: (cs ++ y)) = true := by
          intro hc
          have h1 : pat <+: (c :: cs) ++ y := (isPrefixOf_true_iff _ _).1 hc
          have h2 : (c :: cs) <+: (c :: cs) ++ y := List.prefix_append _ _
          have h3 : pat <+: (c :: cs) :=
            List.prefix_of_prefix_length_le h1 h2 (by simp only [List.length_cons]; omega)
          exact hp ((isPrefixOf_true_iff _ _).2 h3)
        rw [List.cons_append, findSub_cons, if_neg hnp, ih j hf]
        rfl

theorem tag_head_field (f rest : Str) (hf : '|' ∉ f)
    (h : "MESSAGE|".toList <+: f ++ '|' :: rest) : f = "MESSAGE".toList := by
  obtain ⟨more, hm⟩ := h
  have h1 := readUntil_append '|' f rest hf
  have h2 := readUntil_append '|' "MESSAGE".toList more (by decide)
  have e : "MESSAGE".toList ++ '|' :: more = f ++ '|' :: rest := by
    rw [← hm]
    rfl
  rw [e, h1] at h2
  exact (congrArg Prod.fst h2)

/-- No `MESSAGE|` begins inside a field that does not end with `MESSAGE`. -/
theorem findSub_skip_field (f rest : Str) (hf : '|' ∉ f)
    (hs : ¬ "MESSAGE".toList <:+ f) :
    findSub "MESSAGE|".toList (f ++ '|' :: rest) =
      (findSub "MESSAGE|".toList rest).map (· + (f.length + 1)) := by
  induction f with
  | nil =>
    have hnp : ¬ "MESSAGE|".toList.isPrefixOf ('|' :: rest) = true := by
      simp [List.isPrefixOf]
    rw [List.nil_append, findSub_cons, if_neg hnp]
    rfl
  | cons c cs ih =>
    have hcs : '|' ∉ cs := fun e => hf (List.mem_cons_of_mem _ e)
    have hs2 : ¬ "MESSAGE".toList <:+ cs := fun e => hs (e.trans (List.suffix_cons c cs))
    have hnp : ¬ "MESSAGE|".toList.isPrefixOf (c :: (cs ++ '|' :: rest)) = true := by
      intro hc
      have := tag_head_field (c :: cs) rest hf ((isPrefixOf_true_iff _ _).1 hc)
      exact hs (by rw [this])
    rw [List.cons_append, findSub_cons, if_neg hnp, ih hcs hs2, Option.map_map]
    cases findSub "MESSAGE|".toList rest with
    | none => rfl
    | some k => rfl

theorem findSub_no_delim (f : Str) (hf : '|' ∉ f) : findSub "MESSAGE|".toList f = none := by
  induction f with
  | nil => rfl
  | cons c cs ih =>
    have hcs : '|' ∉ cs := fun e => hf (List.mem_cons_of_mem _ e)
    have hnp : ¬ "MESSAGE|".toList.isPrefixOf (c :: cs) = true := by
      intro hc
      obtain ⟨more, hm⟩ := (isPrefixOf_true_iff _ _).1 hc
      apply hf
      rw [← hm]
      simp
    rw [findSub_cons, if_neg hnp, ih hcs]
    rfl

/-- The text made of the given fields, each followed by `|`. -/
theorem findSub_skip_fields (fields : List Str) (rest : Str)
    (h : ∀ f ∈ fields, '|' ∉ f ∧ ¬ "MESSAGE".toList <:+ f) :
    findSub "MESSAGE|".toList ((fields.map (fun f => f ++ "|".toList)).flatten ++ rest) =
      (findSub "MESSAGE|".toList rest).map
        (· + ((fields.map (fun f => f ++ "|".toList)).flatten).length) := by
  induction fields with
  | nil => simp
  | cons f fs ih =>
    have hf := h f (List.mem_cons_self _ _)
    have hfs := ih (fun g hg => h g (List.mem_cons_of_mem _ hg))
    simp only [List.map_cons, List.flatten_cons, List.append_assoc]
    have e : f ++ ("|".toList ++ ((fs.map (fun f => f ++ "|".toList)).flatten ++ rest)) =
        f ++ '|' :: ((fs.map (fun f => f ++ "|".toList)).flatten ++ rest) := rfl
    rw [e, findSub_skip_field f _ hf.1 hf.2, hfs, Option.map_map]
    cases findSub "MESSAGE|".toList rest with
    | none => rfl
    | some k =>
      simp only [Option.map_some', Function.comp, Option.some.injEq, List.length_append,
        String.toList, List.length_cons, List.length_nil]
      omega

theorem find_cons (d c : Char) (cs : Str) :
    find d (c :: cs) = if c = d then some 0 else (find d cs).map (· + 1) := rfl

theorem find_field (d : Char) (f rest : Str) (hf : d ∉ f) :
    find d (f ++ d :: rest) = some f.length := by
  induction f with
  | nil => simp [find]
  | cons c cs ih =>
    have hc : c ≠ d := fun e => hf (by simp [e])
    have hcs : d ∉ cs := fun e => hf (List.mem_cons_of_mem _ e)
    rw [List.cons_append, find_cons, if_neg hc, ih hcs]
    rfl

theorem find_none_of_not_mem (d : Char) (f : Str) (hf : d ∉ f) : find d f = none := by
  induction f with
  | nil => rfl
  | cons c cs ih =>
    have hc : c ≠ d := fun e => hf (by simp [e])
    have hcs : d ∉ cs := fun e => hf (List.mem_cons_of_mem _ e)
    simp only [find, hc, if_false, ih hcs, Option.map_none']

theorem tokenLoop_field (fuel : Nat) (f rest : Str) (hf : '|' ∉ f) :
    tokenLoop (fuel + 1) (f ++ '|' :: rest) =
      (tokenLoop fuel rest).map (fun tokens => f :: tokens) := by
  have hne : (f ++ '|' :: rest).isEmpty = false := by
    cases f <;> rfl
  simp only [tokenLoop, hne, Bool.false_eq_true, if_false, find_field '|' f rest hf]
  have h1 : (f ++ '|' :: rest).take f.length = f := List.take_left' rfl
  have h2 : (f ++ '|' :: rest).drop (f.length + 1) = rest := by
    rw [← List.drop_drop, List.drop_left' rfl]
    rfl
  rw [h1, h2]

theorem tokenLoop_last (fuel : Nat) (f : Str) (hf : '|' ∉ f) (hne : f ≠ []) :
    tokenLoop (fuel + 1) f = some [f] := by
  have he : f.isEmpty = false := by
    cases f with
    | nil => exact absurd rfl hne
    | cons a l => rfl
  simp only [tokenLoop, he, Bool.false_eq_true, if_false, find_none_of_not_mem '|' f hf]

theorem tokenLoop_nil (fuel : Nat) : tokenLoop (fuel + 1) [] = some [] := rfl

/-- The tokens of a text made of fields each followed by `|`, then a last
field. -/
theorem tokenLoop_fields (fields : List Str) (last : Str)
    (h : ∀ f ∈ fields, '|' ∉ f) (hl : '|' ∉ last) :
    ∀ fuel, fields.length < fuel →
      tokenLoop fuel ((fields.map (fun f => f ++ "|".toList)).flatten ++ last) =
        some (fields ++ (if last = [] then [] else [last])) := by
  induction fields with
  | nil =>
    intro fuel hfuel
    obtain ⟨k, rfl⟩ : ∃ k, fuel = k + 1 := ⟨fuel - 1, by simp at hfuel; omega⟩
    by_cases hne : last = []
    · simp only [hne, List.map_nil, List.flatten_nil, List.append_nil, if_true]
      rfl
    · simp only [List.map_nil, List.flatten_nil, List.nil_append, hne, if_false]
      exact tokenLoop_last k last hl hne
  | cons f fs ih =>
    intro fuel hfuel
    obtain ⟨k, rfl⟩ : ∃ k, fuel = k + 1 := ⟨fuel - 1, by simp at hfuel; omega⟩
    have hf := h f (List.mem_cons_self _ _)
    have e : ((f :: fs).map (fun f => f ++ "|".toList)).flatten ++ last =
        f ++ '|' :: ((fs.map (fun f => f ++ "|".toList)).flatten ++ last) := by
      simp only [List.map_cons, List.flatten_cons, List.append_assoc]
      rfl
    rw [e, tokenLoop_field k f _ hf,
      ih (fun g hg => h g (List.mem_cons_of_mem _ hg)) k
        (by simp only [List.length_cons] at hfuel; omega)]
    rfl

theorem noTag_suffix (f : Str) (h : NoTag f) : ¬ "MESSAGE".toList <:+ f :=
  fun e => h e.isInfix

theorem extractLoop_last_round (clock : Str → Str) (fuel : Nat) (tail : Str) (tokens : List Str)
    (h1 : findSub "MESSAGE|".toList (tail.drop 1) = none)
    (h2 : tokenLoop (tail.length + 1) tail = some tokens) :
    extractLoop clock (fuel + 1) tail = some (extractPart (clock tail) tail tokens) := by
  simp only [extractLoop, h1, h2]

theorem extractLoop_next_round (clock : Str → Str) (fuel : Nat) (tail : Str) (off : Nat)
    (tokens : List Str)
    (h1 : findSub "MESSAGE|".toList (tail.drop 1) = some off)
    (h2 : tokenLoop ((tail.take (off + 1)).length + 1) (tail.take (off + 1)) = some tokens) :
    extractLoop clock (fuel + 1) tail =
      (extractLoop clock fuel (tail.drop (off + 1))).map
        (fun later =>
          extractPart (clock (tail.take (off + 1))) (tail.take (off + 1)) tokens ++ later) := by
  simp only [extractLoop, h1, h2]

/-- The canonical text as a run of five fields, each followed by `|`, and
the timestamp. -/
theorem serializeMessage_fields (now : Str) (m : MessageData)
    (hv : validateMessageFields m = true) (hts : m.timestamp ≠ []) :
    serializeMessage now m =
      (["MESSAGE".toList, m.messageId, m.senderId, m.receiverId, m.content].map
        (fun f => f ++ "|".toList)).flatten ++ m.timestamp := by
  have he : m.timestamp.isEmpty = false := by
    cases h : m.timestamp with
    | nil => exact absurd h hts
    | cons a l => rfl
  rw [serializeMessage_of_valid now m hv, he]
  simp [List.append_assoc]

theorem extractPart_six (now part mid snd rcv cnt ts : Str) :
    extractPart now part ["MESSAGE".toList, mid, snd, rcv, cnt, ts] =
      [{ messageId := mid, senderId := snd, receiverId := rcv, content := cnt,
         timestamp := ts }] := by
  simp [extractPart, List.intercalate]

/-- The last segment of the bundle yields its record. -/
theorem extractLoop_last (clock : Str → Str) (fuel : Nat) (now : Str) (m : MessageData)
    (hv : validateMessageFields m = true) (hts : m.timestamp ≠ [])
    (hclean : ∀ f ∈ [m.messageId, m.senderId, m.receiverId, m.content, m.timestamp],
      '|' ∉ f ∧ NoTag f) :
    extractLoop clock (fuel + 1) (serializeMessage now m) = some [m] := by
  have hid := hclean m.messageId (by simp)
  have hs := hclean m.senderId (by simp)
  have hr := hclean m.receiverId (by simp)
  have hc := hclean m.content (by simp)
  have ht := hclean m.timestamp (by simp)
  have e := serializeMessage_fields now m hv hts
  have hshort : ¬ "MESSAGE".toList <:+ "ESSAGE".toList :=
    fun h => absurd h.length_le (by decide)
  have hdrop : (serializeMessage now m).drop 1 =
      (["ESSAGE".toList, m.messageId, m.senderId, m.receiverId, m.content].map
        (fun f => f ++ "|".toList)).flatten ++ m.timestamp := by
    rw [e]
    rfl
  have h1 : findSub "MESSAGE|".toList ((serializeMessage now m).drop 1) = none := by
    rw [hdrop, findSub_skip_fields _ _ (by
      intro f hf
      simp only [List.mem_cons, List.mem_singleton, List.not_mem_nil, or_false] at hf
      rcases hf with rfl | rfl | rfl | rfl | rfl
      · exact ⟨by decide, hshort⟩
      · exact ⟨hid.1, noTag_suffix _ hid.2⟩
      · exact ⟨hs.1, noTag_suffix _ hs.2⟩
      · exact ⟨hr.1, noTag_suffix _ hr.2⟩
      · exact ⟨hc.1, noTag_suffix _ hc.2⟩), findSub_no_delim _ ht.1]
    rfl
  have h2 : tokenLoop ((serializeMessage now m).length + 1) (serializeMessage now m) =
      some ["MESSAGE".toList, m.messageId, m.senderId, m.receiverId, m.content,
        m.timestamp] := by
    have hlen : 5 < (serializeMessage now m).length + 1 := by
      rw [e]
      simp only [List.map_cons, List.map_nil, List.flatten_cons, List.flatten_nil,
        List.length_append, String.toList, List.length_cons, List.length_nil]
      omega
    have := tokenLoop_fields ["MESSAGE".toList, m.messageId, m.senderId, m.receiverId,
      m.content] m.timestamp (by
        intro f hf
        simp only [List.mem_cons, List.mem_singleton, List.not_mem_nil, or_false] at hf
        rcases hf with rfl | rfl | rfl | rfl | rfl
        · decide
        · exact hid.1
        · exact hs.1
        · exact hr.1
        · exact hc.1) ht.1 ((serializeMessage now m).length + 1) hlen
    rw [← e, if_neg hts] at this
    exact this
  rw [extractLoop_last_round clock fuel _ _ h1 h2, extractPart_six]

/-- A segment followed by another one yields its record, and the loop goes on
with the text after the `|` that ends the segment. -/
theorem extractLoop_more (clock : Str → Str) (fuel : Nat) (now : Str) (m : MessageData)
    (later : Str) (hv : validateMessageFields m = true) (hts : m.timestamp ≠ [])
    (hclean : ∀ f ∈ [m.messageId, m.senderId, m.receiverId, m.content, m.timestamp],
      '|' ∉ f ∧ NoTag f)
    (hlater : "MESSAGE|".toList <+: later) :
    extractLoop clock (fuel + 1) (serializeMessage now m ++ '|' :: later) =
      (extractLoop clock fuel later).map (fun ms => m :: ms) := by
  have hid := hclean m.messageId (by simp)
  have hs := hclean m.senderId (by simp)
  have hr := hclean m.receiverId (by simp)
  have hc := hclean m.content (by simp)
  have ht := hclean m.timestamp (by simp)
  have e := serializeMessage_fields now m hv hts
  have hshort : ¬ "MESSAGE".toList <:+ "ESSAGE".toList :=
    fun h => absurd h.length_le (by decide)
  have e6 : serializeMessage now m ++ '|' :: later =
      (["MESSAGE".toList, m.messageId, m.senderId, m.receiverId, m.content,
        m.timestamp].map (fun f => f ++ "|".toList)).flatten ++ later := by
    rw [e]
    simp [List.append_assoc]
  have hdrop : (serializeMessage now m ++ '|' :: later).drop 1 =
      (["ESSAGE".toList, m.messageId, m.senderId, m.receiverId, m.content,
        m.timestamp].map (fun f => f ++ "|".toList)).flatten ++ later := by
    rw [e6]
    rfl
  have hlen : ((["ESSAGE".toList, m.messageId, m.senderId, m.receiverId, m.content,
        m.timestamp].map (fun f => f ++ "|".toList)).flatten).length =
      (serializeMessage now m).length := by
    rw [e]
    simp only [List.map_cons, List.map_nil, List.flatten_cons, List.flatten_nil,
      List.length_append, String.toList, List.length_cons, List.length_nil]
    omega
  have h1 : findSub "MESSAGE|".toList ((serializeMessage now m ++ '|' :: later).drop 1) =
      some (serializeMessage now m).length := by
    rw [hdrop, findSub_skip_fields _ _ (by
      intro f hf
      simp only [List.mem_cons, List.mem_singleton, List.not_mem_nil, or_false] at hf
      rcases hf with rfl | rfl | rfl | rfl | rfl | rfl
      · exact ⟨by decide, hshort⟩
      · exact ⟨hid.1, noTag_suffix _ hid.2⟩
      · exact ⟨hs.1, noTag_suffix _ hs.2⟩
      · exact ⟨hr.1, noTag_suffix _ hr.2⟩
      · exact ⟨hc.1, noTag_suffix _ hc.2⟩
      · exact ⟨ht.1, noTag_suffix _ ht.2⟩), findSub_hit _ _ hlater, hlen]
    simp only [Option.map_some', Nat.zero_add]
  have htake : (serializeMessage now m ++ '|' :: later).take
      ((serializeMessage now m).length + 1) = serializeMessage now m ++ "|".toList := by
    have : serializeMessage now m ++ '|' :: later =
        (serializeMessage now m ++ "|".toList) ++ later := by
      simp [List.append_assoc]
    rw [this]
    exact List.take_left' (by simp)
  have hdrop2 : (serializeMessage now m ++ '|' :: later).drop
      ((serializeMessage now m).length + 1) = later := by
    have : serializeMessage now m ++ '|' :: later =
        (serializeMessage now m ++ "|".toList) ++ later := by
      simp [List.append_assoc]
    rw [this]
    exact List.drop_left' (by simp)
  have h2 : tokenLoop (((serializeMessage now m ++ '|' :: later).take
        ((serializeMessage now m).length + 1)).length + 1)
      ((serializeMessage now m ++ '|' :: later).take ((serializeMessage now m).length + 1)) =
      some ["MESSAGE".toList, m.messageId, m.senderId, m.receiverId, m.content,
        m.timestamp] := by
    rw [htake]
    have e7 : serializeMessage now m ++ "|".toList =
        (["MESSAGE".toList, m.messageId, m.senderId, m.receiverId, m.content,
          m.timestamp].map (fun f => f ++ "|".toList)).flatten ++ [] := by
      rw [e]
      simp [List.append_assoc]
    have hl : 6 < (serializeMessage now m ++ "|".toList).length + 1 := by
      rw [e]
      simp only [List.map_cons, List.map_nil, List.flatten_cons, List.flatten_nil,
        List.length_append, String.toList, List.length_cons, List.length_nil]
      omega
    have := tokenLoop_fields ["MESSAGE".toList, m.messageId, m.senderId, m.receiverId,
      m.content, m.timestamp] [] (by
        intro f hf
        simp only [List.mem_cons, List.mem_singleton, List.not_mem_nil, or_false] at hf
        rcases hf with rfl | rfl | rfl | rfl | rfl | rfl
        · decide
        · exact hid.1
        · exact hs.1
        · exact hr.1
        · exact hc.1
        · exact ht.1) (by simp) ((serializeMessage now m ++ "|".toList).length + 1) hl
    rw [← e7] at this
    simpa using this
  rw [extractLoop_next_round clock fuel _ _ _ h1 h2, hdrop2, extractPart_six]
  rfl

theorem serializeMessage_tag (now : Str) (m : MessageData)
    (hv : validateMessageFields m = true) :
    "MESSAGE|".toList <+: serializeMessage now m := by
  rw [serializeMessage_of_valid now m hv]
  exact ⟨_, rfl⟩

theorem intercalate_cons_cons (sep x y : Str) (ys : List Str) :
    List.intercalate sep (x :: y :: ys) = x ++ sep ++ List.intercalate sep (y :: ys) := by
  rw [intercalate_cons_eq, intercalate_cons_eq]
  simp [List.append_assoc]

theorem intercalate_tag (now : Str) (m : MessageData) (ms : List MessageData)
    (hv : validateMessageFields m = true) :
    "MESSAGE|".toList <+:
      List.intercalate "|".toList ((m :: ms).map (serializeMessage now)) := by
  rw [List.map_cons, intercalate_cons_eq]
  exact (serializeMessage_tag now m hv).trans (List.prefix_append _ _)

/-- The segment loop on the joined canonical texts of a non-empty list of
records returns the records, whatever the clock, once the fuel exceeds the
length of the text. -/
theorem extractLoop_spec (clock : Str → Str) (now : Str) :
    ∀ (ms : List MessageData), ms ≠ [] →
      (∀ m ∈ ms, validateMessageFields m = true ∧ m.timestamp ≠ [] ∧
        ∀ f ∈ [m.messageId, m.senderId, m.receiverId, m.content, m.timestamp],
          '|' ∉ f ∧ NoTag f) →
      ∀ fuel, (List.intercalate "|".toList (ms.map (serializeMessage now))).length < fuel →
        extractLoop clock fuel (List.intercalate "|".toList (ms.map (serializeMessage now))) =
          some ms := by
  intro ms
  induction ms with
  | nil => intro h; exact absurd rfl h
  | cons m rest ih =>
    intro _ hall fuel hfuel
    obtain ⟨k, rfl⟩ : ∃ k, fuel = k + 1 := ⟨fuel - 1, by omega⟩
    obtain ⟨hv, hts, hclean⟩ := hall m (List.mem_cons_self _ _)
    cases rest with
    | nil =>
      have e : List.intercalate "|".toList ([m].map (serializeMessage now)) =
          serializeMessage now m := by
        simp [List.intercalate]
      rw [e]
      exact extractLoop_last clock k now m hv hts hclean
    | cons m2 r2 =>
      have hall2 : ∀ x ∈ m2 :: r2, validateMessageFields x = true ∧ x.timestamp ≠ [] ∧
          ∀ f ∈ [x.messageId, x.senderId, x.receiverId, x.content, x.timestamp],
            '|' ∉ f ∧ NoTag f := fun x hx => hall x (List.mem_cons_of_mem _ hx)
      have e : List.intercalate "|".toList ((m :: m2 :: r2).map (serializeMessage now)) =
          serializeMessage now m ++ '|' ::
            List.intercalate "|".toList ((m2 :: r2).map (serializeMessage now)) := by
        rw [List.map_cons, List.map_cons, intercalate_cons_cons, ← List.map_cons]
        simp [List.append_assoc]
      rw [e] at hfuel ⊢
      have hk : (List.intercalate "|".toList ((m2 :: r2).map (serializeMessage now))).length
          < k := by
        simp only [List.length_append, List.length_cons] at hfuel
        omega
      rw [extractLoop_more clock k now m _ hv hts hclean
        (intercalate_tag now m2 r2 (hall2 m2 (List.mem_cons_self _ _)).1),
        ih (by simp) hall2 k hk]
      rfl

theorem digitChar_isDigit : ∀ k, k < 10 → (Nat.digitChar k).isDigit = true := by
  decide

theorem toDigitsCore_digits (fuel : Nat) :
    ∀ (n : Nat) (ds : List Char), n < fuel →
      ∃ pre, Nat.toDigitsCore 10 fuel n ds = pre ++ ds ∧ pre ≠ [] ∧
        ∀ c ∈ pre, c.isDigit = true := by
  induction fuel with
  | zero => intro n ds h; omega
  | succ fuel ih =>
    intro n ds h
    have hd := digitChar_isDigit (n % 10) (Nat.mod_lt _ (by decide))
    simp only [Nat.toDigitsCore]
    by_cases h0 : n / 10 = 0
    · refine ⟨[Nat.digitChar (n % 10)], by simp [h0], by simp, ?_⟩
      intro c hc
      simp only [List.mem_singleton] at hc
      rw [hc]
      exact hd
    · have hlt : n / 10 < fuel := by omega
      obtain ⟨pre, h1, _, h3⟩ := ih (n / 10) (Nat.digitChar (n % 10) :: ds) hlt
      refine ⟨pre ++ [Nat.digitChar (n % 10)], by simp [h0, h1], by simp, ?_⟩
      intro c hc
      rcases List.mem_append.1 hc with hc | hc
      · exact h3 c hc
      · simp only [List.mem_singleton] at hc
        rw [hc]
        exact hd

/-- The decimal text of a number is made of digits. -/
theorem repr_digits (n : Nat) : ∀ c ∈ (Nat.repr n).toList, c.isDigit = true := by
  obtain ⟨pre, h1, _, h3⟩ := toDigitsCore_digits (n + 1) n [] (Nat.lt_succ_self n)
  have e : (Nat.repr n).toList = pre := by
    show Nat.toDigits 10 n = pre
    rw [Nat.toDigits, h1, List.append_nil]
  rw [e]
  exact h3

/-- On a response that carries the count `n` and then a text beginning with
`MESSAGE|`, the client finds `OFFLINE_COUNT:`, then the first `MESSAGE|` after it, and
runs the segment loop on that text. -/
theorem extractOfflineMessageDetails_bundle (clock : Str → Str) (n : Nat) (later : Str)
    (hlater : "MESSAGE|".toList <+: later) :
    extractOfflineMessageDetails clock
        ("RESPONSE|SUCCESS|LOGIN_OK|登录成功|OFFLINE_COUNT:".toList ++ (Nat.repr n).toList ++
          "|".toList ++ later) =
      extractLoop clock
        (("RESPONSE|SUCCESS|LOGIN_OK|登录成功|OFFLINE_COUNT:".toList ++ (Nat.repr n).toList ++
          "|".toList ++ later).length + 1) later := by
  have hdig := repr_digits n
  have hbar : '|' ∉ "OFFLINE_COUNT:".toList ++ (Nat.repr n).toList := by
    intro h
    rcases List.mem_append.1 h with h | h
    · exact absurd h (by decide)
    · exact absurd (hdig _ h) (by decide)
  have hM : 'M' ∉ "OFFLINE_COUNT:".toList ++ (Nat.repr n).toList := by
    intro h
    rcases List.mem_append.1 h with h | h
    · exact absurd h (by decide)
    · exact absurd (hdig _ h) (by decide)
  have hsuf : ¬ "MESSAGE".toList <:+ "OFFLINE_COUNT:".toList ++ (Nat.repr n).toList := by
    intro h
    exact hM (h.subset (by decide))
  have hcount : findSub "OFFLINE_COUNT:".toList
      ("RESPONSE|SUCCESS|LOGIN_OK|登录成功|OFFLINE_COUNT:".toList ++ (Nat.repr n).toList ++
        "|".toList ++ later) = some 31 := by
    rw [List.append_assoc, List.append_assoc]
    exact findSub_extend _ _ _ 31 (by decide)
  have hdrop : ("RESPONSE|SUCCESS|LOGIN_OK|登录成功|OFFLINE_COUNT:".toList ++ (Nat.repr n).toList ++
        "|".toList ++ later).drop 31 =
      ("OFFLINE_COUNT:".toList ++ (Nat.repr n).toList) ++ '|' :: later := by
    have e : "RESPONSE|SUCCESS|LOGIN_OK|登录成功|OFFLINE_COUNT:".toList ++ (Nat.repr n).toList ++
        "|".toList ++ later =
        "RESPONSE|SUCCESS|LOGIN_OK|登录成功|".toList ++
          (("OFFLINE_COUNT:".toList ++ (Nat.repr n).toList) ++ '|' :: later) := by
      simp [List.append_assoc]
    rw [e]
    exact List.drop_left' (by decide)
  have hmsg : findSub "MESSAGE|".toList
      (("RESPONSE|SUCCESS|LOGIN_OK|登录成功|OFFLINE_COUNT:".toList ++ (Nat.repr n).toList ++
        "|".toList ++ later).drop 31) =
      some (("OFFLINE_COUNT:".toList ++ (Nat.repr n).toList).length + 1) := by
    rw [hdrop, findSub_skip_field _ _ hbar hsuf, findSub_hit _ _ hlater]
    simp only [Option.map_some', Nat.zero_add]
  have hdrop2 : ("RESPONSE|SUCCESS|LOGIN_OK|登录成功|OFFLINE_COUNT:".toList ++ (Nat.repr n).toList ++
        "|".toList ++ later).drop
        (31 + (("OFFLINE_COUNT:".toList ++ (Nat.repr n).toList).length + 1)) = later := by
    rw [← List.drop_drop, hdrop]
    have e : ("OFFLINE_COUNT:".toList ++ (Nat.repr n).toList) ++ '|' :: later =
        (("OFFLINE_COUNT:".toList ++ (Nat.repr n).toList) ++ "|".toList) ++ later := by
      simp [List.append_assoc]
    rw [e]
    exact List.drop_left' (by simp)
  unfold extractOfflineMessageDetails
  rw [hcount]
  simp only [hmsg, hdrop2]

theorem writtenRecord_valid (now : Str) (m : MessageData) :
    validateMessageFields (writtenRecord now m) = validateMessageFields m := rfl

theorem serializeMessage_writtenRecord (now now2 : Str) (m : MessageData) (hnow : now ≠ []) :
    serializeMessage now2 (writtenRecord now m) = serializeMessage now m := by
  cases ht : m.timestamp with
  | nil =>
    have he : now.isEmpty = false := by
      cases now with
      | nil => exact absurd rfl hnow
      | cons a l => rfl
    simp [serializeMessage, writtenRecord, validateMessageFields, ht, he]
  | cons a l =>
    simp [serializeMessage, writtenRecord, validateMessageFields, ht]

theorem writtenRecord_of_stamped (now : Str) (m : MessageData) (h : m.timestamp ≠ []) :
    writtenRecord now m = m := by
  cases m with
  | mk mid snd rcv cnt ts =>
    cases ts with
    | nil => exact absurd rfl h
    | cons a l => rfl

theorem isTimestampText_clean (now : Str) (h : IsTimestampText now) :
    now ≠ [] ∧ '|' ∉ now ∧ NoTag now := by
  refine ⟨h.1, ?_, ?_⟩
  · intro hm
    rcases h.2 _ hm with g | g | g | g
    · exact absurd g (by decide)
    · exact absurd g (by decide)
    · exact absurd g (by decide)
    · exact absurd g (by decide)
  · intro hi
    have hm : 'M' ∈ now := hi.subset (by decide)
    rcases h.2 _ hm with g | g | g | g
    · exact absurd g (by decide)
    · exact absurd g (by decide)
    · exact absurd g (by decide)
    · exact absurd g (by decide)

/-- C30: let the offline queue of `userId` hold the texts `serializeMessage` writes for
the records `ms`, a non-empty list of records that pass `validateMessageFields` and whose
five fields hold neither `|` nor the word `MESSAGE`. Then `extractOfflineMessageDetails`, applied
to the response of `createBundledLoginResponse`, returns the first `min k 50` records in
queue order, each with the five fields written in its queue entry (an empty
timestamp was written as the clock reading); when no timestamp is empty these are
the records themselves. -/
theorem client_parsing_undoes_bundling (clock : Str → Str) (now userId : Str)
    (s : ServerState) (ms : List MessageData)
    (hclock : IsTimestampText now)
    (hq : mfind userId s.m_offlineMessages = some (ms.map (serializeMessage now)))
    (hne : ms ≠ [])
    (hvalid : ∀ m ∈ ms, validateMessageFields m = true)
    (hclean : ∀ m ∈ ms,
      ∀ f ∈ [m.messageId, m.senderId, m.receiverId, m.content, m.timestamp],
        '|' ∉ f ∧ NoTag f) :
    extractOfflineMessageDetails clock (createBundledLoginResponse userId s).1 =
        some ((ms.take (min ms.length 50)).map (writtenRecord now)) ∧
      ((∀ m ∈ ms, m.timestamp ≠ []) →
        extractOfflineMessageDetails clock (createBundledLoginResponse userId s).1 =
          some (ms.take (min ms.length 50))) := by
  obtain ⟨hnow, hbar, htag⟩ := isTimestampText_clean now hclock
  have hqne : ms.map (serializeMessage now) ≠ [] := by
    cases ms with
    | nil => exact absurd rfl hne
    | cons a l => simp
  have hresp := (createBundledLoginResponse_spec userId s _ hq hqne).1
  have hlen : (ms.map (serializeMessage now)).length = ms.length := List.length_map _ _
  have htake : (ms.map (serializeMessage now)).take (min ms.length 50) =
      ((ms.take (min ms.length 50)).map (writtenRecord now)).map (serializeMessage now) := by
    rw [List.map_map, List.map_take]
    congr 1
    apply List.map_congr_left
    intro m _
    exact (serializeMessage_writtenRecord now now m hnow).symm
  rw [hlen, htake] at hresp
  have hmain : extractOfflineMessageDetails clock (createBundledLoginResponse userId s).1 =
      some ((ms.take (min ms.length 50)).map (writtenRecord now)) := by
    obtain ⟨m0, rest, hcons⟩ : ∃ m0 rest,
        (ms.take (min ms.length 50)).map (writtenRecord now) = m0 :: rest := by
      cases ms with
      | nil => exact absurd rfl hne
      | cons a l =>
        have : min (a :: l).length 50 = (min l.length 49) + 1 := by
          simp only [List.length_cons]
          omega
        rw [this]
        exact ⟨_, _, rfl⟩
    have hall : ∀ m ∈ (ms.take (min ms.length 50)).map (writtenRecord now),
        validateMessageFields m = true ∧ m.timestamp ≠ [] ∧
          ∀ f ∈ [m.messageId, m.senderId, m.receiverId, m.content, m.timestamp],
            '|' ∉ f ∧ NoTag f := by
      intro m hm
      obtain ⟨m1, hm1, rfl⟩ := List.mem_map.1 hm
      have hin : m1 ∈ ms := List.mem_of_mem_take hm1
      have hc := hclean m1 hin
      have hts : (writtenRecord now m1).timestamp ≠ [] ∧
          '|' ∉ (writtenRecord now m1).timestamp ∧ NoTag (writtenRecord now m1).timestamp := by
        cases ht : m1.timestamp with
        | nil =>
          have e : (writtenRecord now m1).timestamp = now := by
            simp [writtenRecord, ht]
          rw [e]
          exact ⟨hnow, hbar, htag⟩
        | cons a l =>
          have e : (writtenRecord now m1).timestamp = m1.timestamp := by
            simp [writtenRecord, ht]
          rw [e]
          have := hc m1.timestamp (by simp)
          exact ⟨by rw [ht]; simp, this.1, this.2⟩
      refine ⟨hvalid m1 hin, hts.1, ?_⟩
      intro f hf
      simp only [List.mem_cons, List.mem_singleton, List.not_mem_nil, or_false] at hf
      rcases hf with rfl | rfl | rfl | rfl | rfl
      · exact hc m1.messageId (by simp)
      · exact hc m1.senderId (by simp)
      · exact hc m1.receiverId (by simp)
      · exact hc m1.content (by simp)
      · exact ⟨hts.2.1, hts.2.2⟩
    rw [hresp, hcons] at *
    rw [extractOfflineMessageDetails_bundle clock _ _
      (intercalate_tag now m0 rest (hall m0 (List.mem_cons_self _ _)).1)]
    exact extractLoop_spec clock now (m0 :: rest) (by simp) hall _
      (by simp only [List.length_append]; omega)
  refine ⟨hmain, fun hst => ?_⟩
  rw [hmain]
  congr 1
  have : ∀ l : List MessageData, (∀ m ∈ l, m.timestamp ≠ []) →
      l.map (writtenRecord now) = l := by
    intro l hl
    induction l with
    | nil => rfl
    | cons a t ih =>
      rw [List.map_cons, writtenRecord_of_stamped now a (hl a (List.mem_cons_self _ _)),
        ih (fun m hm => hl m (List.mem_cons_of_mem _ hm))]
  exact this _ (fun m hm => hst m (List.mem_of_mem_take hm))

/-- C30, witness: the response built for `B` on `backlogServer`, whose queue holds the
texts of two records, is parsed back into these two records. -/
theorem client_parsing_undoes_bundling_witness :
    extractOfflineMessageDetails (fun _ => clockText)
        (createBundledLoginResponse "B".toList backlogServer).1 =
      some [{ messageId := "1".toList, senderId := "A".toList, receiverId := "B".toList,
              content := "hi".toList, timestamp := "t".toList },
            { messageId := "2".toList, senderId := "C".toList, receiverId := "B".toList,
              content := "yo".toList, timestamp := "t".toList }] :=
  (client_parsing_undoes_bundling (fun _ => clockText) clockText "B".toList backlogServer
    [{ messageId := "1".toList, senderId := "A".toList, receiverId := "B".toList,
       content := "hi".toList, timestamp := "t".toList },
     { messageId := "2".toList, senderId := "C".toList, receiverId := "B".toList,
       content := "yo".toList, timestamp := "t".toList }]
    ⟨by decide, by decide⟩ (by decide) (by decide) (by decide)
    (by decide)).2 (by decide)

end WX
